import Mathlib

/-!
Leaderboard compute service: period windows, aggregation, ranking, snapshots.

A shallow embedding of `services/leaderboard_compute_service.go` together with the parts of
its collaborators that the service relies on:

* the Go `time` package (calendar arithmetic of `Date`, `AddDate`, `Add`, `Weekday`, ...,
  with the zone lookup of a `*time.Location`),
* the relational store behind GORM (the aggregate queries, the two upserts, the read-back
  of a city's rows and the update of `local_rank` by primary key).

Integers are unbounded (`Int`, `Nat`); the 64-bit range of Go's `int` and of `time.Time` is
not modelled, so every statement is about values far from those limits.
-/

namespace Leaderboard

/-! ## Go `time` -/

/-- What `(*Location).lookup(sec)` returns, as far as `abs` and `Date` use it: the offset
(seconds east of UTC) in force at the Unix second `sec` and the Unix seconds `start` and
`stop` (Go: `end`) between which that offset is in force.  The zone name and the
daylight-saving flag are left out. -/
structure ZoneSpan where
  offset : Int
  start : Int
  stop : Int
deriving DecidableEq, Repr

/-- A `*time.Location`, given by its method `lookup`.  Every location is of this form:
`time.UTC`, a `time.FixedZone`, `time.Local`, and a zone of the time zone database with its
transition table and the rule that extends it. -/
structure Location where
  lookup : Int → ZoneSpan

/-- The constant `alpha` of package `time`: the start of the span of a zone that has no
transition before it. -/
def alpha : Int := -(2 ^ 63)

/-- The constant `omega` of package `time`: the end of the span of a zone that has no
transition after it. -/
def omega : Int := 2 ^ 63 - 1

/-- The location `time.UTC`. -/
def UTC : Location := ⟨fun _ => ⟨0, alpha, omega⟩⟩

/-- The location `time.FixedZone(name, offset)`: one zone at all times. -/
def FixedZone (offset : Int) : Location := ⟨fun _ => ⟨offset, alpha, omega⟩⟩

/-- The search of `(*Location).lookup` in the transition table `tx` (pairs of the Unix
second of a transition and the offset in force from it on, in ascending order): the span of
the last transition at or before `sec`; `cur` is the span found so far. -/
def lookupFrom (sec : Int) (cur : ZoneSpan) : List (Int × Int) → ZoneSpan
  | [] => cur
  | (w, offset) :: rest =>
    if sec < w then { cur with stop := w } else lookupFrom sec ⟨offset, w, omega⟩ rest

/-- A location with the offset `first` before the first transition of the table `tx` and no
rule that extends the table. -/
def tableLocation (first : Int) (tx : List (Int × Int)) : Location :=
  ⟨fun sec => lookupFrom sec ⟨first, alpha, omega⟩ tx⟩

/-- A `time.Time`: an instant with nanosecond precision (`unixNano`, nanoseconds since
1970-01-01T00:00:00Z) and the location it is displayed in.  The monotonic clock reading of
`time.Now()` is not modelled: `Date` and `AddDate` drop it, and the service never compares
two readings. -/
structure Time where
  unixNano : Int
  loc : Location

/-- The `time.Weekday` value `time.Sunday`; weekdays are the integers 0 (Sunday) to 6
(Saturday). -/
def Sunday : Int := 0

/-- The `time.Weekday` value `time.Monday`. -/
def Monday : Int := 1

/-- The `time.Month` value `time.January`; months are the integers 1 to 12. -/
def January : Int := 1

def secondsPerMinute : Int := 60

def secondsPerHour : Int := 60 * secondsPerMinute

def secondsPerDay : Int := 24 * secondsPerHour

def secondsPerWeek : Int := 7 * secondsPerDay

def daysPer400Years : Int := 365 * 400 + 97

def daysPer100Years : Int := 365 * 100 + 24

def daysPer4Years : Int := 365 * 4 + 1

/-- A `time.Duration` is a count of nanoseconds; this is `time.Second`. -/
def Second : Int := 1000000000

/-- Seconds from 0001-01-01T00:00:00Z (the zero `time.Time`) to the Unix epoch. -/
def unixToInternal : Int :=
  (1969 * 365 + 1969 / 4 - 1969 / 100 + 1969 / 400) * secondsPerDay

/-- The method `t.Unix()`: whole seconds since the Unix epoch. -/
def Time.Unix (t : Time) : Int := t.unixNano / 1000000000

/-- The method `t.Nanosecond()`: the sub-second part, in `[0, 999999999]`. -/
def Time.Nanosecond (t : Time) : Int := t.unixNano % 1000000000

/-- The method `t.abs()`: seconds on `t`'s wall clock, which is ahead of UTC by the offset
that the location of `t` has at `t`, counted from January 1 of year 1.
(Go counts from a year much further back that is also `1` modulo 400 and also starts on a
Monday, so that the count is never negative; here negative counts are handled by floor
division instead.) -/
def Time.abs (t : Time) : Int :=
  t.Unix + (t.loc.lookup t.Unix).offset + unixToInternal

/-- The function `isLeap` of package `time`. -/
def isLeap (year : Int) : Bool :=
  year % 4 = 0 && (year % 100 != 0 || year % 400 = 0)

/-- The table `daysBefore`: `daysBefore m` is the number of days in a non-leap year before
month `m + 1` begins. -/
def daysBefore (m : Int) : Int :=
  [0, 31, 59, 90, 120, 151, 181, 212, 243, 273, 304, 334, 365].getD m.toNat 0

/-- The function `daysIn` of package `time`: the length of a month. -/
def daysIn (m : Int) (year : Int) : Int :=
  if m = 2 ∧ isLeap year = true then 29 else daysBefore m - daysBefore (m - 1)

/-- The function `daysSinceEpoch`: days from January 1 of year 1 to January 1 of `year`. -/
def daysSinceEpoch (year : Int) : Int :=
  let y := year - 1
  let n := y / 400
  let y := y - 400 * n
  let d := daysPer400Years * n
  let n := y / 100
  let y := y - 100 * n
  let d := d + daysPer100Years * n
  let n := y / 4
  let y := y - 4 * n
  let d := d + daysPer4Years * n
  d + 365 * y

/-- The first half of `absDate`: the year of an absolute day count and the 0-based day
within that year. -/
def absYear (days : Int) : Int × Int :=
  let d := days
  let n := d / daysPer400Years
  let y := 400 * n
  let d := d - daysPer400Years * n
  let n := d / daysPer100Years
  let n := n - n / 4
  let y := y + 100 * n
  let d := d - daysPer100Years * n
  let n := d / daysPer4Years
  let y := y + 4 * n
  let d := d - daysPer4Years * n
  let n := d / 365
  let n := n - n / 4
  let y := y + n
  let d := d - 365 * n
  (y + 1, d)

/-- The month estimate at the end of `absDate`, on the 0-based day of a year from which
February 29 has been taken out: assume every month has 31 days, then adjust by at most one
month. -/
def monthOfDay (day : Int) : Int × Int :=
  let month := day / 31
  let endd := daysBefore (month + 1)
  if day ≥ endd then (month + 1 + 1, day - endd + 1)
  else (month + 1, day - daysBefore month + 1)

/-- The second half of `absDate`: month and day of month from the year and the 0-based day
of the year. -/
def absMonthDay (year yday : Int) : Int × Int :=
  if isLeap year = true ∧ yday = 31 + 29 - 1 then (2, 29)
  else monthOfDay (if isLeap year = true ∧ yday > 31 + 29 - 1 then yday - 1 else yday)

/-- The function `absDate` on an absolute count of seconds: year, month, day of month. -/
def absDate (abs : Int) : Int × Int × Int :=
  let yd := absYear (abs / secondsPerDay)
  let md := absMonthDay yd.1 yd.2
  (yd.1, md.1, md.2)

/-- The method `t.Year()`. -/
def Time.Year (t : Time) : Int := (absDate t.abs).1

/-- The method `t.Month()`. -/
def Time.Month (t : Time) : Int := (absDate t.abs).2.1

/-- The method `t.Day()`. -/
def Time.Day (t : Time) : Int := (absDate t.abs).2.2

/-- The method `t.Weekday()` (`absWeekday`): January 1 of year 1 was a Monday. -/
def Time.Weekday (t : Time) : Int :=
  (t.abs + Monday * secondsPerDay) % secondsPerWeek / secondsPerDay

/-- The method `t.Hour()`. -/
def Time.Hour (t : Time) : Int := t.abs % secondsPerDay / secondsPerHour

/-- The method `t.Minute()`. -/
def Time.Minute (t : Time) : Int := t.abs % secondsPerHour / secondsPerMinute

/-- The method `t.Second()`. -/
def Time.Second (t : Time) : Int := t.abs % secondsPerMinute

/-- The function `norm` of package `time`: bring `lo` into `[0, base)` by moving whole
multiples of `base` into `hi`. -/
def norm (hi lo base : Int) : Int × Int :=
  let p : Int × Int :=
    if lo < 0 then
      let n := (-lo - 1) / base + 1
      (hi - n, lo + n * base)
    else (hi, lo)
  if p.2 ≥ base then
    let n := p.2 / base
    (p.1 + n, p.2 - n * base)
  else p

/-- The function `time.Date`: the fields are normalised and counted as seconds of a UTC
time, `unix`; the offset to take off is that of the zone found at `unix`, or, when `unix`
less that offset is outside the span of that zone, that of the zone found there.  The result
is the instant whose wall clock in `loc` reads the given fields when there is one; for a
wall clock reading that a transition of `loc` skips it is an instant near the transition. -/
def Date (year : Int) (month : Int) (day hour min sec nsec : Int) (loc : Location) : Time :=
  let ym := norm year (month - 1) 12
  let year := ym.1
  let month := ym.2 + 1
  let sn := norm sec nsec 1000000000
  let ms := norm min sn.1 60
  let hm := norm hour ms.1 60
  let dh := norm day hm.1 24
  let d := daysSinceEpoch year + daysBefore (month - 1)
  let d := if isLeap year = true ∧ month ≥ 3 then d + 1 else d
  let d := d + (dh.1 - 1)
  let abs := d * secondsPerDay + (dh.2 * secondsPerHour + hm.2 * secondsPerMinute + ms.2)
  let unix := abs - unixToInternal
  let z := loc.lookup unix
  let unix :=
    if z.offset ≠ 0 then
      let utc := unix - z.offset
      let offset := if utc < z.start ∨ utc ≥ z.stop then (loc.lookup utc).offset else z.offset
      unix - offset
    else unix
  ⟨unix * 1000000000 + sn.2, loc⟩

/-- The method `t.AddDate(years, months, days)`. -/
def Time.AddDate (t : Time) (years months days : Int) : Time :=
  Date (t.Year + years) (t.Month + months) (t.Day + days) t.Hour t.Minute t.Second
    t.Nanosecond t.loc

/-- The method `t.Add(d)` for a duration of `d` nanoseconds. -/
def Time.Add (t : Time) (d : Int) : Time := ⟨t.unixNano + d, t.loc⟩

/-- The negation of `u.After(t)`: instant `u` is at or before instant `t`. -/
def Time.notAfter (u t : Time) : Prop := u.unixNano ≤ t.unixNano

instance (u t : Time) : Decidable (u.notAfter t) := by
  unfold Time.notAfter
  infer_instance

/-! ## The period window calculator (`leaderboard_compute_service.go`, time helpers) -/

def getWeekStart (t : Time) : Time :=
  let weekday := t.Weekday
  let weekday := if weekday = Sunday then 7 else weekday
  let daysToSubtract := weekday - Monday
  let weekStart := t.AddDate 0 0 (-daysToSubtract)
  Date weekStart.Year weekStart.Month weekStart.Day 0 0 0 0 UTC

def getWeekEnd (t : Time) : Time :=
  let weekStart := getWeekStart t
  (weekStart.AddDate 0 0 7).Add (-Second)

def getMonthStart (t : Time) : Time :=
  Date t.Year t.Month 1 0 0 0 0 UTC

def getMonthEnd (t : Time) : Time :=
  ((getMonthStart t).AddDate 0 1 0).Add (-Second)

def getYearStart (t : Time) : Time :=
  Date t.Year January 1 0 0 0 0 UTC

def getYearEnd (t : Time) : Time :=
  ((getYearStart t).AddDate 1 0 0).Add (-Second)

/-! ## The relational store -/

/-- A row of table `clubs`, as far as the service reads it: the primary key, the column
`address_city` (a NULL is read as the empty string) and the soft-delete marker of
`gorm.Model`. -/
structure Club where
  ID : Nat
  AddressCity : String
  DeletedAt : Option Int
deriving DecidableEq, Repr

/-- A row of table `user_points_windowed` (model `UserPointsWindowed`), the points ledger.
The three window-start columns hold instants (nanoseconds since the Unix epoch). -/
structure UserPointsWindowed where
  UserID : Nat
  ClubID : Nat
  Points : Int
  WeekStart : Int
  MonthStart : Int
  YearStart : Int
deriving DecidableEq, Repr

/-- A row of table `club_leaderboard_snapshots` (model `ClubLeaderboardSnapshot`).  The
columns `created_at`, `updated_at` and `deleted_at` of `gorm.Model` are left out: the service
never deletes a snapshot, and the two time stamps influence no other column. -/
structure ClubLeaderboardSnapshot where
  ID : Nat
  ClubID : Nat
  TotalPoints : Int
  MemberCount : Int
  ActiveMemberCount : Int
  PeriodType : String
  PeriodStart : Int
  PeriodEnd : Int
  GlobalRank : Option Int
  LocalRank : Option Int
  City : String
deriving DecidableEq, Repr

/-- A row of table `user_club_leaderboard_snapshots` (model `UserClubLeaderboardSnapshot`),
with the same columns left out. -/
structure UserClubLeaderboardSnapshot where
  ID : Nat
  UserID : Nat
  ClubID : Nat
  PointsContributed : Int
  PeriodType : String
  PeriodStart : Int
  PeriodEnd : Int
  ClubRank : Option Int
deriving DecidableEq, Repr

/-- An error reported by the database driver for one statement. -/
structure DBError where
  message : String
deriving DecidableEq, Repr

/-- How the store executes `ORDER BY score DESC`: the result is a rearrangement of the rows
with scores descending; which of two rows with equal scores comes first is up to the store. -/
structure Sorter where
  orderBy : {α : Type} → (α → Int) → List α → List α
  perm : ∀ {α : Type} (score : α → Int) (rows : List α), (orderBy score rows).Perm rows
  sorted : ∀ {α : Type} (score : α → Int) (rows : List α),
    (orderBy score rows).Pairwise (fun a b => score a ≥ score b)

/-- What the service does not control: how the store orders rows with equal scores
(`sorter`), the order in which rows of a query without `ORDER BY` and the keys of a Go map
come (`anyOrder`), and which statements fail (`fault n` is the error of the statement
executed when `n` statements have been executed before it, if it fails). -/
structure Env where
  sorter : Sorter
  anyOrder : {α : Type} → List α → List α
  anyOrder_perm : ∀ {α : Type} (rows : List α), (anyOrder rows).Perm rows
  fault : Nat → Option DBError

/-- The state of the database: the four tables, the two sequences that number new snapshot
rows, and the count of statements executed so far. -/
structure DB where
  clubs : List Club
  userPointsWindowed : List UserPointsWindowed
  clubSnapshots : List ClubLeaderboardSnapshot
  userClubSnapshots : List UserClubLeaderboardSnapshot
  clubSnapshotSeq : Nat
  userClubSnapshotSeq : Nat
  statements : Nat
deriving DecidableEq, Repr

/-- Executing one statement: it is counted, and it fails when the environment says so. -/
def DB.exec (env : Env) (db : DB) : DB × Option DBError :=
  ({ db with statements := db.statements + 1 }, env.fault db.statements)

/-- The ledger column that the `windowField` spliced into the query text names; a name that
is no column makes the statement fail. -/
def windowColumn (windowField : String) : Option (UserPointsWindowed → Int) :=
  if windowField = "week_start" then some UserPointsWindowed.WeekStart
  else if windowField = "month_start" then some UserPointsWindowed.MonthStart
  else if windowField = "year_start" then some UserPointsWindowed.YearStart
  else none

/-- The error of a statement that names a column the table does not have. -/
def undefinedColumn : DBError := ⟨"column does not exist"⟩

/-- A row of the club aggregation (the local type `ClubPoints`). -/
structure ClubPoints where
  ClubID : Nat
  TotalPoints : Int
  ActiveMemberCount : Int
  City : String
deriving DecidableEq, Repr

/-- A row of the contributor aggregation (the local type `UserPoints`). -/
structure UserPoints where
  UserID : Nat
  Points : Int
deriving DecidableEq, Repr

/-- The ledger rows that the `LEFT JOIN` pairs with club `clubID`:
`upw.club_id = c.id AND upw.<windowField> = ?`. -/
def joinedEntries (ledger : List UserPointsWindowed) (col : UserPointsWindowed → Int)
    (periodStart : Int) (clubID : Nat) : List UserPointsWindowed :=
  ledger.filter (fun e => decide (e.ClubID = clubID ∧ col e = periodStart))

/-- The group of one club in the club aggregation.  `clubs.id` is the primary key, so
`GROUP BY c.id, c.address_city` has one group per club row; `COALESCE(SUM(upw.points), 0)`
is the sum over the joined rows (0 when there is none) and `COUNT(DISTINCT upw.user_id)`
the number of distinct users among them. -/
def clubGroup (ledger : List UserPointsWindowed) (col : UserPointsWindowed → Int)
    (periodStart : Int) (c : Club) : ClubPoints :=
  { ClubID := c.ID
    TotalPoints := ((joinedEntries ledger col periodStart c.ID).map (fun e => e.Points)).sum
    ActiveMemberCount :=
      (((joinedEntries ledger col periodStart c.ID).map (fun e => e.UserID)).dedup.length : Nat)
    City := c.AddressCity }

/-- The raw club aggregation query of `computeClubLeaderboard`, bound to `periodStart`. -/
def DB.aggregateClubPoints (env : Env) (windowField : String) (periodStart : Time) (db : DB) :
    DB × Except DBError (List ClubPoints) :=
  match db.exec env with
  | (db1, some err) => (db1, .error err)
  | (db1, none) =>
    match windowColumn windowField with
    | none => (db1, .error undefinedColumn)
    | some col =>
      (db1, .ok (env.sorter.orderBy (fun cp => cp.TotalPoints)
        (db1.clubs.map (clubGroup db1.userPointsWindowed col periodStart.unixNano))))

/-- The row that `ON CONFLICT (club_id, period_type, period_start)` finds in conflict. -/
def ClubLeaderboardSnapshot.conflicts (r s : ClubLeaderboardSnapshot) : Bool :=
  decide (r.ClubID = s.ClubID ∧ r.PeriodType = s.PeriodType ∧ r.PeriodStart = s.PeriodStart)

/-- The `DO UPDATE` of the club upsert: `total_points`, `active_member_count`, `global_rank`,
`city` and `period_end` are overwritten (and `updated_at`, not modelled); the other columns
of the existing row stay. -/
def ClubLeaderboardSnapshot.assign (r s : ClubLeaderboardSnapshot) : ClubLeaderboardSnapshot :=
  { r with
    TotalPoints := s.TotalPoints
    ActiveMemberCount := s.ActiveMemberCount
    GlobalRank := s.GlobalRank
    City := s.City
    PeriodEnd := s.PeriodEnd }

/-- The effect of `INSERT ... ON CONFLICT ... DO UPDATE` on the club snapshot table: with a
row in conflict that row is updated, without one the snapshot is added with a new id. -/
def upsertClubRow (rows : List ClubLeaderboardSnapshot) (seq : Nat)
    (s : ClubLeaderboardSnapshot) : List ClubLeaderboardSnapshot :=
  if rows.any (fun r => r.conflicts s) then
    rows.map (fun r => if r.conflicts s then r.assign s else r)
  else rows ++ [{ s with ID := seq }]

/-- The statement `Clauses(clause.OnConflict{...}).Create(&snapshot)` on a club snapshot.
The sequence moves on whether or not there is a conflict. -/
def DB.upsertClubSnapshot (env : Env) (s : ClubLeaderboardSnapshot) (db : DB) :
    DB × Option DBError :=
  match db.exec env with
  | (db1, some err) => (db1, some err)
  | (db1, none) =>
    ({ db1 with
        clubSnapshots := upsertClubRow db1.clubSnapshots db1.clubSnapshotSeq s
        clubSnapshotSeq := db1.clubSnapshotSeq + 1 }, none)

/-- The condition `city = ? AND period_type = ? AND period_start = ?`. -/
def ClubLeaderboardSnapshot.inCity (city periodType : String) (periodStart : Int)
    (r : ClubLeaderboardSnapshot) : Bool :=
  decide (r.City = city ∧ r.PeriodType = periodType ∧ r.PeriodStart = periodStart)

/-- The query `Where("city = ? AND period_type = ? AND period_start = ?", ...)
.Order("total_points DESC").Find(&cityClubs)`. -/
def DB.findCityClubs (env : Env) (city periodType : String) (periodStart : Time) (db : DB) :
    DB × Except DBError (List ClubLeaderboardSnapshot) :=
  match db.exec env with
  | (db1, some err) => (db1, .error err)
  | (db1, none) =>
    (db1, .ok (env.sorter.orderBy (fun r => r.TotalPoints)
      (db1.clubSnapshots.filter
        (ClubLeaderboardSnapshot.inCity city periodType periodStart.unixNano))))

/-- The effect of `UPDATE ... SET local_rank = ? WHERE id = ?` on the table. -/
def setLocalRank (rows : List ClubLeaderboardSnapshot) (id : Nat) (rank : Int) :
    List ClubLeaderboardSnapshot :=
  rows.map (fun r => if r.ID = id then { r with LocalRank := some rank } else r)

/-- The statement `Model(&models.ClubLeaderboardSnapshot{}).Where("id = ?", id)
.Update("local_rank", rank)`. -/
def DB.updateLocalRank (env : Env) (id : Nat) (rank : Int) (db : DB) : DB × Option DBError :=
  match db.exec env with
  | (db1, some err) => (db1, some err)
  | (db1, none) => ({ db1 with clubSnapshots := setLocalRank db1.clubSnapshots id rank }, none)

/-- The query `s.db.Find(&clubs)`: the clubs that are not soft-deleted, in no promised
order. -/
def DB.findClubs (env : Env) (db : DB) : DB × Except DBError (List Club) :=
  match db.exec env with
  | (db1, some err) => (db1, .error err)
  | (db1, none) => (db1, .ok (env.anyOrder (db1.clubs.filter (fun c => c.DeletedAt.isNone))))

/-- The ledger rows of the contributor aggregation: `club_id = ? AND <windowField> = ?`. -/
def clubEntries (ledger : List UserPointsWindowed) (col : UserPointsWindowed → Int)
    (periodStart : Int) (clubID : Nat) : List UserPointsWindowed :=
  ledger.filter (fun e => decide (e.ClubID = clubID ∧ col e = periodStart))

/-- The group of one user in the contributor aggregation: `COALESCE(SUM(points), 0)` over
the user's rows. -/
def userGroup (entries : List UserPointsWindowed) (userID : Nat) : UserPoints :=
  { UserID := userID
    Points := ((entries.filter (fun e => decide (e.UserID = userID))).map
      (fun e => e.Points)).sum }

/-- The raw contributor aggregation query of `computeUserClubLeaderboard` for one club:
one group per user with a row, ordered by points descending. -/
def DB.aggregateUserContributions (env : Env) (windowField : String) (clubID : Nat)
    (periodStart : Time) (db : DB) : DB × Except DBError (List UserPoints) :=
  match db.exec env with
  | (db1, some err) => (db1, .error err)
  | (db1, none) =>
    match windowColumn windowField with
    | none => (db1, .error undefinedColumn)
    | some col =>
      let entries := clubEntries db1.userPointsWindowed col periodStart.unixNano clubID
      (db1, .ok (env.sorter.orderBy (fun up => up.Points)
        ((entries.map (fun e => e.UserID)).dedup.map (userGroup entries))))

/-- The row that `ON CONFLICT (user_id, club_id, period_type, period_start)` finds in
conflict. -/
def UserClubLeaderboardSnapshot.conflicts (r s : UserClubLeaderboardSnapshot) : Bool :=
  decide (r.UserID = s.UserID ∧ r.ClubID = s.ClubID ∧ r.PeriodType = s.PeriodType ∧
    r.PeriodStart = s.PeriodStart)

/-- The `DO UPDATE` of the user-club upsert: `points_contributed`, `club_rank` and
`period_end` are overwritten (and `updated_at`, not modelled). -/
def UserClubLeaderboardSnapshot.assign (r s : UserClubLeaderboardSnapshot) :
    UserClubLeaderboardSnapshot :=
  { r with
    PointsContributed := s.PointsContributed
    ClubRank := s.ClubRank
    PeriodEnd := s.PeriodEnd }

/-- The effect of `INSERT ... ON CONFLICT ... DO UPDATE` on the user-club snapshot table. -/
def upsertUserClubRow (rows : List UserClubLeaderboardSnapshot) (seq : Nat)
    (s : UserClubLeaderboardSnapshot) : List UserClubLeaderboardSnapshot :=
  if rows.any (fun r => r.conflicts s) then
    rows.map (fun r => if r.conflicts s then r.assign s else r)
  else rows ++ [{ s with ID := seq }]

/-- The statement `Clauses(clause.OnConflict{...}).Create(&snapshot)` on a user-club
snapshot. -/
def DB.upsertUserClubSnapshot (env : Env) (s : UserClubLeaderboardSnapshot) (db : DB) :
    DB × Option DBError :=
  match db.exec env with
  | (db1, some err) => (db1, some err)
  | (db1, none) =>
    ({ db1 with
        userClubSnapshots := upsertUserClubRow db1.userClubSnapshots db1.userClubSnapshotSeq s
        userClubSnapshotSeq := db1.userClubSnapshotSeq + 1 }, none)

/-! ## The service (`leaderboard_compute_service.go`) -/

/-- The errors that the service returns: the driver's error wrapped by `fmt.Errorf` with the
message of the step that failed. -/
inductive Error where
  | aggregateClubPoints (cause : DBError)
  | saveClubSnapshot (cause : DBError)
  | getCityClubs (cause : DBError)
  | updateLocalRank (cause : DBError)
  | getClubs (cause : DBError)
  | aggregateUserContributions (clubID : Nat) (cause : DBError)
  | saveUserClubSnapshot (cause : DBError)
deriving DecidableEq, Repr

/-- The value `models.ClubLeaderboardSnapshot{...}` built in the loop over `clubPoints` for
the row `cp` at index `globalRank`: no id, member count and local rank left at their zero
values. -/
def newClubSnapshot (periodType : String) (periodStart periodEnd : Time) (cp : ClubPoints)
    (globalRank : Nat) : ClubLeaderboardSnapshot :=
  let rank : Int := globalRank + 1
  { ID := 0
    ClubID := cp.ClubID
    TotalPoints := cp.TotalPoints
    MemberCount := 0
    ActiveMemberCount := cp.ActiveMemberCount
    PeriodType := periodType
    PeriodStart := periodStart.unixNano
    PeriodEnd := periodEnd.unixNano
    GlobalRank := some rank
    LocalRank := none
    City := cp.City }

/-- The loop `for globalRank, cp := range clubPoints` of `computeClubLeaderboard`, from
index `globalRank` on. -/
def upsertClubSnapshots (env : Env) (periodType : String) (periodStart periodEnd : Time) :
    List ClubPoints → Nat → DB → DB × Option Error
  | [], _, db => (db, none)
  | cp :: rest, globalRank, db =>
    match db.upsertClubSnapshot env
        (newClubSnapshot periodType periodStart periodEnd cp globalRank) with
    | (db1, some err) => (db1, some (Error.saveClubSnapshot err))
    | (db1, none) => upsertClubSnapshots env periodType periodStart periodEnd rest
        (globalRank + 1) db1

/-- The keys of the map `cities`: the distinct non-empty cities of the aggregation. -/
def cityKeys (clubPoints : List ClubPoints) : List String :=
  ((clubPoints.filter (fun cp => decide (cp.City ≠ ""))).map (fun cp => cp.City)).dedup

/-- The loop `for localRank, club := range cityClubs`, from index `localRank` on. -/
def updateLocalRanks (env : Env) :
    List ClubLeaderboardSnapshot → Nat → DB → DB × Option Error
  | [], _, db => (db, none)
  | club :: rest, localRank, db =>
    let rank : Int := localRank + 1
    match db.updateLocalRank env club.ID rank with
    | (db1, some err) => (db1, some (Error.updateLocalRank err))
    | (db1, none) => updateLocalRanks env rest (localRank + 1) db1

/-- The loop `for city := range cities` over the cities in the order the map yields them. -/
def computeCityRanks (env : Env) (periodType : String) (periodStart : Time) :
    List String → DB → DB × Option Error
  | [], db => (db, none)
  | city :: rest, db =>
    match db.findCityClubs env city periodType periodStart with
    | (db1, .error err) => (db1, some (Error.getCityClubs err))
    | (db1, .ok cityClubs) =>
      match updateLocalRanks env cityClubs 0 db1 with
      | (db2, some err) => (db2, some err)
      | (db2, none) => computeCityRanks env periodType periodStart rest db2

def computeClubLeaderboard (env : Env) (periodType : String) (periodStart periodEnd : Time)
    (windowField : String) (db : DB) : DB × Option Error :=
  match db.aggregateClubPoints env windowField periodStart with
  | (db1, .error err) => (db1, some (Error.aggregateClubPoints err))
  | (db1, .ok clubPoints) =>
    match upsertClubSnapshots env periodType periodStart periodEnd clubPoints 0 db1 with
    | (db2, some err) => (db2, some err)
    | (db2, none) =>
      computeCityRanks env periodType periodStart (env.anyOrder (cityKeys clubPoints)) db2

/-- The value `models.UserClubLeaderboardSnapshot{...}` built in the loop over
`userContributions` for the row `uc` at index `rank`. -/
def newUserClubSnapshot (periodType : String) (periodStart periodEnd : Time) (clubID : Nat)
    (uc : UserPoints) (rank : Nat) : UserClubLeaderboardSnapshot :=
  let clubRank : Int := rank + 1
  { ID := 0
    UserID := uc.UserID
    ClubID := clubID
    PointsContributed := uc.Points
    PeriodType := periodType
    PeriodStart := periodStart.unixNano
    PeriodEnd := periodEnd.unixNano
    ClubRank := some clubRank }

/-- The loop `for rank, uc := range userContributions` of `computeUserClubLeaderboard`, from
index `rank` on. -/
def upsertUserClubSnapshots (env : Env) (periodType : String) (periodStart periodEnd : Time)
    (clubID : Nat) : List UserPoints → Nat → DB → DB × Option Error
  | [], _, db => (db, none)
  | uc :: rest, rank, db =>
    match db.upsertUserClubSnapshot env
        (newUserClubSnapshot periodType periodStart periodEnd clubID uc rank) with
    | (db1, some err) => (db1, some (Error.saveUserClubSnapshot err))
    | (db1, none) => upsertUserClubSnapshots env periodType periodStart periodEnd clubID rest
        (rank + 1) db1

/-- The loop `for _, club := range clubs` of `computeUserClubLeaderboard`. -/
def computeClubContributors (env : Env) (periodType : String) (periodStart periodEnd : Time)
    (windowField : String) : List Club → DB → DB × Option Error
  | [], db => (db, none)
  | club :: rest, db =>
    match db.aggregateUserContributions env windowField club.ID periodStart with
    | (db1, .error err) => (db1, some (Error.aggregateUserContributions club.ID err))
    | (db1, .ok userContributions) =>
      match upsertUserClubSnapshots env periodType periodStart periodEnd club.ID
          userContributions 0 db1 with
      | (db2, some err) => (db2, some err)
      | (db2, none) =>
        computeClubContributors env periodType periodStart periodEnd windowField rest db2

def computeUserClubLeaderboard (env : Env) (periodType : String)
    (periodStart periodEnd : Time) (windowField : String) (db : DB) : DB × Option Error :=
  match db.findClubs env with
  | (db1, .error err) => (db1, some (Error.getClubs err))
  | (db1, .ok clubs) =>
    computeClubContributors env periodType periodStart periodEnd windowField clubs db1

/-- An element of the slice `periods` of `ComputeAllLeaderboards`. -/
structure Period where
  periodType : String
  periodStart : Time
  periodEnd : Time
  windowField : String

/-- The slice `periods` that `ComputeAllLeaderboards` builds from `now`. -/
def periods (now : Time) : List Period :=
  [ { periodType := "weekly"
      periodStart := getWeekStart now
      periodEnd := getWeekEnd now
      windowField := "week_start" },
    { periodType := "monthly"
      periodStart := getMonthStart now
      periodEnd := getMonthEnd now
      windowField := "month_start" },
    { periodType := "annual"
      periodStart := getYearStart now
      periodEnd := getYearEnd now
      windowField := "year_start" } ]

/-- The loop `for _, period := range periods` of `ComputeAllLeaderboards`. -/
def computePeriods (env : Env) : List Period → DB → DB × Option Error
  | [], db => (db, none)
  | period :: rest, db =>
    match computeClubLeaderboard env period.periodType period.periodStart period.periodEnd
        period.windowField db with
    | (db1, some err) => (db1, some err)
    | (db1, none) =>
      match computeUserClubLeaderboard env period.periodType period.periodStart
          period.periodEnd period.windowField db1 with
      | (db2, some err) => (db2, some err)
      | (db2, none) => computePeriods env rest db2

/-- The method `ComputeAllLeaderboards`; `now` is the value of `time.Now()`.  The result is
the database as the call leaves it and the error returned (`none` for `nil`). -/
def ComputeAllLeaderboards (env : Env) (now : Time) (db : DB) : DB × Option Error :=
  computePeriods env (periods now) db

/-! ## Definitions used to state the properties -/

/-- Days from January 1 of year 1 to the (possibly un-normalised) day `d` of month `m`. -/
def dateDays (year : Int) (m : Int) (d : Int) : Int :=
  daysSinceEpoch year + daysBefore (m - 1) + (if isLeap year = true ∧ m ≥ 3 then 1 else 0)
    + (d - 1)

/-- The offset of `t`'s location at the instant `t` (the second result of `t.Zone()`). -/
def Time.zoneOffset (t : Time) : Int := (t.loc.lookup t.Unix).offset

/-- The offset that `Date` takes off the seconds `unix` of a wall clock reading counted as a
UTC time. -/
def Location.wallOffset (loc : Location) (unix : Int) : Int :=
  if (loc.lookup unix).offset ≠ 0 then
    if unix - (loc.lookup unix).offset < (loc.lookup unix).start ∨
        unix - (loc.lookup unix).offset ≥ (loc.lookup unix).stop then
      (loc.lookup (unix - (loc.lookup unix).offset)).offset
    else (loc.lookup unix).offset
  else 0

/-- The wall clock of `t` read as a UTC time: the instant that shows in UTC the date and
clock that `t` shows in its own location.  It is `t` itself when `t` is in UTC. -/
def Time.wallUTC (t : Time) : Time := ⟨t.unixNano + t.zoneOffset * Leaderboard.Second, UTC⟩

/-- The method `t.Truncate(time.Second)`: `t` rounded down to a whole second. -/
def Time.truncSecond (t : Time) : Time := ⟨t.unixNano - t.unixNano % Leaderboard.Second, t.loc⟩

/-- The number of days from the Monday of `t`'s week to the date that `t` shows: 0 on a
Monday, 6 on a Sunday. -/
def Time.daysSinceMonday (t : Time) : Int := if t.Weekday = Sunday then 6 else t.Weekday - 1

/-- The location of `t` has the offset it has at `t` also at the two seconds that `Date`
looks up when `t` is moved by `days` days: the instant `days` times 24 hours from `t`, and
that instant's wall clock taken as a UTC time.  It is so in `time.UTC` and in a
`time.FixedZone` for every `t`, and in any location when no transition is near these
seconds. -/
def Time.keepsOffset (t : Time) (days : Int) : Prop :=
  (t.loc.lookup (t.Unix + days * 86400)).offset = t.zoneOffset ∧
    (t.loc.lookup (t.Unix + days * 86400 + t.zoneOffset)).offset = t.zoneOffset

instance (t : Time) (days : Int) : Decidable (t.keepsOffset days) := by
  unfold Time.keepsOffset
  infer_instance

/-- 2024-01-07T23:59:59.5Z, a Sunday, half a second before the week ends. -/
def sundayLastHalfSecond : Time := ⟨1704671999500000000, UTC⟩

/-- 2024-01-01T00:30:00+14:00, a Monday in its own location and the instant
2023-12-31T10:30:00Z. -/
def mondayEastOfUTC : Time := ⟨1704018600000000000, FixedZone (14 * 3600)⟩

/-- The zone America/Campo_Grande in 1997 and 1998 (time zone database, rule Brazil):
UTC-3 until 1997-02-16T03:00Z, UTC-4 until 1997-10-06T04:00Z, when the clocks go from 00:00
to 01:00 and UTC-3 begins, and UTC-4 again from 1998-03-01T03:00Z.  Earlier and later
transitions are left out. -/
def campoGrande : Location :=
  tableLocation (-10800) [(856062000, -14400), (876110400, -10800), (888721200, -14400)]

/-- 1997-10-12T00:30:00-03:00 in Campo Grande, a Sunday; the wall clock reading of 00:30 six
days earlier, on Monday 1997-10-06, is skipped by the transition. -/
def sundayAfterGap : Time := ⟨876627000000000000, campoGrande⟩

/-- 1997-10-15T12:00:00-03:00 in Campo Grande, a Wednesday. -/
def wednesdayInCampoGrande : Time := ⟨876927600000000000, campoGrande⟩

/-- The time `u` is in UTC and shows the date `y`-`m`-`d` and the clock `h`:`mi`:`s` with no
sub-second part. -/
def Time.showsUTC (u : Time) (y m d h mi s : Int) : Prop :=
  u.loc = UTC ∧ u.Year = y ∧ u.Month = m ∧ u.Day = d ∧ u.Hour = h ∧ u.Minute = mi ∧
    u.Second = s ∧ u.Nanosecond = 0

/-- Insert a row into a list ordered by score descending, behind the rows whose score is
greater and in front of all others. -/
def insertDesc {α : Type} (score : α → Int) (x : α) : List α → List α
  | [] => [x]
  | y :: ys => if score y > score x then y :: insertDesc score x ys else x :: y :: ys

/-- Insertion sort by score descending; rows with equal scores keep their order. -/
def sortDesc {α : Type} (score : α → Int) : List α → List α
  | [] => []
  | x :: xs => insertDesc score x (sortDesc score xs)

/-- A store that orders by score descending and leaves rows with equal scores in the order
in which it reads them. -/
def stableSorter : Sorter where
  orderBy := fun score rows => sortDesc score rows
  perm := by
    intro α score rows
    have hins : ∀ (x : α) (l : List α), (insertDesc score x l).Perm (x :: l) := by
      intro x l
      induction l with
      | nil => exact List.Perm.refl _
      | cons y ys ih =>
        unfold insertDesc
        split
        · exact ((List.Perm.cons y ih).trans (List.Perm.swap x y ys))
        · exact List.Perm.refl _
    induction rows with
    | nil => exact List.Perm.refl _
    | cons x xs ih => exact (hins x _).trans (List.Perm.cons x ih)
  sorted := by
    intro α score rows
    have hmem : ∀ (x z : α) (l : List α), z ∈ insertDesc score x l → z = x ∨ z ∈ l := by
      intro x z l
      induction l with
      | nil => intro h; simpa [insertDesc] using h
      | cons y ys ih =>
        unfold insertDesc
        split
        · intro h
          rcases List.mem_cons.1 h with h1 | h1
          · exact Or.inr (h1 ▸ List.mem_cons_self _ _)
          · rcases ih h1 with h2 | h2
            · exact Or.inl h2
            · exact Or.inr (List.mem_cons_of_mem _ h2)
        · intro h
          exact List.mem_cons.1 h
    have hins : ∀ (x : α) (l : List α), l.Pairwise (fun a b => score a ≥ score b) →
        (insertDesc score x l).Pairwise (fun a b => score a ≥ score b) := by
      intro x l
      induction l with
      | nil => intro _; simp [insertDesc]
      | cons y ys ih =>
        intro hp
        obtain ⟨hy, hys⟩ := List.pairwise_cons.1 hp
        unfold insertDesc
        split
        · rename_i hgt
          refine List.pairwise_cons.2 ⟨?_, ih hys⟩
          intro z hz
          rcases hmem x z ys hz with h1 | h1
          · rw [h1]; omega
          · exact hy z h1
        · rename_i hgt
          refine List.pairwise_cons.2 ⟨?_, hp⟩
          intro z hz
          rcases List.mem_cons.1 hz with h1 | h1
          · rw [h1]; omega
          · have := hy z h1; omega
    induction rows with
    | nil => exact List.Pairwise.nil
    | cons x xs ih => exact hins x _ ih

/-- The store orders rows with equal scores by a rule that depends only on the scores and on
the order in which it reads the rows, not on what else the rows hold: changing the rows
without changing their scores changes the result in the same way. -/
def Sorter.keyDetermined (s : Sorter) : Prop :=
  ∀ {α β : Type} (f : α → Int) (g : β → Int) (h : α → β) (l : List α),
    (∀ a ∈ l, g (h a) = f a) → s.orderBy g (l.map h) = (s.orderBy f l).map h

/-- A store that orders by score descending and puts rows with equal scores in the reverse
of the order in which it reads them. -/
def reverseTieSorter : Sorter where
  orderBy := fun score rows => stableSorter.orderBy score rows.reverse
  perm := fun score rows =>
    (stableSorter.perm score rows.reverse).trans (List.reverse_perm rows)
  sorted := fun score rows => stableSorter.sorted score rows.reverse

/-! ## The effect of a successful run on the tables -/

/-- The result list of the club aggregation query (empty when `windowField` names no
column, in which case the query fails). -/
def clubPointsOf (env : Env) (windowField : String) (periodStart : Time) (db : DB) :
    List ClubPoints :=
  match windowColumn windowField with
  | none => []
  | some col => env.sorter.orderBy (fun cp => cp.TotalPoints)
      (db.clubs.map (clubGroup db.userPointsWindowed col periodStart.unixNano))

/-- The result list of the contributor aggregation query for one club. -/
def userPointsOf (env : Env) (windowField : String) (clubID : Nat) (periodStart : Time)
    (ledger : List UserPointsWindowed) : List UserPoints :=
  match windowColumn windowField with
  | none => []
  | some col =>
    env.sorter.orderBy (fun up => up.Points)
      (((clubEntries ledger col periodStart.unixNano clubID).map
        (fun e => e.UserID)).dedup.map
        (userGroup (clubEntries ledger col periodStart.unixNano clubID)))

/-- The club snapshot table after the upserts of the rows `cps`, the first at index `g`. -/
def upsertClubRows (periodType : String) (periodStart periodEnd : Time) :
    List ClubPoints → Nat → List ClubLeaderboardSnapshot → Nat →
    List ClubLeaderboardSnapshot
  | [], _, rows, _ => rows
  | cp :: rest, g, rows, seq =>
    upsertClubRows periodType periodStart periodEnd rest (g + 1)
      (upsertClubRow rows seq (newClubSnapshot periodType periodStart periodEnd cp g)) (seq + 1)

/-- The club snapshot table after the local-rank updates for the rows `clubs`, the first at
index `j`. -/
def setLocalRanks : List ClubLeaderboardSnapshot → Nat → List ClubLeaderboardSnapshot →
    List ClubLeaderboardSnapshot
  | [], _, rows => rows
  | club :: rest, j, rows => setLocalRanks rest (j + 1) (setLocalRank rows club.ID (j + 1))

/-- The club snapshot table after the locality pass for one city. -/
def cityPass (sorter : Sorter) (periodType : String) (periodStart : Time) (city : String)
    (rows : List ClubLeaderboardSnapshot) : List ClubLeaderboardSnapshot :=
  setLocalRanks (sorter.orderBy (fun r => r.TotalPoints)
    (rows.filter (ClubLeaderboardSnapshot.inCity city periodType periodStart.unixNano))) 0 rows

/-- The club snapshot table after the locality passes for the cities `cities`. -/
def cityPasses (sorter : Sorter) (periodType : String) (periodStart : Time) :
    List String → List ClubLeaderboardSnapshot → List ClubLeaderboardSnapshot
  | [], rows => rows
  | city :: rest, rows =>
    cityPasses sorter periodType periodStart rest
      (cityPass sorter periodType periodStart city rows)

/-- The user-club snapshot table after the upserts of the rows `ups` of one club, the first
at index `g`. -/
def upsertUserClubRows (periodType : String) (periodStart periodEnd : Time) (clubID : Nat) :
    List UserPoints → Nat → List UserClubLeaderboardSnapshot → Nat →
    List UserClubLeaderboardSnapshot
  | [], _, rows, _ => rows
  | up :: rest, g, rows, seq =>
    upsertUserClubRows periodType periodStart periodEnd clubID rest (g + 1)
      (upsertUserClubRow rows seq
        (newUserClubSnapshot periodType periodStart periodEnd clubID up g)) (seq + 1)

/-- The user-club snapshot table after the upserts for the clubs `clubs`, with the
contributions read from `ledger`. -/
def contributorRows (env : Env) (periodType : String) (periodStart periodEnd : Time)
    (windowField : String) (ledger : List UserPointsWindowed) :
    List Club → List UserClubLeaderboardSnapshot → Nat → List UserClubLeaderboardSnapshot
  | [], rows, _ => rows
  | club :: rest, rows, seq =>
    contributorRows env periodType periodStart periodEnd windowField ledger rest
      (upsertUserClubRows periodType periodStart periodEnd club.ID
        (userPointsOf env windowField club.ID periodStart ledger) 0 rows seq)
      (seq + (userPointsOf env windowField club.ID periodStart ledger).length)

/-- The unique key of a club snapshot row. -/
def ClubLeaderboardSnapshot.key (r : ClubLeaderboardSnapshot) : Nat × String × Int :=
  (r.ClubID, r.PeriodType, r.PeriodStart)

/-- The unique key of a user-club snapshot row. -/
def UserClubLeaderboardSnapshot.key (r : UserClubLeaderboardSnapshot) :
    Nat × Nat × String × Int :=
  (r.UserID, r.ClubID, r.PeriodType, r.PeriodStart)

/-- The aggregation row that a club snapshot row stores. -/
def ClubLeaderboardSnapshot.toPoints (r : ClubLeaderboardSnapshot) : ClubPoints :=
  { ClubID := r.ClubID
    TotalPoints := r.TotalPoints
    ActiveMemberCount := r.ActiveMemberCount
    City := r.City }

/-- The constraints of the club snapshot table: the unique index on (club id, period type,
period start), the primary key, and ids below the next value of the sequence. -/
def ClubRowsWF (rows : List ClubLeaderboardSnapshot) (seq : Nat) : Prop :=
  (rows.map ClubLeaderboardSnapshot.key).Nodup ∧ (rows.map (fun r => r.ID)).Nodup ∧
    ∀ r ∈ rows, r.ID < seq

/-- The constraints of the schema: primary key of `clubs`, the constraints of the club
snapshot table, and the unique index on (user id, club id, period type, period start). -/
def DB.WF (db : DB) : Prop :=
  (db.clubs.map (fun c => c.ID)).Nodup ∧ ClubRowsWF db.clubSnapshots db.clubSnapshotSeq ∧
    (db.userClubSnapshots.map UserClubLeaderboardSnapshot.key).Nodup

instance (db : DB) : Decidable db.WF := by
  unfold DB.WF ClubRowsWF
  infer_instance

/-- Row `r` is the row of snapshot `s` and already has the values that an upsert of `s`
writes. -/
def ClubLeaderboardSnapshot.stores (r s : ClubLeaderboardSnapshot) : Prop :=
  r.key = s.key ∧ r.assign s = r

/-- The row `r` after the local-rank updates for the rows with ids `ids`, the first at index
`j`: a row whose id is at position `i` of `ids` gets local rank `j + i + 1`. -/
def withLocalRankIn (ids : List Nat) (j : Nat) (r : ClubLeaderboardSnapshot) :
    ClubLeaderboardSnapshot :=
  if r.ID ∈ ids then { r with LocalRank := some (((j + ids.indexOf r.ID : Nat) : Int) + 1) }
  else r

/-- The ids of a city's rows for a period in the order of the locality query. -/
def cityOrder (sorter : Sorter) (periodType : String) (periodStart : Time) (city : String)
    (rows : List ClubLeaderboardSnapshot) : List Nat :=
  (sorter.orderBy (fun r => r.TotalPoints)
    (rows.filter (ClubLeaderboardSnapshot.inCity city periodType periodStart.unixNano))).map
    (fun r => r.ID)

/-- The row with its local rank blanked: two rows with the same image differ at most in
their local rank. -/
def ClubLeaderboardSnapshot.eraseLocalRank (r : ClubLeaderboardSnapshot) :
    ClubLeaderboardSnapshot :=
  { r with LocalRank := none }

/-- The condition `period_type = ? AND period_start = ?`: the club snapshot rows of a
period. -/
def ClubLeaderboardSnapshot.inPeriod (periodType : String) (periodStart : Int)
    (r : ClubLeaderboardSnapshot) : Bool :=
  decide (r.PeriodType = periodType ∧ r.PeriodStart = periodStart)

/-- No club snapshot row of the period is left over from a club that is no longer in the
roster. -/
def DB.noStaleRows (db : DB) (periodType : String) (periodStart : Int) : Prop :=
  ∀ r ∈ db.clubSnapshots, r.PeriodType = periodType → r.PeriodStart = periodStart →
    ∃ c ∈ db.clubs, c.ID = r.ClubID

/-- Every ledger entry belongs to a club of the roster. -/
def DB.noOrphanEntries (db : DB) : Prop :=
  ∀ e ∈ db.userPointsWindowed, ∃ c ∈ db.clubs, c.ID = e.ClubID

instance (db : DB) (periodType : String) (periodStart : Int) :
    Decidable (db.noStaleRows periodType periodStart) := by
  unfold DB.noStaleRows
  infer_instance

instance (db : DB) : Decidable db.noOrphanEntries := by
  unfold DB.noOrphanEntries
  infer_instance

/-- Row `r` is the row of snapshot `s` and already has the values that an upsert of `s`
writes. -/
def UserClubLeaderboardSnapshot.stores (r s : UserClubLeaderboardSnapshot) : Prop :=
  r.key = s.key ∧ r.assign s = r

/-- The club snapshot table already holds what the club computation for period `p` writes
when its aggregation is `agg`: every row of the aggregation is stored with the rank of its
position, and every row of a city of the aggregation has the local rank of its position in
that city's locality query. -/
def ClubFix (sorter : Sorter) (p : Period) (agg : List ClubPoints)
    (rows : List ClubLeaderboardSnapshot) : Prop :=
  (∀ (i : Nat) (cp : ClubPoints), agg[i]? = some cp →
    ∃ r ∈ rows, r.stores (newClubSnapshot p.periodType p.periodStart p.periodEnd cp i)) ∧
  (∀ city ∈ cityKeys agg, ∀ r ∈ rows,
    r.inCity city p.periodType p.periodStart.unixNano = true →
    withLocalRankIn (cityOrder sorter p.periodType p.periodStart city rows) 0 r = r)

/-- The user-club snapshot table already holds what the user-club computation for period `p`
writes when the contributor aggregation of club `id` is `ups id`. -/
def UserFix (p : Period) (clubs : List Club) (ups : Nat → List UserPoints)
    (rows : List UserClubLeaderboardSnapshot) : Prop :=
  ∀ c ∈ clubs, c.DeletedAt = none →
    ∀ (i : Nat) (up : UserPoints), (ups c.ID)[i]? = some up →
    ∃ r ∈ rows, r.stores (newUserClubSnapshot p.periodType p.periodStart p.periodEnd c.ID up i)

/-- The snapshot tables of `d` already hold what the computations for period `p` write, for
the roster and the ledger of `ref`. -/
def DB.holds (env : Env) (ref : DB) (p : Period) (d : DB) : Prop :=
  ClubFix env.sorter p (clubPointsOf env p.windowField p.periodStart ref) d.clubSnapshots ∧
  UserFix p ref.clubs
    (fun id => userPointsOf env p.windowField id p.periodStart ref.userPointsWindowed)
    d.userClubSnapshots

/-! ## Concrete stores -/

/-- An environment in which no statement fails, rows with equal scores stay in the order in
which they are read, and unordered results come in table order. -/
def quietEnv : Env where
  sorter := stableSorter
  anyOrder := fun rows => rows
  anyOrder_perm := fun rows => List.Perm.refl rows
  fault := fun _ => none

/-- Monday 2024-01-01T00:00:00Z, the start of a week, of a month and of a year. -/
def jan1 : Time := ⟨1704067200000000000, UTC⟩

/-- Sunday 2024-01-07T23:59:59Z, the end of the week that starts at `jan1`. -/
def jan7End : Time := ⟨1704671999000000000, UTC⟩

/-- A ledger entry all of whose window-start columns are `jan1`. -/
def entryAtJan1 (userID clubID : Nat) (points : Int) : UserPointsWindowed :=
  ⟨userID, clubID, points, jan1.unixNano, jan1.unixNano, jan1.unixNano⟩

/-- Scenario A of the specification with a third club: club 1 (Leeds) has entries of 5, 3
and 2 points from two users, club 2 (Leeds) has none, club 3 (no city) has one entry of 20
points; no snapshot exists yet. -/
def scenarioA : DB :=
  { clubs := [⟨1, "Leeds", none⟩, ⟨2, "Leeds", none⟩, ⟨3, "", none⟩]
    userPointsWindowed :=
      [entryAtJan1 10 1 5, entryAtJan1 11 1 3, entryAtJan1 10 1 2, entryAtJan1 12 3 20]
    clubSnapshots := []
    userClubSnapshots := []
    clubSnapshotSeq := 1
    userClubSnapshotSeq := 1
    statements := 0 }

/-- One club in Leeds and an empty ledger; no snapshot exists yet. -/
def oneClubInLeeds : DB :=
  { clubs := [⟨1, "Leeds", none⟩]
    userPointsWindowed := []
    clubSnapshots := []
    userClubSnapshots := []
    clubSnapshotSeq := 1
    userClubSnapshotSeq := 1
    statements := 0 }

/-- The store after a weekly club computation on `oneClubInLeeds`, with the club's city
cleared afterwards by the owner of the club table. -/
def cityCleared : DB :=
  { (computeClubLeaderboard quietEnv "weekly" jan1 jan7End "week_start" oneClubInLeeds).1 with
    clubs := [⟨1, "", none⟩] }

/-- One club and a ledger entry of 7 points for club 99, which is not in the roster. -/
def orphanEntry : DB :=
  { clubs := [⟨1, "Leeds", none⟩]
    userPointsWindowed := [entryAtJan1 10 99 7]
    clubSnapshots := []
    userClubSnapshots := []
    clubSnapshotSeq := 1
    userClubSnapshotSeq := 1
    statements := 0 }

/-- Two clubs in Leeds; club 2 has an entry of 50 points; no snapshot exists yet. -/
def twoClubsInLeeds : DB :=
  { clubs := [⟨1, "Leeds", none⟩, ⟨2, "Leeds", none⟩]
    userPointsWindowed := [entryAtJan1 10 2 50]
    clubSnapshots := []
    userClubSnapshots := []
    clubSnapshotSeq := 1
    userClubSnapshotSeq := 1
    statements := 0 }

/-- The store after a weekly club computation on `twoClubsInLeeds`, with club 2 removed
from the roster afterwards by the owner of the club table. -/
def clubRemoved : DB :=
  { (computeClubLeaderboard quietEnv "weekly" jan1 jan7End "week_start" twoClubsInLeeds).1 with
    clubs := [⟨1, "Leeds", none⟩] }

/-- The store `clubRemoved` when the ledger entries of club 2 are removed with the club. -/
def clubRemovedWithEntries : DB :=
  { clubRemoved with userPointsWindowed := [] }

/-- Scenario B of the specification: clubs 1 and 2 in Leeds with totals 100 and 80, club 3
in York with total 500; no snapshot exists yet. -/
def scenarioB : DB :=
  { clubs := [⟨1, "Leeds", none⟩, ⟨2, "Leeds", none⟩, ⟨3, "York", none⟩]
    userPointsWindowed := [entryAtJan1 10 1 100, entryAtJan1 11 2 80, entryAtJan1 12 3 500]
    clubSnapshots := []
    userClubSnapshots := []
    clubSnapshotSeq := 1
    userClubSnapshotSeq := 1
    statements := 0 }

/-- Like `quietEnv`, with a store that puts rows with equal scores in the reverse of the
order in which it reads them. -/
def reverseTieEnv : Env where
  sorter := reverseTieSorter
  anyOrder := fun rows => rows
  anyOrder_perm := fun rows => List.Perm.refl rows
  fault := fun _ => none

/-- Two clubs in Leeds and an empty ledger: both totals are 0; no snapshot exists yet. -/
def twoTiedClubs : DB :=
  { clubs := [⟨1, "Leeds", none⟩, ⟨2, "Leeds", none⟩]
    userPointsWindowed := []
    clubSnapshots := []
    userClubSnapshots := []
    clubSnapshotSeq := 1
    userClubSnapshotSeq := 1
    statements := 0 }

/-! ## Calendar lemmas -/

theorem daysSinceEpoch_eq (y : Int) :
    daysSinceEpoch y = 365 * (y - 1) + (y - 1) / 4 - (y - 1) / 100 + (y - 1) / 400 := by
  simp only [daysSinceEpoch, daysPer400Years, daysPer100Years, daysPer4Years]
  omega

theorem isLeap_iff (y : Int) :
    isLeap y = true ↔ (y % 4 = 0 ∧ (y % 100 ≠ 0 ∨ y % 400 = 0)) := by
  simp [isLeap]

theorem absYear_arith (d q c c4 f g g4 y r : Int)
    (hq : q = d / 146097) (hc : c = (d - 146097 * q) / 36524) (hc4 : c4 = c / 4)
    (hf : f = (d - 146097 * q - 36524 * (c - c4)) / 1461)
    (hg : g = (d - 146097 * q - 36524 * (c - c4) - 1461 * f) / 365) (hg4 : g4 = g / 4)
    (hy : y = 400 * q + 100 * (c - c4) + 4 * f + (g - g4) + 1)
    (hr : r = d - 146097 * q - 36524 * (c - c4) - 1461 * f - 365 * (g - g4)) :
    365 * (y - 1) + (y - 1) / 4 - (y - 1) / 100 + (y - 1) / 400 + r = d ∧ 0 ≤ r ∧
      (r < 365 ∨ (r = 365 ∧ y % 4 = 0 ∧ (y % 100 ≠ 0 ∨ y % 400 = 0))) := by
  have hcr : c = 0 ∨ c = 1 ∨ c = 2 ∨ c = 3 ∨ c = 4 := by omega
  have hgr : g = 0 ∨ g = 1 ∨ g = 2 ∨ g = 3 ∨ g = 4 := by omega
  have hfr : 0 ≤ f ∧ f ≤ 24 := by omega
  rcases hcr with h | h | h | h | h <;> rcases hgr with h' | h' | h' | h' | h' <;>
    subst h h' <;> omega

theorem absYear_spec (d : Int) :
    daysSinceEpoch (absYear d).1 + (absYear d).2 = d ∧ 0 ≤ (absYear d).2 ∧
      (absYear d).2 < 365 + (if isLeap (absYear d).1 = true then 1 else 0) := by
  have h := absYear_arith d _ _ _ _ _ _ (absYear d).1 (absYear d).2 rfl rfl rfl rfl rfl rfl
    rfl rfl
  rw [daysSinceEpoch_eq]
  refine ⟨h.1, h.2.1, ?_⟩
  rcases h.2.2 with h1 | ⟨h1, h2⟩
  · split <;> omega
  · rw [if_pos ((isLeap_iff _).2 h2)]; omega

theorem daysSinceEpoch_mono (y y2 : Int) (h : y < y2) :
    daysSinceEpoch y + 365 + (if isLeap y = true then 1 else 0) ≤ daysSinceEpoch y2 := by
  rw [daysSinceEpoch_eq, daysSinceEpoch_eq]
  by_cases hl : isLeap y = true
  · rw [if_pos hl]; rw [isLeap_iff] at hl; omega
  · rw [if_neg hl]; rw [isLeap_iff] at hl; omega

theorem absYear_unique (y n : Int) (h0 : daysSinceEpoch y ≤ n)
    (h1 : n < daysSinceEpoch y + 365 + (if isLeap y = true then 1 else 0)) :
    absYear n = (y, n - daysSinceEpoch y) := by
  obtain ⟨e, lo, hi⟩ := absYear_spec n
  have hy : (absYear n).1 = y := by
    rcases lt_trichotomy (absYear n).1 y with hlt | heq | hgt
    · have := daysSinceEpoch_mono _ _ hlt; omega
    · exact heq
    · have := daysSinceEpoch_mono _ _ hgt; omega
  apply Prod.ext
  · exact hy
  · simp only; rw [hy] at e; omega

theorem daysBefore_table :
    daysBefore 0 = 0 ∧ daysBefore 1 = 31 ∧ daysBefore 2 = 59 ∧ daysBefore 3 = 90 ∧
    daysBefore 4 = 120 ∧ daysBefore 5 = 151 ∧ daysBefore 6 = 181 ∧ daysBefore 7 = 212 ∧
    daysBefore 8 = 243 ∧ daysBefore 9 = 273 ∧ daysBefore 10 = 304 ∧ daysBefore 11 = 334 ∧
    daysBefore 12 = 365 := by
  decide

theorem monthOfDay_spec (day : Int) (h0 : 0 ≤ day) (h1 : day < 365) :
    1 ≤ (monthOfDay day).1 ∧ (monthOfDay day).1 ≤ 12 ∧ 1 ≤ (monthOfDay day).2 ∧
      (monthOfDay day).2 ≤ daysBefore (monthOfDay day).1 - daysBefore ((monthOfDay day).1 - 1) ∧
      daysBefore ((monthOfDay day).1 - 1) + (monthOfDay day).2 - 1 = day := by
  obtain ⟨t0, t1, t2, t3, t4, t5, t6, t7, t8, t9, t10, t11, t12⟩ := daysBefore_table
  have hk : day / 31 = 0 ∨ day / 31 = 1 ∨ day / 31 = 2 ∨ day / 31 = 3 ∨ day / 31 = 4 ∨
      day / 31 = 5 ∨ day / 31 = 6 ∨ day / 31 = 7 ∨ day / 31 = 8 ∨ day / 31 = 9 ∨
      day / 31 = 10 ∨ day / 31 = 11 := by omega
  unfold monthOfDay
  rcases hk with h | h | h | h | h | h | h | h | h | h | h | h <;>
    simp only [h] <;> norm_num <;> split <;> simp_all <;> omega

theorem monthOfDay_inv (m d : Int) (hm1 : 1 ≤ m) (hm2 : m ≤ 12) (hd1 : 1 ≤ d)
    (hd2 : d ≤ daysBefore m - daysBefore (m - 1)) :
    monthOfDay (daysBefore (m - 1) + d - 1) = (m, d) := by
  obtain ⟨t0, t1, t2, t3, t4, t5, t6, t7, t8, t9, t10, t11, t12⟩ := daysBefore_table
  have hk : m = 1 ∨ m = 2 ∨ m = 3 ∨ m = 4 ∨ m = 5 ∨ m = 6 ∨ m = 7 ∨ m = 8 ∨ m = 9 ∨ m = 10 ∨
      m = 11 ∨ m = 12 := by omega
  unfold monthOfDay
  simp only
  generalize hq : (daysBefore (m - 1) + d - 1) / 31 = q
  rcases hk with h | h | h | h | h | h | h | h | h | h | h | h <;> subst h <;>
    norm_num at hd2 hq ⊢ <;>
    simp only [t0, t1, t2, t3, t4, t5, t6, t7, t8, t9, t10, t11, t12] at hd2 hq ⊢ <;>
    (have hq2 : q = 0 ∨ q = 1 ∨ q = 2 ∨ q = 3 ∨ q = 4 ∨ q = 5 ∨ q = 6 ∨ q = 7 ∨ q = 8 ∨
        q = 9 ∨ q = 10 ∨ q = 11 := by omega) <;>
    rcases hq2 with h | h | h | h | h | h | h | h | h | h | h | h <;> subst h <;>
    first
      | omega
      | (norm_num
         simp only [t0, t1, t2, t3, t4, t5, t6, t7, t8, t9, t10, t11, t12]
         split <;> simp <;> omega)

theorem absMonthDay_spec (y yd : Int) (h0 : 0 ≤ yd)
    (h1 : yd < 365 + (if isLeap y = true then 1 else 0)) :
    1 ≤ (absMonthDay y yd).1 ∧ (absMonthDay y yd).1 ≤ 12 ∧ 1 ≤ (absMonthDay y yd).2 ∧
      (absMonthDay y yd).2 ≤ daysIn (absMonthDay y yd).1 y ∧
      daysBefore ((absMonthDay y yd).1 - 1) +
        (if isLeap y = true ∧ (absMonthDay y yd).1 ≥ 3 then 1 else 0) +
        ((absMonthDay y yd).2 - 1) = yd := by
  obtain ⟨t0, t1, t2, t3, t4, t5, t6, t7, t8, t9, t10, t11, t12⟩ := daysBefore_table
  unfold absMonthDay daysIn
  by_cases hl : isLeap y = true
  · simp only [hl, if_true, true_and] at h1 ⊢
    by_cases h59 : yd = 31 + 29 - 1
    · rw [if_pos h59]; simp [t1]; omega
    · rw [if_neg h59]
      by_cases hgt : yd > 31 + 29 - 1
      · rw [if_pos hgt]
        obtain ⟨a1, a2, a3, a4, a5⟩ := monthOfDay_spec (yd - 1) (by omega) (by omega)
        generalize monthOfDay (yd - 1) = p at a1 a2 a3 a4 a5 ⊢
        obtain ⟨m, d⟩ := p
        simp only at a1 a2 a3 a4 a5 ⊢
        have hk : m = 1 ∨ m = 2 ∨ m = 3 ∨ m = 4 ∨ m = 5 ∨ m = 6 ∨ m = 7 ∨ m = 8 ∨ m = 9 ∨
            m = 10 ∨ m = 11 ∨ m = 12 := by omega
        rcases hk with h | h | h | h | h | h | h | h | h | h | h | h <;> subst h <;>
          norm_num at a4 a5 ⊢ <;>
          simp only [t0, t1, t2, t3, t4, t5, t6, t7, t8, t9, t10, t11, t12] at a4 a5 ⊢ <;>
          omega
      · rw [if_neg hgt]
        obtain ⟨a1, a2, a3, a4, a5⟩ := monthOfDay_spec yd (by omega) (by omega)
        generalize monthOfDay yd = p at a1 a2 a3 a4 a5 ⊢
        obtain ⟨m, d⟩ := p
        simp only at a1 a2 a3 a4 a5 ⊢
        have hk : m = 1 ∨ m = 2 ∨ m = 3 ∨ m = 4 ∨ m = 5 ∨ m = 6 ∨ m = 7 ∨ m = 8 ∨ m = 9 ∨
            m = 10 ∨ m = 11 ∨ m = 12 := by omega
        rcases hk with h | h | h | h | h | h | h | h | h | h | h | h <;> subst h <;>
          norm_num at a4 a5 ⊢ <;>
          simp only [t0, t1, t2, t3, t4, t5, t6, t7, t8, t9, t10, t11, t12] at a4 a5 ⊢ <;>
          omega
  · simp only [hl, if_false, false_and, Bool.false_eq_true, and_false] at h1 ⊢
    obtain ⟨a1, a2, a3, a4, a5⟩ := monthOfDay_spec yd (by omega) (by omega)
    refine ⟨a1, a2, a3, a4, ?_⟩
    omega

theorem absMonthDay_inv (y m d : Int) (hm1 : 1 ≤ m) (hm2 : m ≤ 12) (hd1 : 1 ≤ d)
    (hd2 : d ≤ daysIn m y) :
    absMonthDay y (daysBefore (m - 1) + (if isLeap y = true ∧ m ≥ 3 then 1 else 0) + (d - 1))
      = (m, d) := by
  obtain ⟨t0, t1, t2, t3, t4, t5, t6, t7, t8, t9, t10, t11, t12⟩ := daysBefore_table
  unfold absMonthDay
  unfold daysIn at hd2
  by_cases hl : isLeap y = true
  · simp only [hl, if_true, true_and, and_true] at hd2 ⊢
    have hk : m = 1 ∨ m = 2 ∨ (3 ≤ m) := by omega
    rcases hk with h | h | h
    · subst h
      norm_num at hd2 ⊢
      simp only [t0, t1] at hd2 ⊢
      rw [if_neg (by omega), if_neg (by omega)]
      have := monthOfDay_inv 1 d (by omega) (by omega) hd1
        (by simp only [t1]; norm_num; simp only [t0]; omega)
      norm_num at this
      simp only [t0] at this
      rw [← this]; congr 1; omega
    · subst h
      norm_num at hd2 ⊢
      simp only [t1] at hd2 ⊢
      by_cases h29 : d = 29
      · subst h29; norm_num
      · rw [if_neg (by omega), if_neg (by omega)]
        have := monthOfDay_inv 2 d (by omega) (by omega) hd1
          (by simp only [t2]; norm_num; simp only [t1]; omega)
        norm_num at this
        simp only [t1] at this
        rw [← this]; congr 1; omega
    · have hm2' : ¬ m = 2 := by omega
      simp only [hm2', if_false, h, if_true] at hd2 ⊢
      have hb : 59 ≤ daysBefore (m - 1) := by
        have hk : m = 3 ∨ m = 4 ∨ m = 5 ∨ m = 6 ∨ m = 7 ∨ m = 8 ∨ m = 9 ∨
            m = 10 ∨ m = 11 ∨ m = 12 := by omega
        rcases hk with h | h | h | h | h | h | h | h | h | h <;> subst h <;> norm_num <;>
          simp only [t0, t1, t2, t3, t4, t5, t6, t7, t8, t9, t10, t11, t12] <;> omega
      rw [if_neg (by omega), if_pos (by omega)]
      have := monthOfDay_inv m d hm1 hm2 hd1 hd2
      rw [← this]; congr 1; omega
  · simp only [hl, if_false, false_and, Bool.false_eq_true, and_false] at hd2 ⊢
    have := monthOfDay_inv m d hm1 hm2 hd1 hd2
    rw [← this]; congr 1; omega

theorem secondsPerDay_eq : secondsPerDay = 86400 := by decide

theorem secondsPerHour_eq : secondsPerHour = 3600 := by decide

theorem secondsPerMinute_eq : secondsPerMinute = 60 := by decide

theorem secondsPerWeek_eq : secondsPerWeek = 604800 := by decide

theorem unixToInternal_eq : unixToInternal = 62135596800 := by decide

theorem yday_bounds (y m d : Int) (hm1 : 1 ≤ m) (hm2 : m ≤ 12) (hd1 : 1 ≤ d)
    (hd2 : d ≤ daysIn m y) :
    0 ≤ daysBefore (m - 1) + (if isLeap y = true ∧ m ≥ 3 then 1 else 0) + (d - 1) ∧
      daysBefore (m - 1) + (if isLeap y = true ∧ m ≥ 3 then 1 else 0) + (d - 1) <
        365 + (if isLeap y = true then 1 else 0) := by
  obtain ⟨t0, t1, t2, t3, t4, t5, t6, t7, t8, t9, t10, t11, t12⟩ := daysBefore_table
  unfold daysIn at hd2
  have hk : m = 1 ∨ m = 2 ∨ m = 3 ∨ m = 4 ∨ m = 5 ∨ m = 6 ∨ m = 7 ∨ m = 8 ∨ m = 9 ∨ m = 10 ∨
      m = 11 ∨ m = 12 := by omega
  by_cases hl : isLeap y = true <;>
    simp only [hl, if_true, true_and, and_true, if_false, false_and, Bool.false_eq_true,
      and_false] at hd2 ⊢ <;>
    rcases hk with h | h | h | h | h | h | h | h | h | h | h | h <;> subst h <;>
    norm_num at hd2 ⊢ <;>
    simp only [t0, t1, t2, t3, t4, t5, t6, t7, t8, t9, t10, t11, t12] at hd2 ⊢ <;> omega

theorem absDate_spec (a : Int) :
    1 ≤ (absDate a).2.1 ∧ (absDate a).2.1 ≤ 12 ∧ 1 ≤ (absDate a).2.2 ∧
      (absDate a).2.2 ≤ daysIn (absDate a).2.1 (absDate a).1 ∧
      dateDays (absDate a).1 (absDate a).2.1 (absDate a).2.2 = a / secondsPerDay := by
  obtain ⟨e, lo, hi⟩ := absYear_spec (a / secondsPerDay)
  obtain ⟨b1, b2, b3, b4, b5⟩ := absMonthDay_spec _ _ lo hi
  simp only [absDate, dateDays]
  refine ⟨b1, b2, b3, b4, ?_⟩
  omega

theorem absDate_dateDays (y m d s : Int) (hm1 : 1 ≤ m) (hm2 : m ≤ 12) (hd1 : 1 ≤ d)
    (hd2 : d ≤ daysIn m y) (hs0 : 0 ≤ s) (hs1 : s < 86400) :
    absDate (dateDays y m d * 86400 + s) = (y, m, d) := by
  obtain ⟨lo, hi⟩ := yday_bounds y m d hm1 hm2 hd1 hd2
  have hdiv : (dateDays y m d * 86400 + s) / secondsPerDay = dateDays y m d := by
    rw [secondsPerDay_eq]; omega
  have hy := absYear_unique y (dateDays y m d) (by unfold dateDays; omega)
    (by unfold dateDays; omega)
  have hmd := absMonthDay_inv y m d hm1 hm2 hd1 hd2
  simp only [absDate, hdiv, hy]
  have e : dateDays y m d - daysSinceEpoch y =
      daysBefore (m - 1) + (if isLeap y = true ∧ m ≥ 3 then 1 else 0) + (d - 1) := by
    unfold dateDays; omega
  rw [e, hmd]

theorem norm_eq (hi lo b : Int) (h0 : 0 ≤ lo) (h1 : lo < b) : norm hi lo b = (hi, lo) := by
  unfold norm
  have h2 : ¬ lo < 0 := by omega
  have h3 : ¬ lo ≥ b := by omega
  simp only [h2, if_false, h3]

theorem norm_12 (hi lo : Int) : norm hi lo 12 = (hi + lo / 12, lo % 12) := by
  unfold norm
  simp only
  split <;> simp only <;> split <;> apply Prod.ext <;> simp only <;> omega

/-- The value of `Date` when the clock fields are in range (month and day need not be). -/
theorem Date_eq (y m d h mi s ns : Int) (loc : Location) (hh0 : 0 ≤ h) (hh1 : h < 24)
    (hm0 : 0 ≤ mi) (hm1 : mi < 60) (hs0 : 0 ≤ s) (hs1 : s < 60) (hn0 : 0 ≤ ns)
    (hn1 : ns < 1000000000) :
    Date y m d h mi s ns loc =
      ⟨((dateDays (y + (m - 1) / 12) ((m - 1) % 12 + 1) d) * 86400
          + (h * 3600 + mi * 60 + s) - unixToInternal
          - loc.wallOffset ((dateDays (y + (m - 1) / 12) ((m - 1) % 12 + 1) d) * 86400
            + (h * 3600 + mi * 60 + s) - unixToInternal)) * 1000000000 + ns, loc⟩ := by
  unfold Date
  simp only [norm_eq s ns 1000000000 hn0 hn1, norm_eq mi s 60 hs0 hs1, norm_eq h mi 60 hm0 hm1,
    norm_eq d h 24 hh0 hh1, norm_12, secondsPerDay_eq, secondsPerHour_eq, secondsPerMinute_eq]
  have e : ((if isLeap (y + (m - 1) / 12) = true ∧ (m - 1) % 12 + 1 ≥ 3 then
        daysSinceEpoch (y + (m - 1) / 12) + daysBefore ((m - 1) % 12 + 1 - 1) + 1
      else daysSinceEpoch (y + (m - 1) / 12) + daysBefore ((m - 1) % 12 + 1 - 1)) + (d - 1))
        * 86400 + (h * 3600 + mi * 60 + s) - unixToInternal
      = dateDays (y + (m - 1) / 12) ((m - 1) % 12 + 1) d * 86400
        + (h * 3600 + mi * 60 + s) - unixToInternal := by
    unfold dateDays
    split <;> omega
  rw [e]
  unfold Location.wallOffset
  congr 1
  split <;> simp

/-- In `time.UTC` no offset is taken off. -/
theorem wallOffset_UTC (unix : Int) : UTC.wallOffset unix = 0 := by
  unfold Location.wallOffset UTC
  simp

/-- The value of `Date` in UTC. -/
theorem Date_UTC (y m d h mi s ns : Int) (hh0 : 0 ≤ h) (hh1 : h < 24)
    (hm0 : 0 ≤ mi) (hm1 : mi < 60) (hs0 : 0 ≤ s) (hs1 : s < 60) (hn0 : 0 ≤ ns)
    (hn1 : ns < 1000000000) :
    Date y m d h mi s ns UTC =
      ⟨((dateDays (y + (m - 1) / 12) ((m - 1) % 12 + 1) d) * 86400
          + (h * 3600 + mi * 60 + s) - unixToInternal) * 1000000000 + ns, UTC⟩ := by
  rw [Date_eq y m d h mi s ns UTC hh0 hh1 hm0 hm1 hs0 hs1 hn0 hn1, wallOffset_UTC]
  simp only [sub_zero]

/-- When the location keeps its offset, the offset that `Date` takes off the wall clock
reading `days` days from `t` is the offset at `t`, and it is the offset at the result. -/
theorem Time.wallOffset_of_keepsOffset (t : Time) (days : Int) (h : t.keepsOffset days) :
    t.loc.wallOffset (t.Unix + days * 86400 + t.zoneOffset) = t.zoneOffset := by
  obtain ⟨h1, h2⟩ := h
  unfold Location.wallOffset
  rw [h2]
  have e : t.Unix + days * 86400 + t.zoneOffset - t.zoneOffset = t.Unix + days * 86400 := by
    omega
  rw [e, h1]
  split
  · split <;> rfl
  · rename_i h0
    simp only [ne_eq, not_not] at h0
    exact h0.symm

/-- In `time.UTC` every time keeps its offset. -/
theorem Time.keepsOffset_UTC (t : Time) (days : Int) (h : t.loc = UTC) :
    t.keepsOffset days := by
  unfold Time.keepsOffset Time.zoneOffset
  rw [h]
  exact ⟨rfl, rfl⟩

/-- In a `time.FixedZone` every time keeps its offset. -/
theorem Time.keepsOffset_FixedZone (t : Time) (days offset : Int)
    (h : t.loc = FixedZone offset) : t.keepsOffset days := by
  unfold Time.keepsOffset Time.zoneOffset
  rw [h]
  exact ⟨rfl, rfl⟩

theorem daysSinceEpoch_succ (y : Int) :
    daysSinceEpoch (y + 1) = daysSinceEpoch y + 365 + (if isLeap y = true then 1 else 0) := by
  rw [daysSinceEpoch_eq, daysSinceEpoch_eq]
  by_cases hl : isLeap y = true
  · rw [if_pos hl]; rw [isLeap_iff] at hl; omega
  · rw [if_neg hl]; rw [isLeap_iff] at hl; omega

theorem dateDays_add (y m d j : Int) : dateDays y m (d + j) = dateDays y m d + j := by
  unfold dateDays; omega

/-- The first day of the month after month `m` is `daysIn m y` days after the first day of
month `m`; after December the year rolls over. -/
theorem dateDays_next_month (y m : Int) (hm1 : 1 ≤ m) (hm2 : m ≤ 12) :
    dateDays (y + m / 12) (m % 12 + 1) 1 = dateDays y m 1 + daysIn m y := by
  obtain ⟨t0, t1, t2, t3, t4, t5, t6, t7, t8, t9, t10, t11, t12⟩ := daysBefore_table
  have hs := daysSinceEpoch_succ y
  unfold dateDays daysIn
  have hk : m = 1 ∨ m = 2 ∨ m = 3 ∨ m = 4 ∨ m = 5 ∨ m = 6 ∨ m = 7 ∨ m = 8 ∨ m = 9 ∨ m = 10 ∨
      m = 11 ∨ m = 12 := by omega
  rcases hk with h | h | h | h | h | h | h | h | h | h | h | h <;> subst h <;>
    norm_num <;>
    simp only [t0, t1, t2, t3, t4, t5, t6, t7, t8, t9, t10, t11, t12] <;>
    by_cases hl : isLeap y = true <;> simp [hl] at hs ⊢ <;> omega

theorem Time.clock_bounds (t : Time) :
    0 ≤ t.Hour ∧ t.Hour < 24 ∧ 0 ≤ t.Minute ∧ t.Minute < 60 ∧ 0 ≤ t.Second ∧ t.Second < 60 ∧
      0 ≤ t.Nanosecond ∧ t.Nanosecond < 1000000000 ∧
      t.Hour * 3600 + t.Minute * 60 + t.Second = t.abs % 86400 := by
  unfold Time.Hour Time.Minute Time.Second Time.Nanosecond
  rw [secondsPerDay_eq, secondsPerHour_eq, secondsPerMinute_eq]
  omega

/-- The fields of a UTC time given by an absolute day number, a second of the day and a
nanosecond of the second. -/
theorem Time.abs_mk (n c ns : Int) (hn0 : 0 ≤ ns) (hn1 : ns < 1000000000) :
    (Time.mk ((n * 86400 + c - unixToInternal) * 1000000000 + ns) UTC).abs = n * 86400 + c ∧
      (Time.mk ((n * 86400 + c - unixToInternal) * 1000000000 + ns) UTC).Nanosecond = ns := by
  unfold Time.abs Time.Unix Time.Nanosecond UTC
  simp only
  omega

theorem Date_loc (y m d h mi s ns : Int) (loc : Location) :
    (Date y m d h mi s ns loc).loc = loc := rfl

/-- When the location keeps its offset, `AddDate(0, 0, j)` moves the instant by `j` days of
24 hours. -/
theorem Time.AddDate_days (t : Time) (j : Int) (h : t.keepsOffset j) :
    t.AddDate 0 0 j = ⟨t.unixNano + j * 86400 * 1000000000, t.loc⟩ := by
  obtain ⟨h0, h1, m0, m1, s0, s1, n0, n1, hc⟩ := t.clock_bounds
  obtain ⟨a1, a2, a3, a4, a5⟩ := absDate_spec t.abs
  rw [secondsPerDay_eq] at a5
  have e3 : dateDays t.Year t.Month t.Day = t.abs / 86400 := a5
  have hX : (dateDays t.Year t.Month t.Day + j) * 86400
      + (t.Hour * 3600 + t.Minute * 60 + t.Second) - unixToInternal
      = t.Unix + j * 86400 + t.zoneOffset := by
    rw [hc, e3]
    unfold Time.abs Time.zoneOffset
    omega
  unfold Time.AddDate
  rw [Date_eq _ _ _ _ _ _ _ _ h0 h1 m0 m1 s0 s1 n0 n1]
  simp only [add_zero]
  have e1 : (t.Month - 1) / 12 = 0 := by unfold Time.Month; omega
  have e2 : (t.Month - 1) % 12 + 1 = t.Month := by unfold Time.Month; omega
  rw [e1, e2]
  simp only [add_zero]
  rw [dateDays_add, hX, t.wallOffset_of_keepsOffset j h]
  congr 1
  unfold Time.Unix Time.Nanosecond
  omega

/-- The wall clock of the instant that `AddDate(0, 0, j)` gives is `j` days from that of `t`
when the location keeps its offset. -/
theorem Time.abs_AddDate_days (t : Time) (j : Int) (h : t.keepsOffset j) :
    (t.AddDate 0 0 j).abs = t.abs + j * 86400 := by
  rw [t.AddDate_days j h]
  have e : (Time.mk (t.unixNano + j * 86400 * 1000000000) t.loc).Unix = t.Unix + j * 86400 := by
    unfold Time.Unix
    simp only
    omega
  have h1 := h.1
  unfold Time.abs
  rw [e]
  simp only
  rw [h1]
  unfold Time.zoneOffset
  omega

/-- Midnight UTC of the calendar date that `u` shows in its own location. -/
theorem Date_midnight (u : Time) :
    Date u.Year u.Month u.Day 0 0 0 0 UTC =
      ⟨(u.abs / 86400 * 86400 - unixToInternal) * 1000000000, UTC⟩ := by
  obtain ⟨a1, a2, a3, a4, a5⟩ := absDate_spec u.abs
  rw [Date_UTC _ _ _ _ _ _ _ (le_refl 0) (by decide) (le_refl 0) (by decide) (le_refl 0)
    (by decide) (le_refl 0) (by decide)]
  have e1 : (u.Month - 1) / 12 = 0 := by unfold Time.Month; omega
  have e2 : (u.Month - 1) % 12 + 1 = u.Month := by unfold Time.Month; omega
  rw [e1, e2]
  unfold Time.Year Time.Month Time.Day
  simp only [add_zero]
  rw [a5, secondsPerDay_eq]
  congr 1
  omega

/-- The days that `getWeekStart` subtracts. -/
theorem Time.daysToSubtract_eq (t : Time) :
    (if t.Weekday = Sunday then 7 else t.Weekday) - Monday = t.daysSinceMonday ∧
      t.daysSinceMonday = t.abs / 86400 % 7 := by
  unfold Time.daysSinceMonday Time.Weekday Sunday Monday
  rw [secondsPerDay_eq, secondsPerWeek_eq]
  constructor <;> split <;> omega

/-- The week start is midnight UTC of the date that the instant `AddDate` gives shows. -/
theorem getWeekStart_midnight (t : Time) :
    getWeekStart t =
      ⟨((t.AddDate 0 0 (-t.daysSinceMonday)).abs / 86400 * 86400 - unixToInternal)
        * 1000000000, UTC⟩ := by
  unfold getWeekStart
  simp only
  rw [Date_midnight, t.daysToSubtract_eq.1]

theorem getWeekStart_eq (t : Time) (h : t.keepsOffset (-t.daysSinceMonday)) :
    getWeekStart t =
      ⟨((t.abs / 86400 - t.abs / 86400 % 7) * 86400 - unixToInternal) * 1000000000, UTC⟩ := by
  rw [getWeekStart_midnight, t.abs_AddDate_days _ h, t.daysToSubtract_eq.2]
  congr 1
  omega

/-- The week end is 7 days of 24 hours less one second after the week start. -/
theorem getWeekEnd_add (t : Time) :
    getWeekEnd t = ⟨(getWeekStart t).unixNano + 7 * 86400 * 1000000000 - 1000000000, UTC⟩ := by
  have hloc : (getWeekStart t).loc = UTC := by rw [getWeekStart_midnight]
  unfold getWeekEnd
  simp only
  rw [(getWeekStart t).AddDate_days 7 ((getWeekStart t).keepsOffset_UTC 7 hloc), hloc]
  unfold Time.Add Second
  simp only
  congr 1

theorem getWeekEnd_eq (t : Time) (h : t.keepsOffset (-t.daysSinceMonday)) :
    getWeekEnd t =
      ⟨((t.abs / 86400 - t.abs / 86400 % 7 + 7) * 86400 - unixToInternal) * 1000000000
        - 1000000000, UTC⟩ := by
  rw [getWeekEnd_add, getWeekStart_eq t h]
  simp only
  congr 1
  omega

theorem Time.month_day_bounds (t : Time) :
    1 ≤ t.Month ∧ t.Month ≤ 12 ∧ 1 ≤ t.Day ∧ t.Day ≤ daysIn t.Month t.Year ∧
      dateDays t.Year t.Month t.Day = t.abs / 86400 := by
  have h := absDate_spec t.abs
  rw [secondsPerDay_eq] at h
  exact h

theorem getMonthStart_eq (t : Time) :
    getMonthStart t =
      ⟨(dateDays t.Year t.Month 1 * 86400 - unixToInternal) * 1000000000, UTC⟩ := by
  obtain ⟨a1, a2, a3, a4, a5⟩ := t.month_day_bounds
  unfold getMonthStart
  rw [Date_UTC _ _ _ _ _ _ _ (le_refl 0) (by decide) (le_refl 0) (by decide) (le_refl 0)
    (by decide) (le_refl 0) (by decide)]
  have e1 : (t.Month - 1) / 12 = 0 := by omega
  have e2 : (t.Month - 1) % 12 + 1 = t.Month := by omega
  rw [e1, e2]
  simp only [add_zero]
  congr 1
  omega

/-- Year, month and day of a UTC time that lies on a valid calendar date. -/
theorem Time.date_mk (y m d c ns : Int) (hm1 : 1 ≤ m) (hm2 : m ≤ 12) (hd1 : 1 ≤ d)
    (hd2 : d ≤ daysIn m y) (hc0 : 0 ≤ c) (hc1 : c < 86400) (hn0 : 0 ≤ ns)
    (hn1 : ns < 1000000000) (u : Time)
    (hu : u = ⟨(dateDays y m d * 86400 + c - unixToInternal) * 1000000000 + ns, UTC⟩) :
    u.Year = y ∧ u.Month = m ∧ u.Day = d ∧ u.abs = dateDays y m d * 86400 + c ∧
      u.Nanosecond = ns := by
  have h := Time.abs_mk (dateDays y m d) c ns hn0 hn1
  rw [← hu] at h
  have hd := absDate_dateDays y m d c hm1 hm2 hd1 hd2 hc0 hc1
  refine ⟨?_, ?_, ?_, h.1, h.2⟩
  · unfold Time.Year; rw [h.1, hd]
  · unfold Time.Month; rw [h.1, hd]
  · unfold Time.Day; rw [h.1, hd]

theorem getMonthEnd_eq (t : Time) :
    getMonthEnd t =
      ⟨((dateDays t.Year t.Month 1 + daysIn t.Month t.Year) * 86400 - unixToInternal)
        * 1000000000 - 1000000000, UTC⟩ := by
  obtain ⟨a1, a2, a3, a4, a5⟩ := t.month_day_bounds
  obtain ⟨b1, b2, b3, b4, b5⟩ := Time.date_mk t.Year t.Month 1 0 0 a1 a2 (le_refl 1)
    (by omega) (le_refl 0) (by decide) (le_refl 0) (by decide) (getMonthStart t)
    (by rw [getMonthStart_eq]; congr 1; omega)
  have hc := (getMonthStart t).clock_bounds
  have e3 : (getMonthStart t).loc = UTC := by rw [getMonthStart_eq]
  unfold getMonthEnd Time.AddDate
  rw [b1, b2, b3, e3]
  have hH : (getMonthStart t).Hour = 0 := by omega
  have hM : (getMonthStart t).Minute = 0 := by omega
  have hS : (getMonthStart t).Second = 0 := by omega
  rw [hH, hM, hS, b5]
  rw [Date_UTC _ _ _ _ _ _ _ (le_refl 0) (by decide) (le_refl 0) (by decide) (le_refl 0)
    (by decide) (le_refl 0) (by decide)]
  have e1 : (t.Month + 1 - 1) / 12 = t.Month / 12 := by omega
  have e2 : (t.Month + 1 - 1) % 12 + 1 = t.Month % 12 + 1 := by omega
  simp only [add_zero]
  rw [e1, e2, dateDays_next_month _ _ a1 a2]
  unfold Time.Add Second
  simp only
  congr 1
  omega

theorem getYearStart_eq (t : Time) :
    getYearStart t = ⟨(dateDays t.Year 1 1 * 86400 - unixToInternal) * 1000000000, UTC⟩ := by
  unfold getYearStart January
  rw [Date_UTC _ _ _ _ _ _ _ (le_refl 0) (by decide) (le_refl 0) (by decide) (le_refl 0)
    (by decide) (le_refl 0) (by decide)]
  norm_num

theorem dateDays_jan1 (y : Int) : dateDays y 1 1 = daysSinceEpoch y := by
  unfold dateDays
  simp [daysBefore_table.1]

theorem daysIn_jan (y : Int) : daysIn 1 y = 31 := by
  unfold daysIn
  simp [daysBefore_table.1, daysBefore_table.2.1]

theorem getYearEnd_eq (t : Time) :
    getYearEnd t =
      ⟨(dateDays (t.Year + 1) 1 1 * 86400 - unixToInternal) * 1000000000 - 1000000000,
        UTC⟩ := by
  obtain ⟨b1, b2, b3, b4, b5⟩ := Time.date_mk t.Year 1 1 0 0 (le_refl 1) (by decide) (le_refl 1)
    (by rw [daysIn_jan]; decide) (le_refl 0) (by decide) (le_refl 0) (by decide)
    (getYearStart t) (by rw [getYearStart_eq]; congr 1; omega)
  have hc := (getYearStart t).clock_bounds
  have e3 : (getYearStart t).loc = UTC := by rw [getYearStart_eq]
  unfold getYearEnd Time.AddDate
  rw [b1, b2, b3, e3]
  have hH : (getYearStart t).Hour = 0 := by omega
  have hM : (getYearStart t).Minute = 0 := by omega
  have hS : (getYearStart t).Second = 0 := by omega
  rw [hH, hM, hS, b5]
  rw [Date_UTC _ _ _ _ _ _ _ (le_refl 0) (by decide) (le_refl 0) (by decide) (le_refl 0)
    (by decide) (le_refl 0) (by decide)]
  unfold Time.Add Second
  norm_num
  omega

/-! ## Period windows: containment and calendar alignment -/

theorem Time.wall_split (t : Time) :
    t.wallUTC.unixNano = (t.abs - unixToInternal) * 1000000000 + t.Nanosecond ∧
      t.wallUTC.truncSecond.unixNano = (t.abs - unixToInternal) * 1000000000 ∧
      0 ≤ t.Nanosecond ∧ t.abs / 86400 * 86400 ≤ t.abs ∧
      t.abs < t.abs / 86400 * 86400 + 86400 := by
  unfold Time.wallUTC Time.truncSecond Time.abs Time.zoneOffset Time.Unix Time.Nanosecond
    Leaderboard.Second
  simp only
  omega

/-- A time in `time.UTC` is its own wall clock read as a UTC time. -/
theorem Time.wallUTC_of_UTC (t : Time) (h : t.loc = UTC) : t.wallUTC = t := by
  obtain ⟨n, loc⟩ := t
  simp only at h
  subst h
  unfold Time.wallUTC Time.zoneOffset UTC
  simp

theorem Time.showsUTC_mk (y m d c h mi s : Int) (hm1 : 1 ≤ m) (hm2 : m ≤ 12) (hd1 : 1 ≤ d)
    (hd2 : d ≤ daysIn m y) (hc0 : 0 ≤ c) (hc1 : c < 86400) (hh : c / 3600 = h)
    (hmi : c % 3600 / 60 = mi) (hs : c % 60 = s) (u : Time)
    (hu : u = ⟨(dateDays y m d * 86400 + c - unixToInternal) * 1000000000, UTC⟩) :
    u.showsUTC y m d h mi s := by
  obtain ⟨b1, b2, b3, b4, b5⟩ := Time.date_mk y m d c 0 hm1 hm2 hd1 hd2 hc0 hc1 (le_refl 0)
    (by decide) u (by rw [hu]; congr 1; omega)
  refine ⟨by rw [hu], b1, b2, b3, ?_, ?_, ?_, b5⟩
  · unfold Time.Hour; rw [b4, secondsPerDay_eq, secondsPerHour_eq]; omega
  · unfold Time.Minute; rw [b4, secondsPerHour_eq, secondsPerMinute_eq]; omega
  · unfold Time.Second; rw [b4, secondsPerMinute_eq]; omega

theorem Time.Weekday_bounds (t : Time) :
    0 ≤ t.Weekday ∧ t.Weekday ≤ 6 ∧ (t.abs / 86400 + 1) % 7 = t.Weekday := by
  unfold Time.Weekday Monday
  rw [secondsPerDay_eq, secondsPerWeek_eq]
  omega

/-- C3: `getMonthStart t` is day 1 of the month and year that `t` shows, at 00:00:00 UTC, and
`getMonthEnd t` is one second before the first instant of the next month (which is in the
next year after December), that is the last day of the same month at 23:59:59 UTC;
`getYearStart t` is January 1 of the year that `t` shows, at 00:00:00 UTC, and `getYearEnd t`
is one second before January 1 of the next year, that is December 31 of the same year at
23:59:59 UTC. -/
theorem month_and_year_windows (t : Time) :
    (getMonthStart t).showsUTC t.Year t.Month 1 0 0 0 ∧
    getMonthEnd t = (Date t.Year (t.Month + 1) 1 0 0 0 0 UTC).Add (-Second) ∧
    (getMonthEnd t).showsUTC t.Year t.Month (daysIn t.Month t.Year) 23 59 59 ∧
    (getYearStart t).showsUTC t.Year January 1 0 0 0 ∧
    getYearEnd t = (Date (t.Year + 1) January 1 0 0 0 0 UTC).Add (-Second) ∧
    (getYearEnd t).showsUTC t.Year 12 31 23 59 59 := by
  obtain ⟨a1, a2, a3, a4, a5⟩ := t.month_day_bounds
  obtain ⟨t0, t1, t2, t3, t4, t5, t6, t7, t8, t9, t10, t11, t12⟩ := daysBefore_table
  have hdec : daysIn 12 t.Year = 31 := by
    unfold daysIn; simp [t11, t12]
  refine ⟨?_, ?_, ?_, ?_, ?_, ?_⟩
  · exact Time.showsUTC_mk t.Year t.Month 1 0 0 0 0 a1 a2 (le_refl 1) (by omega) (le_refl 0)
      (by decide) (by decide) (by decide) (by decide) _
      (by rw [getMonthStart_eq]; congr 1; omega)
  · rw [getMonthEnd_eq, Date_UTC _ _ _ _ _ _ _ (le_refl 0) (by decide) (le_refl 0)
      (by decide) (le_refl 0) (by decide) (le_refl 0) (by decide)]
    have e1 : (t.Month + 1 - 1) / 12 = t.Month / 12 := by omega
    have e2 : (t.Month + 1 - 1) % 12 + 1 = t.Month % 12 + 1 := by omega
    rw [e1, e2, dateDays_next_month _ _ a1 a2]
    unfold Time.Add Second
    simp only
    congr 1
    omega
  · refine Time.showsUTC_mk t.Year t.Month (daysIn t.Month t.Year) 86399 23 59 59 a1 a2
      (by omega) (le_refl _) (by decide) (by decide) (by decide) (by decide) (by decide) _ ?_
    rw [getMonthEnd_eq]
    congr 1
    unfold dateDays
    omega
  · unfold January
    exact Time.showsUTC_mk t.Year 1 1 0 0 0 0 (le_refl 1) (by decide) (le_refl 1)
      (by rw [daysIn_jan]; decide) (le_refl 0) (by decide) (by decide) (by decide)
      (by decide) _ (by rw [getYearStart_eq]; congr 1; omega)
  · rw [getYearEnd_eq, Date_UTC _ _ _ _ _ _ _ (le_refl 0) (by decide) (le_refl 0)
      (by decide) (le_refl 0) (by decide) (le_refl 0) (by decide)]
    unfold Time.Add Second January
    norm_num
    omega
  · refine Time.showsUTC_mk t.Year 12 31 86399 23 59 59 (by decide) (le_refl 12)
      (by decide) (by rw [hdec]) (by decide) (by decide) (by decide) (by decide) (by decide)
      _ ?_
    rw [getYearEnd_eq, dateDays_jan1, daysSinceEpoch_succ]
    congr 1
    unfold dateDays
    norm_num
    simp only [t11]
    split <;> omega

/-! ## A successful run executes every statement: its effect on the tables -/

/-- The club aggregation query, when it succeeds, returns `clubPointsOf`. -/
theorem aggregateClubPoints_eq (env : Env) (wf : String) (pS : Time) (db : DB)
    (l : List ClubPoints) (h : (db.aggregateClubPoints env wf pS).2 = .ok l) :
    l = clubPointsOf env wf pS db := by
  unfold DB.aggregateClubPoints DB.exec at h
  unfold clubPointsOf
  cases hf : env.fault db.statements with
  | some err => simp [hf] at h
  | none =>
    cases hc : windowColumn wf with
    | none => simp [hf, hc] at h
    | some col =>
      simp only [hf, hc] at h
      exact (Except.ok.inj h).symm

/-- The contributor aggregation query, when it succeeds, returns `userPointsOf`. -/
theorem aggregateUserContributions_eq (env : Env) (wf : String) (clubID : Nat) (pS : Time)
    (db : DB) (l : List UserPoints)
    (h : (db.aggregateUserContributions env wf clubID pS).2 = .ok l) :
    l = userPointsOf env wf clubID pS db.userPointsWindowed := by
  unfold DB.aggregateUserContributions DB.exec at h
  unfold userPointsOf
  cases hf : env.fault db.statements with
  | some err => simp [hf] at h
  | none =>
    cases hc : windowColumn wf with
    | none => simp [hf, hc] at h
    | some col =>
      simp only [hf, hc] at h
      exact (Except.ok.inj h).symm

theorem upsertClubSnapshots_ok (env : Env) (pt : String) (pS pE : Time)
    (cps : List ClubPoints) :
    ∀ (g : Nat) (db : DB), (upsertClubSnapshots env pt pS pE cps g db).2 = none →
      (upsertClubSnapshots env pt pS pE cps g db).1.clubSnapshots
          = upsertClubRows pt pS pE cps g db.clubSnapshots db.clubSnapshotSeq ∧
        (upsertClubSnapshots env pt pS pE cps g db).1.clubSnapshotSeq
          = db.clubSnapshotSeq + cps.length ∧
        (upsertClubSnapshots env pt pS pE cps g db).1.clubs = db.clubs ∧
        (upsertClubSnapshots env pt pS pE cps g db).1.userPointsWindowed
          = db.userPointsWindowed ∧
        (upsertClubSnapshots env pt pS pE cps g db).1.userClubSnapshots
          = db.userClubSnapshots ∧
        (upsertClubSnapshots env pt pS pE cps g db).1.userClubSnapshotSeq
          = db.userClubSnapshotSeq := by
  induction cps with
  | nil => intro g db _; simp [upsertClubSnapshots, upsertClubRows]
  | cons cp rest ih =>
    intro g db h
    unfold upsertClubSnapshots at h ⊢
    unfold DB.upsertClubSnapshot DB.exec at h ⊢
    cases hf : env.fault db.statements with
    | some err => simp [hf] at h
    | none =>
      simp only [hf] at h ⊢
      obtain ⟨h1, h2, h3, h4, h5, h6⟩ := ih _ _ h
      refine ⟨?_, ?_, ?_, ?_, ?_, ?_⟩
      · rw [h1]; rfl
      · rw [h2]; simp only [List.length_cons]; omega
      · rw [h3]
      · rw [h4]
      · rw [h5]
      · rw [h6]

theorem updateLocalRanks_ok (env : Env) (clubs : List ClubLeaderboardSnapshot) :
    ∀ (j : Nat) (db : DB), (updateLocalRanks env clubs j db).2 = none →
      (updateLocalRanks env clubs j db).1.clubSnapshots
          = setLocalRanks clubs j db.clubSnapshots ∧
        (updateLocalRanks env clubs j db).1.clubSnapshotSeq = db.clubSnapshotSeq ∧
        (updateLocalRanks env clubs j db).1.clubs = db.clubs ∧
        (updateLocalRanks env clubs j db).1.userPointsWindowed = db.userPointsWindowed ∧
        (updateLocalRanks env clubs j db).1.userClubSnapshots = db.userClubSnapshots ∧
        (updateLocalRanks env clubs j db).1.userClubSnapshotSeq = db.userClubSnapshotSeq := by
  induction clubs with
  | nil => intro j db _; simp [updateLocalRanks, setLocalRanks]
  | cons club rest ih =>
    intro j db h
    unfold updateLocalRanks at h ⊢
    unfold DB.updateLocalRank DB.exec at h ⊢
    cases hf : env.fault db.statements with
    | some err => simp [hf] at h
    | none =>
      simp only [hf] at h ⊢
      obtain ⟨h1, h2, h3, h4, h5, h6⟩ := ih _ _ h
      refine ⟨?_, ?_, ?_, ?_, ?_, ?_⟩
      · rw [h1]; rfl
      · rw [h2]
      · rw [h3]
      · rw [h4]
      · rw [h5]
      · rw [h6]

theorem computeCityRanks_ok (env : Env) (pt : String) (pS : Time) (cities : List String) :
    ∀ (db : DB), (computeCityRanks env pt pS cities db).2 = none →
      (computeCityRanks env pt pS cities db).1.clubSnapshots
          = cityPasses env.sorter pt pS cities db.clubSnapshots ∧
        (computeCityRanks env pt pS cities db).1.clubSnapshotSeq = db.clubSnapshotSeq ∧
        (computeCityRanks env pt pS cities db).1.clubs = db.clubs ∧
        (computeCityRanks env pt pS cities db).1.userPointsWindowed = db.userPointsWindowed ∧
        (computeCityRanks env pt pS cities db).1.userClubSnapshots = db.userClubSnapshots ∧
        (computeCityRanks env pt pS cities db).1.userClubSnapshotSeq
          = db.userClubSnapshotSeq := by
  induction cities with
  | nil => intro db _; simp [computeCityRanks, cityPasses]
  | cons city rest ih =>
    intro db h
    unfold computeCityRanks at h ⊢
    unfold DB.findCityClubs DB.exec at h ⊢
    cases hf : env.fault db.statements with
    | some err => simp [hf] at h
    | none =>
      simp only [hf] at h ⊢
      generalize hq : env.sorter.orderBy (fun r => r.TotalPoints)
        (List.filter (ClubLeaderboardSnapshot.inCity city pt pS.unixNano) db.clubSnapshots)
        = q at h ⊢
      cases hu : (updateLocalRanks env q 0
          { db with statements := db.statements + 1 }).2 with
      | some err =>
        rw [show updateLocalRanks env q 0 { db with statements := db.statements + 1 }
          = ((updateLocalRanks env q 0 { db with statements := db.statements + 1 }).1,
             (updateLocalRanks env q 0 { db with statements := db.statements + 1 }).2)
          from rfl, hu] at h
        simp at h
      | none =>
        obtain ⟨u1, u2, u3, u4, u5, u6⟩ := updateLocalRanks_ok env q 0 _ hu
        rw [show updateLocalRanks env q 0 { db with statements := db.statements + 1 }
          = ((updateLocalRanks env q 0 { db with statements := db.statements + 1 }).1,
             (updateLocalRanks env q 0 { db with statements := db.statements + 1 }).2)
          from rfl, hu] at h ⊢
        simp only at h ⊢
        obtain ⟨h1, h2, h3, h4, h5, h6⟩ := ih _ h
        refine ⟨?_, ?_, ?_, ?_, ?_, ?_⟩
        · rw [h1, u1]; simp only [cityPasses, cityPass, hq]
        · rw [h2, u2]
        · rw [h3, u3]
        · rw [h4, u4]
        · rw [h5, u5]
        · rw [h6, u6]

theorem computeClubLeaderboard_ok (env : Env) (pt : String) (pS pE : Time) (wf : String)
    (db : DB) (h : (computeClubLeaderboard env pt pS pE wf db).2 = none) :
    (∃ col, windowColumn wf = some col) ∧
      (computeClubLeaderboard env pt pS pE wf db).1.clubSnapshots
        = cityPasses env.sorter pt pS (env.anyOrder (cityKeys (clubPointsOf env wf pS db)))
            (upsertClubRows pt pS pE (clubPointsOf env wf pS db) 0 db.clubSnapshots
              db.clubSnapshotSeq) ∧
      (computeClubLeaderboard env pt pS pE wf db).1.clubSnapshotSeq
        = db.clubSnapshotSeq + (clubPointsOf env wf pS db).length ∧
      (computeClubLeaderboard env pt pS pE wf db).1.clubs = db.clubs ∧
      (computeClubLeaderboard env pt pS pE wf db).1.userPointsWindowed
        = db.userPointsWindowed ∧
      (computeClubLeaderboard env pt pS pE wf db).1.userClubSnapshots
        = db.userClubSnapshots ∧
      (computeClubLeaderboard env pt pS pE wf db).1.userClubSnapshotSeq
        = db.userClubSnapshotSeq := by
  unfold computeClubLeaderboard at h ⊢
  unfold DB.aggregateClubPoints DB.exec at h ⊢
  unfold clubPointsOf
  cases hf : env.fault db.statements with
  | some err => simp [hf] at h
  | none =>
    simp only [hf] at h ⊢
    cases hc : windowColumn wf with
    | none => simp [hc] at h
    | some col =>
      simp only [hc] at h ⊢
      generalize hq : env.sorter.orderBy (fun cp => cp.TotalPoints)
        (List.map (clubGroup db.userPointsWindowed col pS.unixNano) db.clubs) = q at h ⊢
      cases hu : (upsertClubSnapshots env pt pS pE q 0
          { db with statements := db.statements + 1 }).2 with
      | some err =>
        rw [show upsertClubSnapshots env pt pS pE q 0
            { db with statements := db.statements + 1 }
          = ((upsertClubSnapshots env pt pS pE q 0
              { db with statements := db.statements + 1 }).1,
             (upsertClubSnapshots env pt pS pE q 0
              { db with statements := db.statements + 1 }).2) from rfl, hu] at h
        simp at h
      | none =>
        obtain ⟨u1, u2, u3, u4, u5, u6⟩ := upsertClubSnapshots_ok env pt pS pE q 0 _ hu
        rw [show upsertClubSnapshots env pt pS pE q 0
            { db with statements := db.statements + 1 }
          = ((upsertClubSnapshots env pt pS pE q 0
              { db with statements := db.statements + 1 }).1,
             (upsertClubSnapshots env pt pS pE q 0
              { db with statements := db.statements + 1 }).2) from rfl, hu] at h ⊢
        simp only at h ⊢
        obtain ⟨h1, h2, h3, h4, h5, h6⟩ := computeCityRanks_ok env pt pS _ _ h
        refine ⟨⟨col, rfl⟩, ?_, ?_, ?_, ?_, ?_, ?_⟩
        · rw [h1, u1]
        · rw [h2, u2]
        · rw [h3, u3]
        · rw [h4, u4]
        · rw [h5, u5]
        · rw [h6, u6]

theorem upsertUserClubSnapshots_ok (env : Env) (pt : String) (pS pE : Time) (clubID : Nat)
    (ups : List UserPoints) :
    ∀ (g : Nat) (db : DB), (upsertUserClubSnapshots env pt pS pE clubID ups g db).2 = none →
      (upsertUserClubSnapshots env pt pS pE clubID ups g db).1.userClubSnapshots
          = upsertUserClubRows pt pS pE clubID ups g db.userClubSnapshots
              db.userClubSnapshotSeq ∧
        (upsertUserClubSnapshots env pt pS pE clubID ups g db).1.userClubSnapshotSeq
          = db.userClubSnapshotSeq + ups.length ∧
        (upsertUserClubSnapshots env pt pS pE clubID ups g db).1.clubs = db.clubs ∧
        (upsertUserClubSnapshots env pt pS pE clubID ups g db).1.userPointsWindowed
          = db.userPointsWindowed ∧
        (upsertUserClubSnapshots env pt pS pE clubID ups g db).1.clubSnapshots
          = db.clubSnapshots ∧
        (upsertUserClubSnapshots env pt pS pE clubID ups g db).1.clubSnapshotSeq
          = db.clubSnapshotSeq := by
  induction ups with
  | nil => intro g db _; simp [upsertUserClubSnapshots, upsertUserClubRows]
  | cons up rest ih =>
    intro g db h
    unfold upsertUserClubSnapshots at h ⊢
    unfold DB.upsertUserClubSnapshot DB.exec at h ⊢
    cases hf : env.fault db.statements with
    | some err => simp [hf] at h
    | none =>
      simp only [hf] at h ⊢
      obtain ⟨h1, h2, h3, h4, h5, h6⟩ := ih _ _ h
      refine ⟨?_, ?_, ?_, ?_, ?_, ?_⟩
      · rw [h1]; rfl
      · rw [h2]; simp only [List.length_cons]; omega
      · rw [h3]
      · rw [h4]
      · rw [h5]
      · rw [h6]

theorem computeClubContributors_ok (env : Env) (pt : String) (pS pE : Time) (wf : String)
    (clubs : List Club) :
    ∀ (db : DB), (computeClubContributors env pt pS pE wf clubs db).2 = none →
      (clubs = [] ∨ ∃ col, windowColumn wf = some col) ∧
        (computeClubContributors env pt pS pE wf clubs db).1.userClubSnapshots
          = contributorRows env pt pS pE wf db.userPointsWindowed clubs db.userClubSnapshots
              db.userClubSnapshotSeq ∧
        (computeClubContributors env pt pS pE wf clubs db).1.clubs = db.clubs ∧
        (computeClubContributors env pt pS pE wf clubs db).1.userPointsWindowed
          = db.userPointsWindowed ∧
        (computeClubContributors env pt pS pE wf clubs db).1.clubSnapshots
          = db.clubSnapshots ∧
        (computeClubContributors env pt pS pE wf clubs db).1.clubSnapshotSeq
          = db.clubSnapshotSeq := by
  induction clubs with
  | nil => intro db _; simp [computeClubContributors, contributorRows]
  | cons club rest ih =>
    intro db h
    unfold computeClubContributors at h ⊢
    unfold DB.aggregateUserContributions DB.exec at h ⊢
    unfold contributorRows userPointsOf
    cases hf : env.fault db.statements with
    | some err => simp [hf] at h
    | none =>
      simp only [hf] at h ⊢
      cases hc : windowColumn wf with
      | none => simp [hc] at h
      | some col =>
        simp only [hc] at h ⊢
        generalize hq : env.sorter.orderBy (fun up => up.Points)
          (List.map (userGroup (clubEntries db.userPointsWindowed col pS.unixNano club.ID))
            (List.map (fun e => e.UserID)
              (clubEntries db.userPointsWindowed col pS.unixNano club.ID)).dedup) = q at h ⊢
        cases hu : (upsertUserClubSnapshots env pt pS pE club.ID q 0
            { db with statements := db.statements + 1 }).2 with
        | some err =>
          rw [show upsertUserClubSnapshots env pt pS pE club.ID q 0
              { db with statements := db.statements + 1 }
            = ((upsertUserClubSnapshots env pt pS pE club.ID q 0
                { db with statements := db.statements + 1 }).1,
               (upsertUserClubSnapshots env pt pS pE club.ID q 0
                { db with statements := db.statements + 1 }).2) from rfl, hu] at h
          simp at h
        | none =>
          obtain ⟨u1, u2, u3, u4, u5, u6⟩ :=
            upsertUserClubSnapshots_ok env pt pS pE club.ID q 0 _ hu
          rw [show upsertUserClubSnapshots env pt pS pE club.ID q 0
              { db with statements := db.statements + 1 }
            = ((upsertUserClubSnapshots env pt pS pE club.ID q 0
                { db with statements := db.statements + 1 }).1,
               (upsertUserClubSnapshots env pt pS pE club.ID q 0
                { db with statements := db.statements + 1 }).2) from rfl, hu] at h ⊢
          simp only at h ⊢
          obtain ⟨_, h1, h3, h4, h5, h6⟩ := ih _ h
          refine ⟨Or.inr ⟨col, rfl⟩, ?_, ?_, ?_, ?_, ?_⟩
          · rw [h1, u1, u2, u4]
          · rw [h3, u3]
          · rw [h4, u4]
          · rw [h5, u5]
          · rw [h6, u6]

theorem computeUserClubLeaderboard_ok (env : Env) (pt : String) (pS pE : Time) (wf : String)
    (db : DB) (h : (computeUserClubLeaderboard env pt pS pE wf db).2 = none) :
    (computeUserClubLeaderboard env pt pS pE wf db).1.userClubSnapshots
        = contributorRows env pt pS pE wf db.userPointsWindowed
            (env.anyOrder (db.clubs.filter (fun c => c.DeletedAt.isNone)))
            db.userClubSnapshots db.userClubSnapshotSeq ∧
      (computeUserClubLeaderboard env pt pS pE wf db).1.clubs = db.clubs ∧
      (computeUserClubLeaderboard env pt pS pE wf db).1.userPointsWindowed
        = db.userPointsWindowed ∧
      (computeUserClubLeaderboard env pt pS pE wf db).1.clubSnapshots = db.clubSnapshots ∧
      (computeUserClubLeaderboard env pt pS pE wf db).1.clubSnapshotSeq
        = db.clubSnapshotSeq := by
  unfold computeUserClubLeaderboard at h ⊢
  unfold DB.findClubs DB.exec at h ⊢
  cases hf : env.fault db.statements with
  | some err => simp [hf] at h
  | none =>
    simp only [hf] at h ⊢
    obtain ⟨_, h1, h3, h4, h5, h6⟩ := computeClubContributors_ok env pt pS pE wf _ _ h
    exact ⟨h1, h3, h4, h5, h6⟩

/-! ## The club upsert -/

theorem ClubLeaderboardSnapshot.conflicts_iff (r s : ClubLeaderboardSnapshot) :
    r.conflicts s = true ↔ r.key = s.key := by
  simp [ClubLeaderboardSnapshot.conflicts, ClubLeaderboardSnapshot.key]

theorem ClubLeaderboardSnapshot.key_assign (r s : ClubLeaderboardSnapshot) :
    (r.assign s).key = r.key := rfl

theorem any_conflicts_iff (rows : List ClubLeaderboardSnapshot) (s : ClubLeaderboardSnapshot) :
    rows.any (fun r => r.conflicts s) = true ↔ ∃ r ∈ rows, r.key = s.key := by
  simp [List.any_eq_true, ClubLeaderboardSnapshot.conflicts_iff]

theorem mem_upsertClubRow (rows : List ClubLeaderboardSnapshot) (seq : Nat)
    (s x : ClubLeaderboardSnapshot) :
    x ∈ upsertClubRow rows seq s ↔
      (∃ r ∈ rows, r.key = s.key ∧ x = r.assign s) ∨ (x ∈ rows ∧ x.key ≠ s.key) ∨
      ((∀ r ∈ rows, r.key ≠ s.key) ∧ x = { s with ID := seq }) := by
  unfold upsertClubRow
  by_cases hc : rows.any (fun r => r.conflicts s) = true
  · rw [if_pos hc]
    have hex := (any_conflicts_iff rows s).1 hc
    constructor
    · intro hx
      obtain ⟨r, hr, hrx⟩ := List.mem_map.1 hx
      by_cases hk : r.conflicts s = true
      · rw [if_pos hk] at hrx
        exact Or.inl ⟨r, hr, (r.conflicts_iff s).1 hk, hrx.symm⟩
      · rw [if_neg hk] at hrx
        subst hrx
        exact Or.inr (Or.inl ⟨hr, fun h => hk ((r.conflicts_iff s).2 h)⟩)
    · rintro (⟨r, hr, hk, hx⟩ | ⟨hx, hk⟩ | ⟨hno, _⟩)
      · exact List.mem_map.2 ⟨r, hr, by rw [if_pos ((r.conflicts_iff s).2 hk)]; exact hx.symm⟩
      · exact List.mem_map.2 ⟨x, hx, by
          rw [if_neg (fun h => hk ((x.conflicts_iff s).1 h))]⟩
      · obtain ⟨r, hr, hk⟩ := hex
        exact absurd hk (hno r hr)
  · rw [if_neg hc]
    have hno : ∀ r ∈ rows, r.key ≠ s.key := fun r hr hk =>
      hc ((any_conflicts_iff rows s).2 ⟨r, hr, hk⟩)
    constructor
    · intro hx
      rcases List.mem_append.1 hx with h1 | h1
      · exact Or.inr (Or.inl ⟨h1, hno x h1⟩)
      · exact Or.inr (Or.inr ⟨hno, List.mem_singleton.1 h1⟩)
    · rintro (⟨r, hr, hk, _⟩ | ⟨hx, _⟩ | ⟨_, hx⟩)
      · exact absurd hk (hno r hr)
      · exact List.mem_append.2 (Or.inl hx)
      · exact List.mem_append.2 (Or.inr (List.mem_singleton.2 hx))

theorem upsertClubRow_wf (rows : List ClubLeaderboardSnapshot) (seq : Nat)
    (s : ClubLeaderboardSnapshot) (h : ClubRowsWF rows seq) :
    ClubRowsWF (upsertClubRow rows seq s) (seq + 1) := by
  obtain ⟨hk, hi, hlt⟩ := h
  unfold upsertClubRow
  by_cases hc : rows.any (fun r => r.conflicts s) = true
  · rw [if_pos hc]
    have e1 : (rows.map (fun r => if r.conflicts s then r.assign s else r)).map
        ClubLeaderboardSnapshot.key = rows.map ClubLeaderboardSnapshot.key := by
      rw [List.map_map]
      apply List.map_congr_left
      intro r _
      simp only [Function.comp]
      split <;> rfl
    have e2 : (rows.map (fun r => if r.conflicts s then r.assign s else r)).map
        (fun r => r.ID) = rows.map (fun r => r.ID) := by
      rw [List.map_map]
      apply List.map_congr_left
      intro r _
      simp only [Function.comp]
      split <;> rfl
    refine ⟨by rw [e1]; exact hk, by rw [e2]; exact hi, ?_⟩
    intro x hx
    obtain ⟨r, hr, hrx⟩ := List.mem_map.1 hx
    have : x.ID = r.ID := by
      rw [← hrx]; split <;> rfl
    have := hlt r hr
    omega
  · rw [if_neg hc]
    have hno : ∀ r ∈ rows, r.key ≠ s.key := fun r hr hk' =>
      hc ((any_conflicts_iff rows s).2 ⟨r, hr, hk'⟩)
    refine ⟨?_, ?_, ?_⟩
    · rw [List.map_append, List.map_singleton]
      apply List.Nodup.append hk (List.nodup_singleton _)
      intro k hk1 hk2
      obtain ⟨r, hr, hrk⟩ := List.mem_map.1 hk1
      rw [List.mem_singleton] at hk2
      exact hno r hr (hrk.trans hk2)
    · rw [List.map_append, List.map_singleton]
      apply List.Nodup.append hi (List.nodup_singleton _)
      intro k hk1 hk2
      obtain ⟨r, hr, hrk⟩ := List.mem_map.1 hk1
      rw [List.mem_singleton] at hk2
      have := hlt r hr
      simp only at hk2
      omega
    · intro x hx
      rcases List.mem_append.1 hx with h1 | h1
      · have := hlt x h1; omega
      · rw [List.mem_singleton.1 h1]; simp

/-- An upsert leaves the rows of other period types as they are. -/
theorem upsertClubRow_filter (rows : List ClubLeaderboardSnapshot) (seq : Nat)
    (s : ClubLeaderboardSnapshot) (p : ClubLeaderboardSnapshot → Bool)
    (hp : ∀ r, r.PeriodType = s.PeriodType → p r = false) :
    (upsertClubRow rows seq s).filter p = rows.filter p := by
  unfold upsertClubRow
  split
  · rename_i hany
    clear hany
    induction rows with
    | nil => rfl
    | cons r rest ih =>
      rw [List.map_cons]
      by_cases hk : r.conflicts s = true
      · have h1 : p r = false := hp r (by
          simp [ClubLeaderboardSnapshot.conflicts] at hk; exact hk.2.1)
        have h2 : p (r.assign s) = false := hp _ (by
          simp [ClubLeaderboardSnapshot.conflicts] at hk; exact hk.2.1)
        rw [if_pos hk, List.filter_cons_of_neg (by simp [h2]),
          List.filter_cons_of_neg (by simp [h1]), ih]
      · rw [if_neg hk]
        by_cases hpr : p r = true
        · rw [List.filter_cons_of_pos hpr, List.filter_cons_of_pos hpr, ih]
        · rw [List.filter_cons_of_neg hpr, List.filter_cons_of_neg hpr, ih]
  · rw [List.filter_append]
    have : p { s with ID := seq } = false := hp _ rfl
    simp [List.filter_cons, this]

/-- An upsert that writes the values a row already has changes nothing. -/
theorem upsertClubRow_same (rows : List ClubLeaderboardSnapshot) (seq : Nat)
    (s : ClubLeaderboardSnapshot) (hex : ∃ r ∈ rows, r.key = s.key)
    (hsame : ∀ r ∈ rows, r.key = s.key → r.assign s = r) :
    upsertClubRow rows seq s = rows := by
  unfold upsertClubRow
  rw [if_pos ((any_conflicts_iff rows s).2 hex)]
  conv_rhs => rw [← List.map_id rows]
  apply List.map_congr_left
  intro r hr
  by_cases hk : r.conflicts s = true
  · rw [if_pos hk]; exact hsame r hr ((r.conflicts_iff s).1 hk)
  · rw [if_neg hk]; rfl

/-! ## The global pass -/

theorem ClubRowsWF.eq_of_key (rows : List ClubLeaderboardSnapshot) (seq : Nat)
    (h : ClubRowsWF rows seq) (a b : ClubLeaderboardSnapshot) (ha : a ∈ rows) (hb : b ∈ rows)
    (hk : a.key = b.key) : a = b :=
  List.inj_on_of_nodup_map h.1 ha hb hk

theorem ClubRowsWF.eq_of_id (rows : List ClubLeaderboardSnapshot) (seq : Nat)
    (h : ClubRowsWF rows seq) (a b : ClubLeaderboardSnapshot) (ha : a ∈ rows) (hb : b ∈ rows)
    (hk : a.ID = b.ID) : a = b :=
  List.inj_on_of_nodup_map h.2.1 ha hb hk

/-- After an upsert of `s` there is a row that stores `s`; its local rank is that of the row
that was in conflict, or unset if there was none. -/
theorem upsertClubRow_stores (rows : List ClubLeaderboardSnapshot) (seq : Nat)
    (s : ClubLeaderboardSnapshot) (h : ClubRowsWF rows seq) (hs : s.LocalRank = none) :
    ∃ x ∈ upsertClubRow rows seq s, x.stores s ∧
      (∀ r0 ∈ rows, r0.key = x.key → x.LocalRank = r0.LocalRank) ∧
      ((∀ r0 ∈ rows, r0.key ≠ x.key) → x.LocalRank = none) := by
  by_cases hex : ∃ r ∈ rows, r.key = s.key
  · obtain ⟨r, hr, hk⟩ := hex
    refine ⟨r.assign s, (mem_upsertClubRow rows seq s _).2 (Or.inl ⟨r, hr, hk, rfl⟩),
      ⟨hk, rfl⟩, ?_, ?_⟩
    · intro r0 hr0 hk0
      have : r0 = r := h.eq_of_key rows seq r0 r hr0 hr hk0
      rw [this]; rfl
    · intro hno
      exact absurd rfl (hno r hr)
  · have hno : ∀ r ∈ rows, r.key ≠ s.key := fun r hr hk => hex ⟨r, hr, hk⟩
    refine ⟨{ s with ID := seq },
      (mem_upsertClubRow rows seq s _).2 (Or.inr (Or.inr ⟨hno, rfl⟩)), ⟨rfl, rfl⟩, ?_, ?_⟩
    · intro r0 hr0 hk0
      exact absurd hk0 (hno r0 hr0)
    · intro _
      exact hs

theorem newClubSnapshot_key (pt : String) (pS pE : Time) (cp : ClubPoints) (g : Nat) :
    (newClubSnapshot pt pS pE cp g).key = (cp.ClubID, pt, pS.unixNano) := rfl

theorem upsertClubRows_spec (pt : String) (pS pE : Time) (cps : List ClubPoints) :
    ∀ (g : Nat) (rows : List ClubLeaderboardSnapshot) (seq : Nat), ClubRowsWF rows seq →
      (cps.map (fun cp => cp.ClubID)).Nodup →
      ClubRowsWF (upsertClubRows pt pS pE cps g rows seq) (seq + cps.length) ∧
      (∀ i cp, cps[i]? = some cp → ∃ r ∈ upsertClubRows pt pS pE cps g rows seq,
        r.stores (newClubSnapshot pt pS pE cp (g + i)) ∧
        (∀ r0 ∈ rows, r0.key = r.key → r.LocalRank = r0.LocalRank) ∧
        ((∀ r0 ∈ rows, r0.key ≠ r.key) → r.LocalRank = none)) ∧
      (∀ r ∈ upsertClubRows pt pS pE cps g rows seq,
        (∀ cp ∈ cps, r.key ≠ (cp.ClubID, pt, pS.unixNano)) → r ∈ rows) ∧
      (∀ r ∈ rows, (∀ cp ∈ cps, r.key ≠ (cp.ClubID, pt, pS.unixNano)) →
        r ∈ upsertClubRows pt pS pE cps g rows seq) := by
  induction cps with
  | nil =>
    intro g rows seq h _
    refine ⟨by simpa [upsertClubRows] using h, ?_, ?_, ?_⟩
    · intro i cp hi; simp at hi
    · intro r hr _; simpa [upsertClubRows] using hr
    · intro r hr _; simpa [upsertClubRows] using hr
  | cons cp0 rest ih =>
    intro g rows seq h hnd
    rw [List.map_cons, List.nodup_cons] at hnd
    obtain ⟨hnot, hnd'⟩ := hnd
    have hne : ∀ cp ∈ rest, cp.ClubID ≠ cp0.ClubID := by
      intro cp hcp heq
      exact hnot (List.mem_map.2 ⟨cp, hcp, heq⟩)
    have hwf1 := upsertClubRow_wf rows seq (newClubSnapshot pt pS pE cp0 g) h
    obtain ⟨i1, i2, i3, i4⟩ := ih (g + 1) _ (seq + 1) hwf1 hnd'
    have hmem := mem_upsertClubRow rows seq (newClubSnapshot pt pS pE cp0 g)
    unfold upsertClubRows
    refine ⟨?_, ?_, ?_, ?_⟩
    · have e : seq + (cp0 :: rest).length = seq + 1 + rest.length := by
        simp only [List.length_cons]; omega
      rw [e]; exact i1
    · intro i cp hi
      cases i with
      | zero =>
        simp only [List.getElem?_cons_zero, Option.some.injEq] at hi
        subst hi
        obtain ⟨x, hx, hst, hl1, hl2⟩ := upsertClubRow_stores rows seq
          (newClubSnapshot pt pS pE cp0 g) h rfl
        refine ⟨x, i4 x hx ?_, hst, hl1, hl2⟩
        intro cp hcp hk
        rw [hst.1, newClubSnapshot_key] at hk
        exact hne cp hcp (by simpa using hk.symm)
      | succ j =>
        simp only [List.getElem?_cons_succ] at hi
        obtain ⟨r, hr, hst, hl1, hl2⟩ := i2 j cp hi
        have hcp : cp ∈ rest := List.getElem?_mem hi
        have e : g + 1 + j = g + (j + 1) := by omega
        rw [e] at hst
        have hrk : r.key ≠ (newClubSnapshot pt pS pE cp0 g).key := by
          rw [hst.1, newClubSnapshot_key, newClubSnapshot_key]
          intro hk
          exact hne cp hcp (by simpa using hk)
        refine ⟨r, hr, hst, ?_, ?_⟩
        · intro r0 hr0 hk0
          exact hl1 r0 ((hmem r0).2 (Or.inr (Or.inl ⟨hr0, by rw [hk0]; exact hrk⟩))) hk0
        · intro hno
          apply hl2
          intro r1 hr1 hk1
          rcases (hmem r1).1 hr1 with ⟨r2, _, hk2, hx⟩ | ⟨hx, _⟩ | ⟨_, hx⟩
          · apply hrk
            rw [← hk1, hx]
            exact hk2
          · exact hno r1 hx hk1
          · apply hrk
            rw [← hk1, hx]
            rfl
    · intro r hr hno
      have hr1 := i3 r hr (fun cp hcp => hno cp (List.mem_cons_of_mem _ hcp))
      have hk0 := hno cp0 (List.mem_cons_self _ _)
      rcases (hmem r).1 hr1 with ⟨r2, _, hk2, hx⟩ | ⟨hx, _⟩ | ⟨_, hx⟩
      · exact absurd (by rw [hx]; exact hk2) hk0
      · exact hx
      · exact absurd (by rw [hx]; rfl) hk0
    · intro r hr hno
      apply i4 r _ (fun cp hcp => hno cp (List.mem_cons_of_mem _ hcp))
      exact (hmem r).2 (Or.inr (Or.inl ⟨hr, hno cp0 (List.mem_cons_self _ _)⟩))

/-- The global pass leaves the rows of other period types as they are. -/
theorem upsertClubRows_filter (pt : String) (pS pE : Time) (cps : List ClubPoints)
    (p : ClubLeaderboardSnapshot → Bool) (hp : ∀ r, r.PeriodType = pt → p r = false) :
    ∀ (g : Nat) (rows : List ClubLeaderboardSnapshot) (seq : Nat),
      (upsertClubRows pt pS pE cps g rows seq).filter p = rows.filter p := by
  induction cps with
  | nil => intro g rows seq; rfl
  | cons cp0 rest ih =>
    intro g rows seq
    unfold upsertClubRows
    rw [ih, upsertClubRow_filter rows seq _ p (fun r hr => hp r hr)]

/-- A global pass over rows that already store what it writes changes nothing. -/
theorem upsertClubRows_same (pt : String) (pS pE : Time) (cps : List ClubPoints) :
    ∀ (g : Nat) (rows : List ClubLeaderboardSnapshot) (seq : Nat),
      (∀ i cp, cps[i]? = some cp →
        ∃ r ∈ rows, r.key = (newClubSnapshot pt pS pE cp (g + i)).key) →
      (∀ i cp, cps[i]? = some cp → ∀ r ∈ rows,
        r.key = (newClubSnapshot pt pS pE cp (g + i)).key →
        r.assign (newClubSnapshot pt pS pE cp (g + i)) = r) →
      upsertClubRows pt pS pE cps g rows seq = rows := by
  induction cps with
  | nil => intro g rows seq _ _; rfl
  | cons cp0 rest ih =>
    intro g rows seq hex hsame
    unfold upsertClubRows
    have e0 := upsertClubRow_same rows seq (newClubSnapshot pt pS pE cp0 g)
      (hex 0 cp0 (by simp)) (hsame 0 cp0 (by simp))
    rw [e0]
    apply ih
    · intro i cp hi
      have := hex (i + 1) cp (by simpa using hi)
      have e : g + 1 + i = g + (i + 1) := by omega
      rw [e]; exact this
    · intro i cp hi
      have := hsame (i + 1) cp (by simpa using hi)
      have e : g + 1 + i = g + (i + 1) := by omega
      rw [e]; exact this

/-! ## The locality passes -/

theorem setLocalRanks_eq (clubs : List ClubLeaderboardSnapshot) :
    ∀ (j : Nat) (rows : List ClubLeaderboardSnapshot),
      (clubs.map (fun r => r.ID)).Nodup →
      setLocalRanks clubs j rows = rows.map (withLocalRankIn (clubs.map (fun r => r.ID)) j) := by
  induction clubs with
  | nil =>
    intro j rows _
    unfold setLocalRanks
    conv_lhs => rw [← List.map_id rows]
    apply List.map_congr_left
    intro r _
    simp [withLocalRankIn]
  | cons q rest ih =>
    intro j rows hnd
    rw [List.map_cons, List.nodup_cons] at hnd
    obtain ⟨hq, hnd'⟩ := hnd
    unfold setLocalRanks
    rw [ih (j + 1) _ hnd']
    unfold setLocalRank
    rw [List.map_map]
    apply List.map_congr_left
    intro r _
    simp only [Function.comp, List.map_cons]
    by_cases hr : r.ID = q.ID
    · rw [if_pos hr]
      unfold withLocalRankIn
      have h1 : ¬ (q.ID ∈ List.map (fun r => r.ID) rest) := hq
      simp only [hr, h1, if_false, List.mem_cons, true_or, if_true, List.indexOf_cons_self]
      simp
    · rw [if_neg hr]
      unfold withLocalRankIn
      by_cases hm : r.ID ∈ List.map (fun r => r.ID) rest
      · rw [if_pos hm, if_pos (List.mem_cons_of_mem _ hm),
          List.indexOf_cons_ne _ (fun h => hr h.symm)]
        have e : j + 1 + List.indexOf r.ID (List.map (fun r => r.ID) rest)
            = j + (List.indexOf r.ID (List.map (fun r => r.ID) rest)).succ := by omega
        rw [e]
      · rw [if_neg hm, if_neg]
        intro h
        rcases List.mem_cons.1 h with h1 | h1
        · exact hr h1
        · exact hm h1

theorem withLocalRankIn_fields (ids : List Nat) (j : Nat) (r : ClubLeaderboardSnapshot) :
    (withLocalRankIn ids j r).key = r.key ∧ (withLocalRankIn ids j r).ID = r.ID ∧
      (withLocalRankIn ids j r).TotalPoints = r.TotalPoints ∧
      (withLocalRankIn ids j r).City = r.City ∧
      (withLocalRankIn ids j r).GlobalRank = r.GlobalRank ∧
      (withLocalRankIn ids j r).toPoints = r.toPoints ∧
      (withLocalRankIn ids j r).PeriodEnd = r.PeriodEnd ∧
      (withLocalRankIn ids j r).PeriodType = r.PeriodType ∧
      (withLocalRankIn ids j r).PeriodStart = r.PeriodStart ∧
      withLocalRankIn ids j r = { r with LocalRank := (withLocalRankIn ids j r).LocalRank } := by
  unfold withLocalRankIn
  split <;> exact ⟨rfl, rfl, rfl, rfl, rfl, rfl, rfl, rfl, rfl, rfl⟩

theorem cityPass_eq (sorter : Sorter) (pt : String) (pS : Time) (city : String)
    (rows : List ClubLeaderboardSnapshot) (seq : Nat) (h : ClubRowsWF rows seq) :
    cityPass sorter pt pS city rows
      = rows.map (withLocalRankIn (cityOrder sorter pt pS city rows) 0) := by
  unfold cityPass cityOrder
  apply setLocalRanks_eq
  have hp := sorter.perm (fun r => r.TotalPoints)
    (rows.filter (ClubLeaderboardSnapshot.inCity city pt pS.unixNano))
  apply (List.Perm.nodup_iff (hp.map _)).2
  exact List.Nodup.sublist (List.Sublist.map _ (List.filter_sublist _)) h.2.1

theorem mem_cityOrder (sorter : Sorter) (pt : String) (pS : Time) (city : String)
    (rows : List ClubLeaderboardSnapshot) (seq : Nat) (h : ClubRowsWF rows seq)
    (r : ClubLeaderboardSnapshot) (hr : r ∈ rows) :
    r.ID ∈ cityOrder sorter pt pS city rows ↔ r.inCity city pt pS.unixNano = true := by
  have hp := sorter.perm (fun r => r.TotalPoints)
    (rows.filter (ClubLeaderboardSnapshot.inCity city pt pS.unixNano))
  unfold cityOrder
  constructor
  · intro hm
    obtain ⟨q, hq, hid⟩ := List.mem_map.1 hm
    have hq2 := List.mem_filter.1 (hp.mem_iff.1 hq)
    have : q = r := h.eq_of_id rows seq q r hq2.1 hr hid
    rw [← this]; exact hq2.2
  · intro hc
    exact List.mem_map.2 ⟨r, hp.mem_iff.2 (List.mem_filter.2 ⟨hr, hc⟩), rfl⟩

theorem cityPass_wf (sorter : Sorter) (pt : String) (pS : Time) (city : String)
    (rows : List ClubLeaderboardSnapshot) (seq : Nat) (h : ClubRowsWF rows seq) :
    ClubRowsWF (cityPass sorter pt pS city rows) seq := by
  rw [cityPass_eq sorter pt pS city rows seq h]
  obtain ⟨hk, hi, hlt⟩ := h
  refine ⟨?_, ?_, ?_⟩
  · rw [List.map_map]
    have : (ClubLeaderboardSnapshot.key ∘ withLocalRankIn (cityOrder sorter pt pS city rows) 0)
        = ClubLeaderboardSnapshot.key := by
      funext r; exact (withLocalRankIn_fields _ _ r).1
    rw [this]; exact hk
  · rw [List.map_map]
    have : ((fun r => r.ID) ∘ withLocalRankIn (cityOrder sorter pt pS city rows) 0)
        = (fun r : ClubLeaderboardSnapshot => r.ID) := by
      funext r; exact (withLocalRankIn_fields _ _ r).2.1
    rw [this]; exact hi
  · intro x hx
    obtain ⟨r, hr, hrx⟩ := List.mem_map.1 hx
    rw [← hrx, (withLocalRankIn_fields _ _ r).2.1]
    exact hlt r hr

/-- The rows of the city after its locality pass: each has the local rank of its position in
the locality query. -/
theorem cityPass_filter_same (sorter : Sorter) (pt : String) (pS : Time) (city : String)
    (rows : List ClubLeaderboardSnapshot) (seq : Nat) (h : ClubRowsWF rows seq) :
    (cityPass sorter pt pS city rows).filter
        (ClubLeaderboardSnapshot.inCity city pt pS.unixNano)
      = (rows.filter (ClubLeaderboardSnapshot.inCity city pt pS.unixNano)).map
          (withLocalRankIn (cityOrder sorter pt pS city rows) 0) := by
  rw [cityPass_eq sorter pt pS city rows seq h, List.filter_map]
  congr 1
  apply List.filter_congr
  intro r _
  simp only [Function.comp, ClubLeaderboardSnapshot.inCity]
  obtain ⟨_, _, _, h4, _, _, _, h8, h9, _⟩ := withLocalRankIn_fields
    (cityOrder sorter pt pS city rows) 0 r
  rw [h4, h8, h9]

/-- A locality pass changes no row outside the city, seen through a condition that does not
look at the local rank. -/
theorem cityPass_filter_other (sorter : Sorter) (pt : String) (pS : Time) (city : String)
    (rows : List ClubLeaderboardSnapshot) (seq : Nat) (h : ClubRowsWF rows seq)
    (p : ClubLeaderboardSnapshot → Bool)
    (hdis : ∀ r, p r = true → r.inCity city pt pS.unixNano = false)
    (hinv : ∀ r lr, p { r with LocalRank := lr } = p r) :
    (cityPass sorter pt pS city rows).filter p = rows.filter p := by
  rw [cityPass_eq sorter pt pS city rows seq h, List.filter_map]
  have e : (p ∘ withLocalRankIn (cityOrder sorter pt pS city rows) 0) = p := by
    funext r
    simp only [Function.comp]
    rw [(withLocalRankIn_fields _ _ r).2.2.2.2.2.2.2.2.2, hinv]
  rw [e]
  conv_rhs => rw [← List.map_id (rows.filter p)]
  apply List.map_congr_left
  intro r hr
  obtain ⟨hr1, hr2⟩ := List.mem_filter.1 hr
  unfold withLocalRankIn
  rw [if_neg]
  · rfl
  · intro hm
    have := (mem_cityOrder sorter pt pS city rows seq h r hr1).1 hm
    rw [hdis r hr2] at this
    exact Bool.false_ne_true this

theorem cityPasses_wf (sorter : Sorter) (pt : String) (pS : Time) (cities : List String) :
    ∀ (rows : List ClubLeaderboardSnapshot) (seq : Nat), ClubRowsWF rows seq →
      ClubRowsWF (cityPasses sorter pt pS cities rows) seq := by
  induction cities with
  | nil => intro rows seq h; exact h
  | cons c rest ih =>
    intro rows seq h
    unfold cityPasses
    exact ih _ seq (cityPass_wf sorter pt pS c rows seq h)

theorem eraseLocalRank_fields (x r : ClubLeaderboardSnapshot)
    (h : x.eraseLocalRank = r.eraseLocalRank) :
    x.key = r.key ∧ x.ID = r.ID ∧ x.toPoints = r.toPoints ∧ x.GlobalRank = r.GlobalRank ∧
      x.PeriodEnd = r.PeriodEnd ∧ x.TotalPoints = r.TotalPoints ∧ x.City = r.City ∧
      x.PeriodType = r.PeriodType ∧ x.PeriodStart = r.PeriodStart ∧
      x.ClubID = r.ClubID ∧ x = { r with LocalRank := x.LocalRank } := by
  cases x
  cases r
  simp only [ClubLeaderboardSnapshot.eraseLocalRank, ClubLeaderboardSnapshot.mk.injEq] at h
  obtain ⟨h1, h2, h3, h4, h5, h6, h7, h8, h9, _, h11⟩ := h
  subst h1 h2 h3 h4 h5 h6 h7 h8 h9 h11
  exact ⟨rfl, rfl, rfl, rfl, rfl, rfl, rfl, rfl, rfl, rfl, rfl⟩

theorem eraseLocalRank_withLocalRankIn (ids : List Nat) (j : Nat)
    (r : ClubLeaderboardSnapshot) :
    (withLocalRankIn ids j r).eraseLocalRank = r.eraseLocalRank := by
  unfold withLocalRankIn
  split <;> rfl

/-- The locality passes change nothing but local ranks. -/
theorem cityPasses_eq_map (sorter : Sorter) (pt : String) (pS : Time) (cities : List String) :
    ∀ (rows : List ClubLeaderboardSnapshot) (seq : Nat), ClubRowsWF rows seq →
      ∃ f : ClubLeaderboardSnapshot → ClubLeaderboardSnapshot,
        (∀ r, (f r).eraseLocalRank = r.eraseLocalRank) ∧
        cityPasses sorter pt pS cities rows = rows.map f := by
  induction cities with
  | nil =>
    intro rows seq _
    exact ⟨id, fun r => rfl, by simp [cityPasses]⟩
  | cons c rest ih =>
    intro rows seq h
    obtain ⟨f, hf, he⟩ := ih _ seq (cityPass_wf sorter pt pS c rows seq h)
    refine ⟨f ∘ withLocalRankIn (cityOrder sorter pt pS c rows) 0, ?_, ?_⟩
    · intro r
      simp only [Function.comp]
      rw [hf, eraseLocalRank_withLocalRankIn]
    · unfold cityPasses
      rw [he, cityPass_eq sorter pt pS c rows seq h, List.map_map]

theorem cityPasses_filter_other (sorter : Sorter) (pt : String) (pS : Time)
    (cities : List String) (p : ClubLeaderboardSnapshot → Bool)
    (hdis : ∀ c ∈ cities, ∀ r, p r = true → r.inCity c pt pS.unixNano = false)
    (hinv : ∀ r lr, p { r with LocalRank := lr } = p r) :
    ∀ (rows : List ClubLeaderboardSnapshot) (seq : Nat), ClubRowsWF rows seq →
      (cityPasses sorter pt pS cities rows).filter p = rows.filter p := by
  induction cities with
  | nil => intro rows seq _; rfl
  | cons c rest ih =>
    intro rows seq h
    unfold cityPasses
    rw [ih (fun c' hc' => hdis c' (List.mem_cons_of_mem _ hc')) _ seq
      (cityPass_wf sorter pt pS c rows seq h)]
    exact cityPass_filter_other sorter pt pS c rows seq h p
      (hdis c (List.mem_cons_self _ _)) hinv

theorem inCity_disjoint (c1 c2 pt : String) (ps : Int) (hne : c1 ≠ c2)
    (r : ClubLeaderboardSnapshot) (h : r.inCity c1 pt ps = true) :
    r.inCity c2 pt ps = false := by
  simp only [ClubLeaderboardSnapshot.inCity, decide_eq_true_eq] at h
  simp only [ClubLeaderboardSnapshot.inCity, decide_eq_false_iff_not]
  intro h2
  exact hne (h.1.symm.trans h2.1)

theorem inCity_localRank (c pt : String) (ps : Int) (r : ClubLeaderboardSnapshot)
    (lr : Option Int) :
    ClubLeaderboardSnapshot.inCity c pt ps { r with LocalRank := lr } = r.inCity c pt ps :=
  rfl

/-- After the locality passes over distinct cities, the rows of each of these cities have
the local ranks of their positions in that city's locality query. -/
theorem cityPasses_filter_city (sorter : Sorter) (pt : String) (pS : Time)
    (cities : List String) (city : String) :
    ∀ (rows : List ClubLeaderboardSnapshot) (seq : Nat), ClubRowsWF rows seq →
      cities.Nodup → city ∈ cities →
      (cityPasses sorter pt pS cities rows).filter
          (ClubLeaderboardSnapshot.inCity city pt pS.unixNano)
        = (rows.filter (ClubLeaderboardSnapshot.inCity city pt pS.unixNano)).map
            (withLocalRankIn (cityOrder sorter pt pS city rows) 0) := by
  induction cities with
  | nil => intro rows seq _ _ hc; simp at hc
  | cons c rest ih =>
    intro rows seq h hnd hc
    rw [List.nodup_cons] at hnd
    obtain ⟨hnot, hnd'⟩ := hnd
    have hwf1 := cityPass_wf sorter pt pS c rows seq h
    unfold cityPasses
    by_cases hcc : city = c
    · subst hcc
      rw [cityPasses_filter_other sorter pt pS rest _ ?_ (inCity_localRank _ _ _) _ seq hwf1]
      · exact cityPass_filter_same sorter pt pS city rows seq h
      · intro c' hc' r hr
        exact inCity_disjoint city c' pt pS.unixNano (fun e => hnot (e ▸ hc')) r hr
    · have hc' : city ∈ rest := by
        rcases List.mem_cons.1 hc with h1 | h1
        · exact absurd h1 hcc
        · exact h1
      have e : (cityPass sorter pt pS c rows).filter
          (ClubLeaderboardSnapshot.inCity city pt pS.unixNano)
          = rows.filter (ClubLeaderboardSnapshot.inCity city pt pS.unixNano) :=
        cityPass_filter_other sorter pt pS c rows seq h _
          (fun r hr => inCity_disjoint city c pt pS.unixNano hcc r hr)
          (inCity_localRank _ _ _)
      rw [ih _ seq hwf1 hnd' hc']
      unfold cityOrder
      rw [e]

/-! ## A successful `computeClubLeaderboard` -/

theorem stores_fields (r s : ClubLeaderboardSnapshot) (h : r.stores s) :
    r.ClubID = s.ClubID ∧ r.PeriodType = s.PeriodType ∧ r.PeriodStart = s.PeriodStart ∧
      r.TotalPoints = s.TotalPoints ∧ r.ActiveMemberCount = s.ActiveMemberCount ∧
      r.GlobalRank = s.GlobalRank ∧ r.City = s.City ∧ r.PeriodEnd = s.PeriodEnd := by
  obtain ⟨hk, ha⟩ := h
  simp only [ClubLeaderboardSnapshot.key, Prod.mk.injEq] at hk
  refine ⟨hk.1, hk.2.1, hk.2.2, ?_, ?_, ?_, ?_, ?_⟩
  · rw [← ha]; rfl
  · rw [← ha]; rfl
  · rw [← ha]; rfl
  · rw [← ha]; rfl
  · rw [← ha]; rfl

theorem clubPointsOf_perm (env : Env) (wf : String) (pS : Time) (db : DB)
    (col : UserPointsWindowed → Int) (hcol : windowColumn wf = some col) :
    (clubPointsOf env wf pS db).Perm
      (db.clubs.map (clubGroup db.userPointsWindowed col pS.unixNano)) := by
  unfold clubPointsOf
  rw [hcol]
  exact env.sorter.perm _ _

theorem clubPointsOf_sorted (env : Env) (wf : String) (pS : Time) (db : DB) :
    (clubPointsOf env wf pS db).Pairwise (fun a b => a.TotalPoints ≥ b.TotalPoints) := by
  unfold clubPointsOf
  cases windowColumn wf with
  | none => exact List.Pairwise.nil
  | some col => exact env.sorter.sorted _ _

theorem clubPointsOf_nodup (env : Env) (wf : String) (pS : Time) (db : DB) (hwf : db.WF) :
    ((clubPointsOf env wf pS db).map (fun cp => cp.ClubID)).Nodup := by
  unfold clubPointsOf
  cases windowColumn wf with
  | none => exact List.nodup_nil
  | some col =>
    have hp := (env.sorter.perm (fun cp : ClubPoints => cp.TotalPoints)
      (db.clubs.map (clubGroup db.userPointsWindowed col pS.unixNano))).map
      (fun cp => cp.ClubID)
    apply (List.Perm.nodup_iff hp).2
    rw [List.map_map]
    exact hwf.1

theorem cityKeys_mem (cps : List ClubPoints) (c : String) :
    c ∈ cityKeys cps ↔ c ≠ "" ∧ ∃ cp ∈ cps, cp.City = c := by
  unfold cityKeys
  rw [List.mem_dedup, List.mem_map]
  constructor
  · rintro ⟨cp, hcp, rfl⟩
    obtain ⟨h1, h2⟩ := List.mem_filter.1 hcp
    exact ⟨by simpa using h2, cp, h1, rfl⟩
  · rintro ⟨hne, cp, hcp, rfl⟩
    exact ⟨cp, List.mem_filter.2 ⟨hcp, by simpa using hne⟩, rfl⟩

/-- The facts about the club snapshot table after a successful `computeClubLeaderboard` on
which the properties below rest. -/
theorem clubPass_facts (env : Env) (pt : String) (pS pE : Time) (wf : String) (db : DB)
    (hwf : db.WF) (h : (computeClubLeaderboard env pt pS pE wf db).2 = none) :
    ∃ (G : List ClubLeaderboardSnapshot)
      (f : ClubLeaderboardSnapshot → ClubLeaderboardSnapshot),
      G = upsertClubRows pt pS pE (clubPointsOf env wf pS db) 0 db.clubSnapshots
        db.clubSnapshotSeq ∧
      (computeClubLeaderboard env pt pS pE wf db).1.clubSnapshots
        = cityPasses env.sorter pt pS (env.anyOrder (cityKeys (clubPointsOf env wf pS db))) G ∧
      (computeClubLeaderboard env pt pS pE wf db).1.clubSnapshots = G.map f ∧
      (∀ r, (f r).eraseLocalRank = r.eraseLocalRank) ∧
      ClubRowsWF G (db.clubSnapshotSeq + (clubPointsOf env wf pS db).length) ∧
      ClubRowsWF (computeClubLeaderboard env pt pS pE wf db).1.clubSnapshots
        (db.clubSnapshotSeq + (clubPointsOf env wf pS db).length) ∧
      (∀ i cp, (clubPointsOf env wf pS db)[i]? = some cp → ∃ r ∈ G,
        r.stores (newClubSnapshot pt pS pE cp i) ∧
        (∀ r0 ∈ db.clubSnapshots, r0.key = r.key → r.LocalRank = r0.LocalRank) ∧
        ((∀ r0 ∈ db.clubSnapshots, r0.key ≠ r.key) → r.LocalRank = none)) ∧
      (∀ r ∈ G,
        (∀ cp ∈ clubPointsOf env wf pS db, r.key ≠ (cp.ClubID, pt, pS.unixNano)) →
        r ∈ db.clubSnapshots) := by
  obtain ⟨_, h1, _, _, _, _, _⟩ := computeClubLeaderboard_ok env pt pS pE wf db h
  obtain ⟨s1, s2, s3, _⟩ := upsertClubRows_spec pt pS pE (clubPointsOf env wf pS db) 0
    db.clubSnapshots db.clubSnapshotSeq hwf.2.1 (clubPointsOf_nodup env wf pS db hwf)
  obtain ⟨f, hf, he⟩ := cityPasses_eq_map env.sorter pt pS
    (env.anyOrder (cityKeys (clubPointsOf env wf pS db))) _ _ s1
  refine ⟨_, f, rfl, h1, by rw [h1, he], hf, s1, ?_, ?_, s3⟩
  · rw [h1]; exact cityPasses_wf env.sorter pt pS _ _ _ s1
  · intro i cp hi
    have := s2 i cp hi
    rw [Nat.zero_add] at this
    exact this

theorem toPoints_of_stores (r : ClubLeaderboardSnapshot) (pt : String) (pS pE : Time)
    (cp : ClubPoints) (g : Nat) (h : r.stores (newClubSnapshot pt pS pE cp g)) :
    r.toPoints = cp ∧ r.inPeriod pt pS.unixNano = true := by
  obtain ⟨s1, s2, s3, s4, s5, _, s7, _⟩ := stores_fields r _ h
  constructor
  · cases cp
    simp only [ClubLeaderboardSnapshot.toPoints, newClubSnapshot] at *
    rw [s1, s4, s5, s7]
  · simp only [ClubLeaderboardSnapshot.inPeriod, decide_eq_true_eq]
    exact ⟨s2, s3⟩

/-- Without stale rows, the rows of the period after a successful run are the rows of the
aggregation, one each. -/
theorem period_rows_perm (env : Env) (pt : String) (pS pE : Time) (wf : String) (db : DB)
    (hwf : db.WF) (hstale : db.noStaleRows pt pS.unixNano)
    (h : (computeClubLeaderboard env pt pS pE wf db).2 = none) :
    (((upsertClubRows pt pS pE (clubPointsOf env wf pS db) 0 db.clubSnapshots
      db.clubSnapshotSeq).filter (ClubLeaderboardSnapshot.inPeriod pt pS.unixNano)).map
      ClubLeaderboardSnapshot.toPoints).Perm (clubPointsOf env wf pS db) := by
  obtain ⟨G, f, hG, _, _, _, hGwf, _, hst, hold⟩ := clubPass_facts env pt pS pE wf db hwf h
  obtain ⟨⟨col, hcol⟩, _⟩ := computeClubLeaderboard_ok env pt pS pE wf db h
  rw [← hG]
  have hnd := clubPointsOf_nodup env wf pS db hwf
  have hGnd : G.Nodup := List.Nodup.of_map _ hGwf.1
  apply (List.perm_ext_iff_of_nodup ?_ (List.Nodup.of_map _ hnd)).2
  · intro cp
    constructor
    · intro hcp
      obtain ⟨r, hr, hrc⟩ := List.mem_map.1 hcp
      obtain ⟨hrG, hper⟩ := List.mem_filter.1 hr
      simp only [ClubLeaderboardSnapshot.inPeriod, decide_eq_true_eq] at hper
      by_cases hex : ∃ cp1 ∈ clubPointsOf env wf pS db, r.key = (cp1.ClubID, pt, pS.unixNano)
      · obtain ⟨cp1, hcp1, hk⟩ := hex
        obtain ⟨i, hi⟩ := List.mem_iff_getElem?.1 hcp1
        obtain ⟨r1, hr1, hs1, _, _⟩ := hst i cp1 hi
        have : r1 = r := hGwf.eq_of_key G _ r1 r hr1 hrG (by
          rw [hs1.1, newClubSnapshot_key, hk])
        rw [this] at hs1
        rw [← hrc, (toPoints_of_stores r pt pS pE cp1 i hs1).1]
        exact hcp1
      · exfalso
        have hr0 := hold r hrG (fun cp1 hcp1 hk => hex ⟨cp1, hcp1, hk⟩)
        obtain ⟨c, hc, hcid⟩ := hstale r hr0 hper.1 hper.2
        apply hex
        refine ⟨clubGroup db.userPointsWindowed col pS.unixNano c,
          (clubPointsOf_perm env wf pS db col hcol).mem_iff.2 (List.mem_map.2 ⟨c, hc, rfl⟩), ?_⟩
        simp only [ClubLeaderboardSnapshot.key, clubGroup, Prod.mk.injEq]
        exact ⟨hcid.symm, hper.1, hper.2⟩
    · intro hcp
      obtain ⟨i, hi⟩ := List.mem_iff_getElem?.1 hcp
      obtain ⟨r, hr, hs, _, _⟩ := hst i cp hi
      obtain ⟨t1, t2⟩ := toPoints_of_stores r pt pS pE cp i hs
      exact List.mem_map.2 ⟨r, List.mem_filter.2 ⟨hr, t2⟩, t1⟩
  · apply List.Nodup.of_map (fun cp : ClubPoints => cp.ClubID)
    rw [List.map_map]
    apply List.Nodup.map_on _ (hGnd.filter _)
    intro x hx y hy hxy
    obtain ⟨hx1, hx2⟩ := List.mem_filter.1 hx
    obtain ⟨hy1, hy2⟩ := List.mem_filter.1 hy
    simp only [ClubLeaderboardSnapshot.inPeriod, decide_eq_true_eq] at hx2 hy2
    apply hGwf.eq_of_key G _ x y hx1 hy1
    simp only [ClubLeaderboardSnapshot.key, Prod.mk.injEq]
    exact ⟨hxy, hx2.1.trans hy2.1.symm, hx2.2.trans hy2.2.symm⟩

/-- A condition that does not look at the local rank selects the same rows, up to their
local ranks, before and after the locality passes. -/
theorem filter_map_eraseLocalRank (G : List ClubLeaderboardSnapshot)
    (f : ClubLeaderboardSnapshot → ClubLeaderboardSnapshot)
    (hf : ∀ r, (f r).eraseLocalRank = r.eraseLocalRank) (p : ClubLeaderboardSnapshot → Bool)
    (hp : ∀ r : ClubLeaderboardSnapshot, p r = p r.eraseLocalRank) :
    (G.map f).filter p = (G.filter p).map f := by
  rw [List.filter_map]
  congr 1
  apply List.filter_congr
  intro r _
  simp only [Function.comp]
  rw [hp (f r), hf r, ← hp r]

theorem sum_ite_eq_of_nodup (clubs : List Club) (x : Nat) (p : Int)
    (hnd : (clubs.map (fun c => c.ID)).Nodup) (hx : ∃ c ∈ clubs, c.ID = x) :
    (clubs.map (fun c => if c.ID = x then p else 0)).sum = p := by
  induction clubs with
  | nil => obtain ⟨c, hc, _⟩ := hx; simp at hc
  | cons c rest ih =>
    rw [List.map_cons, List.nodup_cons] at hnd
    obtain ⟨hnot, hnd'⟩ := hnd
    rw [List.map_cons, List.sum_cons]
    by_cases hcx : c.ID = x
    · rw [if_pos hcx]
      have hz : (rest.map (fun c => if c.ID = x then p else 0)).sum = 0 := by
        apply List.sum_eq_zero
        intro v hv
        obtain ⟨c1, hc1, hv1⟩ := List.mem_map.1 hv
        rw [← hv1, if_neg]
        intro h1
        exact hnot (List.mem_map.2 ⟨c1, hc1, h1.trans hcx.symm⟩)
      rw [hz, add_zero]
    · rw [if_neg hcx, zero_add]
      apply ih hnd'
      obtain ⟨c1, hc1, hc1x⟩ := hx
      rcases List.mem_cons.1 hc1 with h1 | h1
      · exact absurd (h1 ▸ hc1x) hcx
      · exact ⟨c1, h1, hc1x⟩

/-- The club totals add up to the points of the ledger entries of the period when every
entry belongs to a club of the roster. -/
theorem club_totals_sum (clubs : List Club) (col : UserPointsWindowed → Int) (ps : Int)
    (hnd : (clubs.map (fun c => c.ID)).Nodup) (ledger : List UserPointsWindowed)
    (horph : ∀ e ∈ ledger, ∃ c ∈ clubs, c.ID = e.ClubID) :
    (clubs.map (fun c => ((joinedEntries ledger col ps c.ID).map (fun e => e.Points)).sum)).sum
      = ((ledger.filter (fun e => decide (col e = ps))).map (fun e => e.Points)).sum := by
  induction ledger with
  | nil => simp [joinedEntries]
  | cons e rest ih =>
    have ih' := ih (fun e' he' => horph e' (List.mem_cons_of_mem _ he'))
    have hstep : ∀ c : Club,
        ((joinedEntries (e :: rest) col ps c.ID).map (fun e => e.Points)).sum
          = (if c.ID = e.ClubID then (if col e = ps then e.Points else 0) else 0)
            + ((joinedEntries rest col ps c.ID).map (fun e => e.Points)).sum := by
      intro c
      unfold joinedEntries
      by_cases h1 : e.ClubID = c.ID
      · by_cases h2 : col e = ps
        · rw [List.filter_cons_of_pos (by simp [h1, h2]), List.map_cons, List.sum_cons,
            if_pos h1.symm, if_pos h2]
        · rw [List.filter_cons_of_neg (by simp [h2]), if_pos h1.symm, if_neg h2, zero_add]
      · rw [List.filter_cons_of_neg (by simp [h1]), if_neg (fun h => h1 h.symm), zero_add]
    have e1 : (clubs.map (fun c =>
        ((joinedEntries (e :: rest) col ps c.ID).map (fun e => e.Points)).sum))
        = clubs.map (fun c =>
          (if c.ID = e.ClubID then (if col e = ps then e.Points else 0) else 0)
            + ((joinedEntries rest col ps c.ID).map (fun e => e.Points)).sum) :=
      List.map_congr_left (fun c _ => hstep c)
    rw [e1, List.sum_map_add, ih',
      sum_ite_eq_of_nodup clubs e.ClubID _ hnd (horph e (List.mem_cons_self _ _))]
    by_cases h2 : col e = ps
    · rw [if_pos h2, List.filter_cons_of_pos (by simp [h2]), List.map_cons, List.sum_cons]
    · rw [if_neg h2, List.filter_cons_of_neg (by simp [h2]), zero_add]

/-! ## The user-club upsert and a successful `computeUserClubLeaderboard` -/

theorem UserClubLeaderboardSnapshot.user_conflicts_iff (r s : UserClubLeaderboardSnapshot) :
    r.conflicts s = true ↔ r.key = s.key := by
  simp [UserClubLeaderboardSnapshot.conflicts, UserClubLeaderboardSnapshot.key]

theorem any_user_conflicts_iff (rows : List UserClubLeaderboardSnapshot)
    (s : UserClubLeaderboardSnapshot) :
    rows.any (fun r => r.conflicts s) = true ↔ ∃ r ∈ rows, r.key = s.key := by
  simp [List.any_eq_true, UserClubLeaderboardSnapshot.user_conflicts_iff]

theorem mem_upsertUserClubRow (rows : List UserClubLeaderboardSnapshot) (seq : Nat)
    (s x : UserClubLeaderboardSnapshot) :
    x ∈ upsertUserClubRow rows seq s ↔
      (∃ r ∈ rows, r.key = s.key ∧ x = r.assign s) ∨ (x ∈ rows ∧ x.key ≠ s.key) ∨
      ((∀ r ∈ rows, r.key ≠ s.key) ∧ x = { s with ID := seq }) := by
  unfold upsertUserClubRow
  by_cases hc : rows.any (fun r => r.conflicts s) = true
  · rw [if_pos hc]
    have hex := (any_user_conflicts_iff rows s).1 hc
    constructor
    · intro hx
      obtain ⟨r, hr, hrx⟩ := List.mem_map.1 hx
      by_cases hk : r.conflicts s = true
      · rw [if_pos hk] at hrx
        exact Or.inl ⟨r, hr, (r.user_conflicts_iff s).1 hk, hrx.symm⟩
      · rw [if_neg hk] at hrx
        subst hrx
        exact Or.inr (Or.inl ⟨hr, fun h => hk ((r.user_conflicts_iff s).2 h)⟩)
    · rintro (⟨r, hr, hk, hx⟩ | ⟨hx, hk⟩ | ⟨hno, _⟩)
      · exact List.mem_map.2 ⟨r, hr, by rw [if_pos ((r.user_conflicts_iff s).2 hk)]; exact hx.symm⟩
      · exact List.mem_map.2 ⟨x, hx, by
          rw [if_neg (fun h => hk ((x.user_conflicts_iff s).1 h))]⟩
      · obtain ⟨r, hr, hk⟩ := hex
        exact absurd hk (hno r hr)
  · rw [if_neg hc]
    have hno : ∀ r ∈ rows, r.key ≠ s.key := fun r hr hk =>
      hc ((any_user_conflicts_iff rows s).2 ⟨r, hr, hk⟩)
    constructor
    · intro hx
      rcases List.mem_append.1 hx with h1 | h1
      · exact Or.inr (Or.inl ⟨h1, hno x h1⟩)
      · exact Or.inr (Or.inr ⟨hno, List.mem_singleton.1 h1⟩)
    · rintro (⟨r, hr, hk, _⟩ | ⟨hx, _⟩ | ⟨_, hx⟩)
      · exact absurd hk (hno r hr)
      · exact List.mem_append.2 (Or.inl hx)
      · exact List.mem_append.2 (Or.inr (List.mem_singleton.2 hx))

theorem upsertUserClubRow_nodup (rows : List UserClubLeaderboardSnapshot) (seq : Nat)
    (s : UserClubLeaderboardSnapshot)
    (hk : (rows.map UserClubLeaderboardSnapshot.key).Nodup) :
    ((upsertUserClubRow rows seq s).map UserClubLeaderboardSnapshot.key).Nodup := by
  unfold upsertUserClubRow
  by_cases hc : rows.any (fun r => r.conflicts s) = true
  · rw [if_pos hc]
    have e1 : (rows.map (fun r => if r.conflicts s then r.assign s else r)).map
        UserClubLeaderboardSnapshot.key = rows.map UserClubLeaderboardSnapshot.key := by
      rw [List.map_map]
      apply List.map_congr_left
      intro r _
      simp only [Function.comp]
      split <;> rfl
    rw [e1]; exact hk
  · rw [if_neg hc]
    have hno : ∀ r ∈ rows, r.key ≠ s.key := fun r hr hk1 =>
      hc ((any_user_conflicts_iff rows s).2 ⟨r, hr, hk1⟩)
    rw [List.map_append, List.map_singleton]
    apply List.Nodup.append hk (List.nodup_singleton _)
    intro k hk1 hk2
    obtain ⟨r, hr, hrk⟩ := List.mem_map.1 hk1
    rw [List.mem_singleton] at hk2
    exact hno r hr (hrk.trans hk2)

theorem upsertUserClubRow_stores (rows : List UserClubLeaderboardSnapshot) (seq : Nat)
    (s : UserClubLeaderboardSnapshot) :
    ∃ x ∈ upsertUserClubRow rows seq s, x.stores s := by
  by_cases hex : ∃ r ∈ rows, r.key = s.key
  · obtain ⟨r, hr, hk⟩ := hex
    exact ⟨r.assign s, (mem_upsertUserClubRow rows seq s _).2 (Or.inl ⟨r, hr, hk, rfl⟩),
      ⟨hk, rfl⟩⟩
  · have hno : ∀ r ∈ rows, r.key ≠ s.key := fun r hr hk => hex ⟨r, hr, hk⟩
    exact ⟨{ s with ID := seq },
      (mem_upsertUserClubRow rows seq s _).2 (Or.inr (Or.inr ⟨hno, rfl⟩)), ⟨rfl, rfl⟩⟩

theorem upsertUserClubRow_same (rows : List UserClubLeaderboardSnapshot) (seq : Nat)
    (s : UserClubLeaderboardSnapshot) (hex : ∃ r ∈ rows, r.key = s.key)
    (hsame : ∀ r ∈ rows, r.key = s.key → r.assign s = r) :
    upsertUserClubRow rows seq s = rows := by
  unfold upsertUserClubRow
  rw [if_pos ((any_user_conflicts_iff rows s).2 hex)]
  conv_rhs => rw [← List.map_id rows]
  apply List.map_congr_left
  intro r hr
  by_cases hk : r.conflicts s = true
  · rw [if_pos hk]; exact hsame r hr ((r.user_conflicts_iff s).1 hk)
  · rw [if_neg hk]; rfl

theorem newUserClubSnapshot_key (pt : String) (pS pE : Time) (clubID : Nat) (up : UserPoints)
    (g : Nat) :
    (newUserClubSnapshot pt pS pE clubID up g).key = (up.UserID, clubID, pt, pS.unixNano) :=
  rfl

theorem upsertUserClubRows_spec (pt : String) (pS pE : Time) (clubID : Nat)
    (ups : List UserPoints) :
    ∀ (g : Nat) (rows : List UserClubLeaderboardSnapshot) (seq : Nat),
      (rows.map UserClubLeaderboardSnapshot.key).Nodup →
      (ups.map (fun up => up.UserID)).Nodup →
      ((upsertUserClubRows pt pS pE clubID ups g rows seq).map
        UserClubLeaderboardSnapshot.key).Nodup ∧
      (∀ i up, ups[i]? = some up → ∃ r ∈ upsertUserClubRows pt pS pE clubID ups g rows seq,
        r.stores (newUserClubSnapshot pt pS pE clubID up (g + i))) ∧
      (∀ r ∈ rows, (∀ up ∈ ups, r.key ≠ (up.UserID, clubID, pt, pS.unixNano)) →
        r ∈ upsertUserClubRows pt pS pE clubID ups g rows seq) := by
  induction ups with
  | nil =>
    intro g rows seq h _
    refine ⟨by simpa [upsertUserClubRows] using h, ?_, ?_⟩
    · intro i up hi; simp at hi
    · intro r hr _; simpa [upsertUserClubRows] using hr
  | cons up0 rest ih =>
    intro g rows seq h hnd
    rw [List.map_cons, List.nodup_cons] at hnd
    obtain ⟨hnot, hnd'⟩ := hnd
    have hne : ∀ up ∈ rest, up.UserID ≠ up0.UserID := by
      intro up hup heq
      exact hnot (List.mem_map.2 ⟨up, hup, heq⟩)
    have hwf1 := upsertUserClubRow_nodup rows seq (newUserClubSnapshot pt pS pE clubID up0 g) h
    obtain ⟨i1, i2, i4⟩ := ih (g + 1) _ (seq + 1) hwf1 hnd'
    have hmem := mem_upsertUserClubRow rows seq (newUserClubSnapshot pt pS pE clubID up0 g)
    unfold upsertUserClubRows
    refine ⟨i1, ?_, ?_⟩
    · intro i up hi
      cases i with
      | zero =>
        simp only [List.getElem?_cons_zero, Option.some.injEq] at hi
        subst hi
        obtain ⟨x, hx, hst⟩ := upsertUserClubRow_stores rows seq
          (newUserClubSnapshot pt pS pE clubID up0 g)
        refine ⟨x, i4 x hx ?_, hst⟩
        intro up hup hk
        rw [hst.1, newUserClubSnapshot_key] at hk
        exact hne up hup (by simpa using hk.symm)
      | succ j =>
        simp only [List.getElem?_cons_succ] at hi
        obtain ⟨r, hr, hst⟩ := i2 j up hi
        have e : g + 1 + j = g + (j + 1) := by omega
        rw [e] at hst
        exact ⟨r, hr, hst⟩
    · intro r hr hno
      apply i4 r _ (fun up hup => hno up (List.mem_cons_of_mem _ hup))
      exact (hmem r).2 (Or.inr (Or.inl ⟨hr, hno up0 (List.mem_cons_self _ _)⟩))

theorem upsertUserClubRows_same (pt : String) (pS pE : Time) (clubID : Nat)
    (ups : List UserPoints) :
    ∀ (g : Nat) (rows : List UserClubLeaderboardSnapshot) (seq : Nat),
      (∀ i up, ups[i]? = some up →
        ∃ r ∈ rows, r.key = (newUserClubSnapshot pt pS pE clubID up (g + i)).key) →
      (∀ i up, ups[i]? = some up → ∀ r ∈ rows,
        r.key = (newUserClubSnapshot pt pS pE clubID up (g + i)).key →
        r.assign (newUserClubSnapshot pt pS pE clubID up (g + i)) = r) →
      upsertUserClubRows pt pS pE clubID ups g rows seq = rows := by
  induction ups with
  | nil => intro g rows seq _ _; rfl
  | cons up0 rest ih =>
    intro g rows seq hex hsame
    unfold upsertUserClubRows
    have e0 := upsertUserClubRow_same rows seq (newUserClubSnapshot pt pS pE clubID up0 g)
      (hex 0 up0 (by simp)) (hsame 0 up0 (by simp))
    rw [e0]
    apply ih
    · intro i up hi
      have := hex (i + 1) up (by simpa using hi)
      have e : g + 1 + i = g + (i + 1) := by omega
      rw [e]; exact this
    · intro i up hi
      have := hsame (i + 1) up (by simpa using hi)
      have e : g + 1 + i = g + (i + 1) := by omega
      rw [e]; exact this

theorem userPointsOf_nodup (env : Env) (wf : String) (clubID : Nat) (pS : Time)
    (ledger : List UserPointsWindowed) :
    ((userPointsOf env wf clubID pS ledger).map (fun up => up.UserID)).Nodup := by
  unfold userPointsOf
  cases windowColumn wf with
  | none => exact List.nodup_nil
  | some col =>
    have hp := (env.sorter.perm (fun up : UserPoints => up.Points)
      (((clubEntries ledger col pS.unixNano clubID).map (fun e => e.UserID)).dedup.map
        (userGroup (clubEntries ledger col pS.unixNano clubID)))).map (fun up => up.UserID)
    apply (List.Perm.nodup_iff hp).2
    rw [List.map_map]
    have : ((fun up : UserPoints => up.UserID) ∘
        userGroup (clubEntries ledger col pS.unixNano clubID)) = id := by
      funext u; rfl
    rw [this, List.map_id]
    exact List.nodup_dedup _

theorem userPointsOf_sorted (env : Env) (wf : String) (clubID : Nat) (pS : Time)
    (ledger : List UserPointsWindowed) :
    (userPointsOf env wf clubID pS ledger).Pairwise (fun a b => a.Points ≥ b.Points) := by
  unfold userPointsOf
  cases windowColumn wf with
  | none => exact List.Pairwise.nil
  | some col => exact env.sorter.sorted _ _

theorem contributorRows_spec (env : Env) (pt : String) (pS pE : Time) (wf : String)
    (ledger : List UserPointsWindowed) (clubs : List Club) :
    ∀ (rows : List UserClubLeaderboardSnapshot) (seq : Nat),
      (rows.map UserClubLeaderboardSnapshot.key).Nodup →
      (clubs.map (fun c => c.ID)).Nodup →
      ((contributorRows env pt pS pE wf ledger clubs rows seq).map
        UserClubLeaderboardSnapshot.key).Nodup ∧
      (∀ c ∈ clubs, ∀ i up, (userPointsOf env wf c.ID pS ledger)[i]? = some up →
        ∃ r ∈ contributorRows env pt pS pE wf ledger clubs rows seq,
          r.stores (newUserClubSnapshot pt pS pE c.ID up i)) ∧
      (∀ r ∈ rows, (∀ c ∈ clubs, r.ClubID ≠ c.ID) →
        r ∈ contributorRows env pt pS pE wf ledger clubs rows seq) := by
  induction clubs with
  | nil =>
    intro rows seq h _
    refine ⟨by simpa [contributorRows] using h, ?_, ?_⟩
    · intro c hc; simp at hc
    · intro r hr _; simpa [contributorRows] using hr
  | cons c0 rest ih =>
    intro rows seq h hnd
    rw [List.map_cons, List.nodup_cons] at hnd
    obtain ⟨hnot, hnd'⟩ := hnd
    obtain ⟨u1, u2, u3⟩ := upsertUserClubRows_spec pt pS pE c0.ID
      (userPointsOf env wf c0.ID pS ledger) 0 rows seq h
      (userPointsOf_nodup env wf c0.ID pS ledger)
    obtain ⟨i1, i2, i3⟩ := ih _ (seq + (userPointsOf env wf c0.ID pS ledger).length) u1 hnd'
    unfold contributorRows
    refine ⟨i1, ?_, ?_⟩
    · intro c hc i up hi
      rcases List.mem_cons.1 hc with h1 | h1
      · subst h1
        obtain ⟨r, hr, hst⟩ := u2 i up hi
        rw [Nat.zero_add] at hst
        refine ⟨r, i3 r hr ?_, hst⟩
        intro c1 hc1 hk
        have : r.ClubID = c.ID := by
          have := hst.1
          simp only [UserClubLeaderboardSnapshot.key, newUserClubSnapshot,
            Prod.mk.injEq] at this
          exact this.2.1
        exact hnot (List.mem_map.2 ⟨c1, hc1, by rw [← hk, this]⟩)
      · exact i2 c h1 i up hi
    · intro r hr hno
      apply i3 r _ (fun c hc => hno c (List.mem_cons_of_mem _ hc))
      apply u3 r hr
      intro up _ hk
      apply hno c0 (List.mem_cons_self _ _)
      simp only [UserClubLeaderboardSnapshot.key, Prod.mk.injEq] at hk
      exact hk.2.1

theorem contributorRows_same (env : Env) (pt : String) (pS pE : Time) (wf : String)
    (ledger : List UserPointsWindowed) (clubs : List Club)
    (rows : List UserClubLeaderboardSnapshot)
    (hex : ∀ c ∈ clubs, ∀ i up, (userPointsOf env wf c.ID pS ledger)[i]? = some up →
      ∃ r ∈ rows, r.key = (newUserClubSnapshot pt pS pE c.ID up i).key)
    (hsame : ∀ c ∈ clubs, ∀ i up, (userPointsOf env wf c.ID pS ledger)[i]? = some up →
      ∀ r ∈ rows, r.key = (newUserClubSnapshot pt pS pE c.ID up i).key →
        r.assign (newUserClubSnapshot pt pS pE c.ID up i) = r) :
    ∀ (seq : Nat), contributorRows env pt pS pE wf ledger clubs rows seq = rows := by
  induction clubs with
  | nil => intro seq; rfl
  | cons c0 rest ih =>
    intro seq
    unfold contributorRows
    have e0 := upsertUserClubRows_same pt pS pE c0.ID (userPointsOf env wf c0.ID pS ledger) 0
      rows seq
      (fun i up hi => by
        rw [Nat.zero_add]; exact hex c0 (List.mem_cons_self _ _) i up hi)
      (fun i up hi => by
        rw [Nat.zero_add]; exact hsame c0 (List.mem_cons_self _ _) i up hi)
    rw [e0]
    exact ih (fun c hc => hex c (List.mem_cons_of_mem _ hc))
      (fun c hc => hsame c (List.mem_cons_of_mem _ hc)) _

/-! ## Club snapshots: coverage, totals, ranks -/

/-- C5: after a successful `computeClubLeaderboard`, every club of the roster has a club
snapshot row for the period; its total points is the sum of the points of the ledger
entries of the club whose window-start column equals the period start, and its active
member count is the number of distinct user ids among them; so both are 0 when there is no
such entry. -/
theorem every_club_has_a_snapshot (env : Env) (pt : String) (pS pE : Time) (wf : String)
    (db : DB) (col : UserPointsWindowed → Int) (hwf : db.WF)
    (hcol : windowColumn wf = some col)
    (h : (computeClubLeaderboard env pt pS pE wf db).2 = none) :
    ∀ c ∈ db.clubs, ∃ r ∈ (computeClubLeaderboard env pt pS pE wf db).1.clubSnapshots,
      r.ClubID = c.ID ∧ r.PeriodType = pt ∧ r.PeriodStart = pS.unixNano ∧
      r.TotalPoints = ((joinedEntries db.userPointsWindowed col pS.unixNano c.ID).map
        (fun e => e.Points)).sum ∧
      r.ActiveMemberCount = (((joinedEntries db.userPointsWindowed col pS.unixNano c.ID).map
        (fun e => e.UserID)).dedup.length : Nat) ∧
      (joinedEntries db.userPointsWindowed col pS.unixNano c.ID = [] →
        r.TotalPoints = 0 ∧ r.ActiveMemberCount = 0) := by
  intro c hc
  obtain ⟨G, f, _, _, hF, hf, _, _, hst, _⟩ := clubPass_facts env pt pS pE wf db hwf h
  have hmem : clubGroup db.userPointsWindowed col pS.unixNano c ∈ clubPointsOf env wf pS db :=
    (clubPointsOf_perm env wf pS db col hcol).mem_iff.2 (List.mem_map.2 ⟨c, hc, rfl⟩)
  obtain ⟨i, hi⟩ := List.mem_iff_getElem?.1 hmem
  obtain ⟨r, hr, hs, _, _⟩ := hst i _ hi
  obtain ⟨s1, s2, s3, s4, s5, _, _, _⟩ := stores_fields r _ hs
  obtain ⟨e1, _, e3, _, _, e6, _, e8, e9, e10, _⟩ := eraseLocalRank_fields (f r) r (hf r)
  have e5 : (f r).ActiveMemberCount = r.ActiveMemberCount :=
    congrArg (fun p => p.ActiveMemberCount) e3
  refine ⟨f r, by rw [hF]; exact List.mem_map.2 ⟨r, hr, rfl⟩, ?_, ?_, ?_, ?_, ?_, ?_⟩
  · rw [e10, s1]; rfl
  · rw [e8, s2]; rfl
  · rw [e9, s3]; rfl
  · rw [e6, s4]; rfl
  · rw [e5, s5]; rfl
  · intro hnil
    rw [e6, s4, e5, s5]
    simp [newClubSnapshot, clubGroup, hnil]

set_option maxRecDepth 100000 in
/-- C5, witness: scenario A of the specification; club 2 has no entry in the week and has a
snapshot row with total 0 and active member count 0. -/
theorem every_club_has_a_snapshot_witness :
    ∃ r ∈ (computeClubLeaderboard quietEnv "weekly" jan1 jan7End "week_start"
        scenarioA).1.clubSnapshots,
      r.ClubID = 2 ∧ r.PeriodType = "weekly" ∧ r.PeriodStart = jan1.unixNano ∧
      r.TotalPoints = ((joinedEntries scenarioA.userPointsWindowed
        UserPointsWindowed.WeekStart jan1.unixNano 2).map (fun e => e.Points)).sum ∧
      r.ActiveMemberCount = (((joinedEntries scenarioA.userPointsWindowed
        UserPointsWindowed.WeekStart jan1.unixNano 2).map
        (fun e => e.UserID)).dedup.length : Nat) ∧
      (joinedEntries scenarioA.userPointsWindowed UserPointsWindowed.WeekStart jan1.unixNano
        2 = [] → r.TotalPoints = 0 ∧ r.ActiveMemberCount = 0) :=
  every_club_has_a_snapshot quietEnv "weekly" jan1 jan7End "week_start" scenarioA
    UserPointsWindowed.WeekStart (by decide) (by rfl) (by decide) ⟨2, "Leeds", none⟩
    (by decide)

/-- C9 (as amended): after a successful `computeClubLeaderboard`, the snapshot row of a club
whose city in the aggregation is the empty string has its global rank set to its position
plus one, and its local rank is what it was before the run: that of the row that existed
for the club and period, unset if there was none. -/
theorem empty_city_keeps_local_rank (env : Env) (pt : String) (pS pE : Time) (wf : String)
    (db : DB) (hwf : db.WF) (h : (computeClubLeaderboard env pt pS pE wf db).2 = none) :
    ∀ (i : Nat) (cp : ClubPoints), (clubPointsOf env wf pS db)[i]? = some cp → cp.City = "" →
      ∃ r ∈ (computeClubLeaderboard env pt pS pE wf db).1.clubSnapshots,
        r.ClubID = cp.ClubID ∧ r.PeriodType = pt ∧ r.PeriodStart = pS.unixNano ∧
        r.GlobalRank = some ((i : Int) + 1) ∧
        (∀ r0 ∈ db.clubSnapshots, r0.ClubID = cp.ClubID → r0.PeriodType = pt →
          r0.PeriodStart = pS.unixNano → r.LocalRank = r0.LocalRank) ∧
        ((∀ r0 ∈ db.clubSnapshots, ¬ (r0.ClubID = cp.ClubID ∧ r0.PeriodType = pt ∧
          r0.PeriodStart = pS.unixNano)) → r.LocalRank = none) := by
  intro i cp hi hcity
  obtain ⟨G, f, _, hF, _, _, hG, _, hst, _⟩ := clubPass_facts env pt pS pE wf db hwf h
  obtain ⟨r, hr, hs, hl1, hl2⟩ := hst i _ hi
  obtain ⟨s1, s2, s3, _, _, s6, s7, _⟩ := stores_fields r _ hs
  have hin : r.inCity "" pt pS.unixNano = true := by
    simp only [ClubLeaderboardSnapshot.inCity, decide_eq_true_eq]
    exact ⟨by rw [s7]; exact hcity, s2, s3⟩
  have hfilt := cityPasses_filter_other env.sorter pt pS
    (env.anyOrder (cityKeys (clubPointsOf env wf pS db)))
    (ClubLeaderboardSnapshot.inCity "" pt pS.unixNano)
    (by
      intro c hc x hx
      have hc' := (cityKeys_mem _ c).1 ((env.anyOrder_perm _).mem_iff.1 hc)
      exact inCity_disjoint "" c pt pS.unixNano (fun e => hc'.1 e.symm) x hx)
    (inCity_localRank _ _ _) G _ hG
  have hrF : r ∈ (computeClubLeaderboard env pt pS pE wf db).1.clubSnapshots := by
    rw [hF]
    have : r ∈ G.filter (ClubLeaderboardSnapshot.inCity "" pt pS.unixNano) :=
      List.mem_filter.2 ⟨hr, hin⟩
    rw [← hfilt] at this
    exact (List.mem_filter.1 this).1
  have hkey : ∀ r0 : ClubLeaderboardSnapshot, r0.key = r.key ↔
      (r0.ClubID = cp.ClubID ∧ r0.PeriodType = pt ∧ r0.PeriodStart = pS.unixNano) := by
    intro r0
    rw [hs.1, newClubSnapshot_key]
    simp [ClubLeaderboardSnapshot.key]
  refine ⟨r, hrF, s1, s2, s3, by rw [s6]; rfl, ?_, ?_⟩
  · intro r0 hr0 a b c
    exact hl1 r0 hr0 ((hkey r0).2 ⟨a, b, c⟩)
  · intro hno
    apply hl2
    intro r0 hr0 hk
    exact hno r0 hr0 ((hkey r0).1 hk)

set_option maxRecDepth 100000 in
/-- C9, witness: in scenario A club 3 has no city and is first in the aggregation; its row
is new, with global rank 1 and no local rank. -/
theorem empty_city_keeps_local_rank_witness :
    ∃ r ∈ (computeClubLeaderboard quietEnv "weekly" jan1 jan7End "week_start"
        scenarioA).1.clubSnapshots,
      r.ClubID = 3 ∧ r.PeriodType = "weekly" ∧ r.PeriodStart = jan1.unixNano ∧
      r.GlobalRank = some (((0 : Nat) : Int) + 1) ∧
      (∀ r0 ∈ scenarioA.clubSnapshots, r0.ClubID = 3 → r0.PeriodType = "weekly" →
        r0.PeriodStart = jan1.unixNano → r.LocalRank = r0.LocalRank) ∧
      ((∀ r0 ∈ scenarioA.clubSnapshots, ¬ (r0.ClubID = 3 ∧ r0.PeriodType = "weekly" ∧
        r0.PeriodStart = jan1.unixNano)) → r.LocalRank = none) :=
  empty_city_keeps_local_rank quietEnv "weekly" jan1 jan7End "week_start" scenarioA
    (by decide) (by decide) 0 ⟨3, 20, 1, ""⟩ (by decide) (by decide)

set_option maxRecDepth 100000 in
/-- C9, counterexample: a club ranked in Leeds loses its city within the week; the next
successful run finds it with the empty city in the aggregation and leaves its snapshot row
with global rank 1 and the local rank 1 of the earlier run, not unset. -/
theorem empty_city_with_local_rank_set :
    (computeClubLeaderboard quietEnv "weekly" jan1 jan7End "week_start" cityCleared).2 = none ∧
    clubPointsOf quietEnv "week_start" jan1 cityCleared = [⟨1, 0, 0, ""⟩] ∧
    (computeClubLeaderboard quietEnv "weekly" jan1 jan7End "week_start"
        cityCleared).1.clubSnapshots.map
      (fun r => (r.ClubID, r.City, r.GlobalRank, r.LocalRank)) = [(1, "", some 1, some 1)] := by
  decide

/-- Rows taken in the order of the locality query have the local ranks 1, 2, ... -/
theorem localRanks_of_order (Q : List ClubLeaderboardSnapshot)
    (hnd : (Q.map (fun r => r.ID)).Nodup) :
    (Q.map (withLocalRankIn (Q.map (fun r => r.ID)) 0)).map (fun r => r.LocalRank)
      = (List.range Q.length).map (fun i : Nat => some ((i : Int) + 1)) := by
  apply List.ext_getElem
  · simp
  · intro i h1 h2
    have hi : i < Q.length := by simpa using h1
    have hidx : List.indexOf (Q[i]).ID (Q.map (fun r => r.ID)) = i := by
      have := List.indexOf_getElem hnd i (by simpa using hi)
      simpa using this
    simp only [List.getElem_map, List.getElem_range]
    unfold withLocalRankIn
    rw [if_pos (List.mem_map.2 ⟨Q[i], List.getElem_mem _, rfl⟩), hidx]
    simp

/-- C4 (as amended): when every ledger entry belongs to a club of the roster and no club
snapshot row of the period is left over from a club that is no longer in the roster, then
after a successful `computeClubLeaderboard` the total points of the club snapshot rows of
the period add up to the points of the ledger entries whose window-start column equals the
period start. -/
theorem total_points_are_conserved (env : Env) (pt : String) (pS pE : Time) (wf : String)
    (db : DB) (col : UserPointsWindowed → Int) (hwf : db.WF)
    (horph : db.noOrphanEntries) (hstale : db.noStaleRows pt pS.unixNano)
    (hcol : windowColumn wf = some col)
    (h : (computeClubLeaderboard env pt pS pE wf db).2 = none) :
    (((computeClubLeaderboard env pt pS pE wf db).1.clubSnapshots.filter
        (ClubLeaderboardSnapshot.inPeriod pt pS.unixNano)).map (fun r => r.TotalPoints)).sum
      = ((db.userPointsWindowed.filter (fun e => decide (col e = pS.unixNano))).map
          (fun e => e.Points)).sum := by
  obtain ⟨G, f, hG, _, hF, hf, _, _, _, _⟩ := clubPass_facts env pt pS pE wf db hwf h
  have hperm := period_rows_perm env pt pS pE wf db hwf hstale h
  rw [← hG] at hperm
  rw [hF, filter_map_eraseLocalRank G f hf (ClubLeaderboardSnapshot.inPeriod pt pS.unixNano)
    (fun r => rfl), List.map_map]
  have e1 : ((fun r : ClubLeaderboardSnapshot => r.TotalPoints) ∘ f)
      = (fun cp : ClubPoints => cp.TotalPoints) ∘ ClubLeaderboardSnapshot.toPoints := by
    funext r
    simp only [Function.comp]
    exact (eraseLocalRank_fields (f r) r (hf r)).2.2.2.2.2.1
  rw [e1, ← List.map_map, (hperm.map _).sum_eq,
    ((clubPointsOf_perm env wf pS db col hcol).map _).sum_eq, List.map_map]
  exact club_totals_sum db.clubs col pS.unixNano hwf.1 db.userPointsWindowed horph

set_option maxRecDepth 100000 in
/-- C4, witness: scenario A of the specification, 30 points in all. -/
theorem total_points_are_conserved_witness :
    (((computeClubLeaderboard quietEnv "weekly" jan1 jan7End "week_start"
        scenarioA).1.clubSnapshots.filter
        (ClubLeaderboardSnapshot.inPeriod "weekly" jan1.unixNano)).map
        (fun r => r.TotalPoints)).sum
      = ((scenarioA.userPointsWindowed.filter
          (fun e => decide (UserPointsWindowed.WeekStart e = jan1.unixNano))).map
          (fun e => e.Points)).sum :=
  total_points_are_conserved quietEnv "weekly" jan1 jan7End "week_start" scenarioA
    UserPointsWindowed.WeekStart (by decide) (by decide) (by decide) (by rfl) (by decide)

set_option maxRecDepth 100000 in
/-- C4, counterexample: (1) a ledger entry of 7 points for a club that is not in the roster
is in no group of the left join from the roster: the run succeeds and the snapshot rows of
the period add up to 0, the ledger entries of the period to 7.  (2) A club with a snapshot
row of 50 points is removed from the roster together with its ledger entries: the run
succeeds and leaves that row as it is, so the snapshot rows of the period add up to 50, the
ledger entries of the period to 0. -/
theorem ledger_and_snapshot_sums_differ :
    ((computeClubLeaderboard quietEnv "weekly" jan1 jan7End "week_start" orphanEntry).2 = none ∧
      (((computeClubLeaderboard quietEnv "weekly" jan1 jan7End "week_start"
          orphanEntry).1.clubSnapshots.filter
          (ClubLeaderboardSnapshot.inPeriod "weekly" jan1.unixNano)).map
          (fun r => r.TotalPoints)).sum = 0 ∧
      ((orphanEntry.userPointsWindowed.filter
          (fun e => decide (UserPointsWindowed.WeekStart e = jan1.unixNano))).map
          (fun e => e.Points)).sum = 7) ∧
    ((computeClubLeaderboard quietEnv "weekly" jan1 jan7End "week_start"
        clubRemovedWithEntries).2 = none ∧
      (((computeClubLeaderboard quietEnv "weekly" jan1 jan7End "week_start"
          clubRemovedWithEntries).1.clubSnapshots.filter
          (ClubLeaderboardSnapshot.inPeriod "weekly" jan1.unixNano)).map
          (fun r => r.TotalPoints)).sum = 50 ∧
      ((clubRemovedWithEntries.userPointsWindowed.filter
          (fun e => decide (UserPointsWindowed.WeekStart e = jan1.unixNano))).map
          (fun e => e.Points)).sum = 0) := by
  decide

/-- C7 (as amended): when no club snapshot row of the period is left over from a club that
is no longer in the roster, then after a successful `computeClubLeaderboard`, for every
non-empty city with `M` clubs in the aggregation, the club snapshot rows of that city and
period, taken in some order of total points descending, have the local ranks 1, 2, ..., M
(whatever their global ranks are). -/
theorem local_ranks_are_positions_in_city (env : Env) (pt : String) (pS pE : Time)
    (wf : String) (db : DB) (city : String) (hwf : db.WF)
    (hstale : db.noStaleRows pt pS.unixNano)
    (h : (computeClubLeaderboard env pt pS pE wf db).2 = none) (hcity : city ≠ "") :
    ∃ L : List ClubLeaderboardSnapshot,
      L.Perm ((computeClubLeaderboard env pt pS pE wf db).1.clubSnapshots.filter
        (ClubLeaderboardSnapshot.inCity city pt pS.unixNano)) ∧
      L.Pairwise (fun a b => a.TotalPoints ≥ b.TotalPoints) ∧
      L.map (fun r => r.LocalRank)
        = (List.range ((clubPointsOf env wf pS db).filter
            (fun cp => decide (cp.City = city))).length).map
          (fun i : Nat => some ((i : Int) + 1)) := by
  obtain ⟨G, f, hG, hF, hFm, hf, hGwf, _, _, _⟩ := clubPass_facts env pt pS pE wf db hwf h
  have hperm := period_rows_perm env pt pS pE wf db hwf hstale h
  rw [← hG] at hperm
  -- the rows of the city in the order of the locality query
  have hQp := env.sorter.perm (fun r : ClubLeaderboardSnapshot => r.TotalPoints)
    (G.filter (ClubLeaderboardSnapshot.inCity city pt pS.unixNano))
  have hQs := env.sorter.sorted (fun r : ClubLeaderboardSnapshot => r.TotalPoints)
    (G.filter (ClubLeaderboardSnapshot.inCity city pt pS.unixNano))
  -- the number of rows of the city
  have hcnt : (G.filter (ClubLeaderboardSnapshot.inCity city pt pS.unixNano)).length
      = ((clubPointsOf env wf pS db).filter (fun cp => decide (cp.City = city))).length := by
    have e1 : G.filter (ClubLeaderboardSnapshot.inCity city pt pS.unixNano)
        = (G.filter (ClubLeaderboardSnapshot.inPeriod pt pS.unixNano)).filter
            ((fun cp : ClubPoints => decide (cp.City = city)) ∘
              ClubLeaderboardSnapshot.toPoints) := by
      rw [List.filter_filter]
      apply List.filter_congr
      intro r _
      simp only [ClubLeaderboardSnapshot.inCity, ClubLeaderboardSnapshot.inPeriod,
        Function.comp, ClubLeaderboardSnapshot.toPoints]
      rw [Bool.eq_iff_iff]
      simp only [decide_eq_true_eq, Bool.and_eq_true]
    rw [e1, ← List.length_map _ ClubLeaderboardSnapshot.toPoints, ← List.filter_map]
    exact (hperm.filter _).length_eq
  by_cases hM : ((clubPointsOf env wf pS db).filter
      (fun cp => decide (cp.City = city))).length = 0
  · -- no club of the city in the aggregation: no row of the city, no local rank
    have hnil : G.filter (ClubLeaderboardSnapshot.inCity city pt pS.unixNano) = [] :=
      List.length_eq_zero.1 (hcnt.trans hM)
    refine ⟨[], ?_, List.Pairwise.nil, ?_⟩
    · rw [hFm, filter_map_eraseLocalRank G f hf
        (ClubLeaderboardSnapshot.inCity city pt pS.unixNano) (fun r => rfl), hnil]
      exact List.Perm.refl _
    · rw [hM]
      rfl
  -- the city is one of the keys of the map
  have hkey : city ∈ env.anyOrder (cityKeys (clubPointsOf env wf pS db)) := by
    apply (env.anyOrder_perm _).mem_iff.2
    apply (cityKeys_mem _ city).2
    obtain ⟨cp, hcp⟩ := List.exists_mem_of_length_pos (Nat.pos_of_ne_zero hM)
    obtain ⟨h1, h2⟩ := List.mem_filter.1 hcp
    exact ⟨hcity, cp, h1, by simpa using h2⟩
  have hnd : (env.anyOrder (cityKeys (clubPointsOf env wf pS db))).Nodup :=
    (List.Perm.nodup_iff (env.anyOrder_perm _)).2 (List.nodup_dedup _)
  have hrows := cityPasses_filter_city env.sorter pt pS _ city G _ hGwf hnd hkey
  rw [← hF] at hrows
  have hidnd : (cityOrder env.sorter pt pS city G).Nodup := by
    unfold cityOrder
    apply (List.Perm.nodup_iff (hQp.map _)).2
    exact List.Nodup.sublist (List.Sublist.map _ (List.filter_sublist _)) hGwf.2.1
  have hlen : (env.sorter.orderBy (fun r => r.TotalPoints)
        (G.filter (ClubLeaderboardSnapshot.inCity city pt pS.unixNano))).length
      = ((clubPointsOf env wf pS db).filter (fun cp => decide (cp.City = city))).length := by
    rw [hQp.length_eq]
    exact hcnt
  refine ⟨(env.sorter.orderBy (fun r => r.TotalPoints)
    (G.filter (ClubLeaderboardSnapshot.inCity city pt pS.unixNano))).map
    (withLocalRankIn (cityOrder env.sorter pt pS city G) 0), ?_, ?_, ?_⟩
  · rw [hrows]
    exact hQp.map _
  · rw [List.pairwise_map]
    apply hQs.imp
    intro a b hab
    rw [(withLocalRankIn_fields _ _ a).2.2.1, (withLocalRankIn_fields _ _ b).2.2.1]
    exact hab
  · rw [← hlen]
    exact localRanks_of_order (env.sorter.orderBy (fun r => r.TotalPoints)
      (G.filter (ClubLeaderboardSnapshot.inCity city pt pS.unixNano))) hidnd

set_option maxRecDepth 100000 in
/-- C7, witness: scenario B of the specification; the two clubs of Leeds have local ranks 1
and 2 while the club of York is first globally. -/
theorem local_ranks_are_positions_in_city_witness :
    ∃ L : List ClubLeaderboardSnapshot,
      L.Perm ((computeClubLeaderboard quietEnv "weekly" jan1 jan7End "week_start"
        scenarioB).1.clubSnapshots.filter
        (ClubLeaderboardSnapshot.inCity "Leeds" "weekly" jan1.unixNano)) ∧
      L.Pairwise (fun a b => a.TotalPoints ≥ b.TotalPoints) ∧
      L.map (fun r => r.LocalRank)
        = (List.range ((clubPointsOf quietEnv "week_start" jan1 scenarioB).filter
            (fun cp => decide (cp.City = "Leeds"))).length).map
          (fun i : Nat => some ((i : Int) + 1)) :=
  local_ranks_are_positions_in_city quietEnv "weekly" jan1 jan7End "week_start" scenarioB
    "Leeds" (by decide) (by decide) (by decide) (by decide)

set_option maxRecDepth 100000 in
/-- C7, counterexample: club 2 of Leeds is removed from the roster after a run; the next
successful run has one club of Leeds in the aggregation, and the locality pass reads back
both snapshot rows of Leeds, so that the local ranks of the city's rows are 2 (club 1) and
1 (the row left over from club 2), not the set with 1 alone. -/
theorem stale_row_takes_a_local_rank :
    (computeClubLeaderboard quietEnv "weekly" jan1 jan7End "week_start" clubRemoved).2 = none ∧
    ((clubPointsOf quietEnv "week_start" jan1 clubRemoved).filter
      (fun cp => decide (cp.City = "Leeds"))).length = 1 ∧
    ((computeClubLeaderboard quietEnv "weekly" jan1 jan7End "week_start"
        clubRemoved).1.clubSnapshots.filter
        (ClubLeaderboardSnapshot.inCity "Leeds" "weekly" jan1.unixNano)).map
      (fun r => (r.ClubID, r.LocalRank)) = [(2, some 1), (1, some 2)] := by
  decide

/-! ## Positional ranking -/

theorem user_stores_fields (r s : UserClubLeaderboardSnapshot) (h : r.stores s) :
    r.UserID = s.UserID ∧ r.ClubID = s.ClubID ∧ r.PeriodType = s.PeriodType ∧
      r.PeriodStart = s.PeriodStart ∧ r.PointsContributed = s.PointsContributed ∧
      r.ClubRank = s.ClubRank ∧ r.PeriodEnd = s.PeriodEnd := by
  obtain ⟨hk, ha⟩ := h
  simp only [UserClubLeaderboardSnapshot.key, Prod.mk.injEq] at hk
  refine ⟨hk.1, hk.2.1, hk.2.2.1, hk.2.2.2, ?_, ?_, ?_⟩
  · rw [← ha]; rfl
  · rw [← ha]; rfl
  · rw [← ha]; rfl

/-- In a list ordered by score descending a row with a strictly higher score stands at a
smaller position. -/
theorem position_lt_of_score_gt {α : Type} (score : α → Int) (l : List α)
    (hs : l.Pairwise (fun a b => score a ≥ score b)) (i j : Nat) (a b : α)
    (hi : l[i]? = some a) (hj : l[j]? = some b) (hgt : score a > score b) : i < j := by
  by_contra hij
  rcases Nat.lt_or_eq_of_le (Nat.le_of_not_lt hij) with h1 | h1
  · obtain ⟨hj', ej⟩ := List.getElem?_eq_some_iff.1 hj
    obtain ⟨hi', ei⟩ := List.getElem?_eq_some_iff.1 hi
    have := (List.pairwise_iff_getElem.1 hs) j i hj' hi' h1
    rw [ej, ei] at this
    omega
  · subst h1
    rw [hi] at hj
    have : a = b := Option.some.inj hj
    subst this
    omega

/-- The facts about the user-club snapshot table after a successful
`computeUserClubLeaderboard`. -/
theorem userPass_facts (env : Env) (pt : String) (pS pE : Time) (wf : String) (db : DB)
    (hwf : db.WF) (h : (computeUserClubLeaderboard env pt pS pE wf db).2 = none) :
    ((computeUserClubLeaderboard env pt pS pE wf db).1.userClubSnapshots.map
      UserClubLeaderboardSnapshot.key).Nodup ∧
    (∀ c ∈ db.clubs, c.DeletedAt = none →
      ∀ i up, (userPointsOf env wf c.ID pS db.userPointsWindowed)[i]? = some up →
        ∃ r ∈ (computeUserClubLeaderboard env pt pS pE wf db).1.userClubSnapshots,
          r.stores (newUserClubSnapshot pt pS pE c.ID up i)) := by
  obtain ⟨h1, _, _, _, _⟩ := computeUserClubLeaderboard_ok env pt pS pE wf db h
  have hperm := env.anyOrder_perm (db.clubs.filter (fun c => c.DeletedAt.isNone))
  have hnd : ((env.anyOrder (db.clubs.filter (fun c => c.DeletedAt.isNone))).map
      (fun c => c.ID)).Nodup := by
    apply (List.Perm.nodup_iff (hperm.map _)).2
    exact List.Nodup.sublist (List.Sublist.map _ (List.filter_sublist _)) hwf.1
  obtain ⟨s1, s2, _⟩ := contributorRows_spec env pt pS pE wf db.userPointsWindowed _
    db.userClubSnapshots db.userClubSnapshotSeq hwf.2.2 hnd
  rw [h1]
  refine ⟨s1, ?_⟩
  intro c hc hdel i up hi
  apply s2 c _ i up hi
  apply hperm.mem_iff.2
  exact List.mem_filter.2 ⟨hc, by rw [hdel]; rfl⟩

/-- C6: both aggregation results are ordered by score descending, and after a successful
run the row at 0-based position `i` of the aggregation has rank `i + 1` in its snapshot row
(the only row with its key): the global rank of a club after `computeClubLeaderboard`, the
club rank of a contributing user of each club after `computeUserClubLeaderboard`.  Distinct
positions hold distinct clubs or users, so the ranks written are 1, ..., N without gap or
repetition, also when scores tie, and a row with a strictly higher score stands at a smaller
position, so it has a smaller rank. -/
theorem ranks_follow_positions (env : Env) (pt : String) (pS pE : Time) (wf : String)
    (db dbu : DB) (hwf : db.WF) (hwfu : dbu.WF)
    (hc : (computeClubLeaderboard env pt pS pE wf db).2 = none)
    (hu : (computeUserClubLeaderboard env pt pS pE wf dbu).2 = none) :
    ((clubPointsOf env wf pS db).Pairwise (fun a b => a.TotalPoints ≥ b.TotalPoints) ∧
      ((clubPointsOf env wf pS db).map (fun cp => cp.ClubID)).Nodup ∧
      (∀ (i : Nat) (cp : ClubPoints), (clubPointsOf env wf pS db)[i]? = some cp →
        (∃ r ∈ (computeClubLeaderboard env pt pS pE wf db).1.clubSnapshots,
          r.ClubID = cp.ClubID ∧ r.PeriodType = pt ∧ r.PeriodStart = pS.unixNano ∧
          r.GlobalRank = some ((i : Int) + 1)) ∧
        (∀ r ∈ (computeClubLeaderboard env pt pS pE wf db).1.clubSnapshots,
          r.ClubID = cp.ClubID → r.PeriodType = pt → r.PeriodStart = pS.unixNano →
          r.GlobalRank = some ((i : Int) + 1))) ∧
      (∀ (i j : Nat) (cp cq : ClubPoints), (clubPointsOf env wf pS db)[i]? = some cp →
        (clubPointsOf env wf pS db)[j]? = some cq → cp.TotalPoints > cq.TotalPoints →
        i < j)) ∧
    (∀ c ∈ dbu.clubs, c.DeletedAt = none →
      (userPointsOf env wf c.ID pS dbu.userPointsWindowed).Pairwise
        (fun a b => a.Points ≥ b.Points) ∧
      ((userPointsOf env wf c.ID pS dbu.userPointsWindowed).map (fun up => up.UserID)).Nodup ∧
      (∀ (i : Nat) (up : UserPoints),
        (userPointsOf env wf c.ID pS dbu.userPointsWindowed)[i]? = some up →
        (∃ r ∈ (computeUserClubLeaderboard env pt pS pE wf dbu).1.userClubSnapshots,
          r.UserID = up.UserID ∧ r.ClubID = c.ID ∧ r.PeriodType = pt ∧
          r.PeriodStart = pS.unixNano ∧ r.ClubRank = some ((i : Int) + 1)) ∧
        (∀ r ∈ (computeUserClubLeaderboard env pt pS pE wf dbu).1.userClubSnapshots,
          r.UserID = up.UserID → r.ClubID = c.ID → r.PeriodType = pt →
          r.PeriodStart = pS.unixNano → r.ClubRank = some ((i : Int) + 1))) ∧
      (∀ (i j : Nat) (up uq : UserPoints),
        (userPointsOf env wf c.ID pS dbu.userPointsWindowed)[i]? = some up →
        (userPointsOf env wf c.ID pS dbu.userPointsWindowed)[j]? = some uq →
        up.Points > uq.Points → i < j)) := by
  constructor
  · obtain ⟨G, f, _, _, hF, hf, _, hFwf, hst, _⟩ := clubPass_facts env pt pS pE wf db hwf hc
    have hsorted := clubPointsOf_sorted env wf pS db
    refine ⟨hsorted, clubPointsOf_nodup env wf pS db hwf, ?_, ?_⟩
    · intro i cp hi
      obtain ⟨r, hr, hs, _, _⟩ := hst i cp hi
      obtain ⟨s1, s2, s3, _, _, s6, _, _⟩ := stores_fields r _ hs
      obtain ⟨e1, _, _, e4, _, _, _, e8, e9, e10, _⟩ := eraseLocalRank_fields (f r) r (hf r)
      have hfr : f r ∈ (computeClubLeaderboard env pt pS pE wf db).1.clubSnapshots := by
        rw [hF]; exact List.mem_map.2 ⟨r, hr, rfl⟩
      have hrank : (f r).GlobalRank = some ((i : Int) + 1) := by rw [e4, s6]; rfl
      refine ⟨⟨f r, hfr, by rw [e10, s1]; rfl, by rw [e8, s2]; rfl, by rw [e9, s3]; rfl,
        hrank⟩, ?_⟩
      intro x hx a b c
      have : x = f r := hFwf.eq_of_key _ _ x (f r) hx hfr (by
        rw [e1, hs.1, newClubSnapshot_key]
        simp only [ClubLeaderboardSnapshot.key, Prod.mk.injEq]
        exact ⟨a, b, c⟩)
      rw [this]; exact hrank
    · intro i j cp cq hi hj hgt
      exact position_lt_of_score_gt (fun cp : ClubPoints => cp.TotalPoints) _ hsorted i j cp cq
        hi hj hgt
  · intro c hcm hdel
    obtain ⟨hnd, hst⟩ := userPass_facts env pt pS pE wf dbu hwfu hu
    have hsorted := userPointsOf_sorted env wf c.ID pS dbu.userPointsWindowed
    refine ⟨hsorted, userPointsOf_nodup env wf c.ID pS dbu.userPointsWindowed, ?_, ?_⟩
    · intro i up hi
      obtain ⟨r, hr, hs⟩ := hst c hcm hdel i up hi
      obtain ⟨s1, s2, s3, s4, _, s6, _⟩ := user_stores_fields r _ hs
      have hrank : r.ClubRank = some ((i : Int) + 1) := by rw [s6]; rfl
      refine ⟨⟨r, hr, s1, s2, s3, s4, hrank⟩, ?_⟩
      intro x hx a b c1 d
      have : x = r := List.inj_on_of_nodup_map hnd hx hr (by
        rw [hs.1, newUserClubSnapshot_key]
        simp only [UserClubLeaderboardSnapshot.key, Prod.mk.injEq]
        exact ⟨a, b, c1, d⟩)
      rw [this]; exact hrank
    · intro i j up uq hi hj hgt
      exact position_lt_of_score_gt (fun up : UserPoints => up.Points) _ hsorted i j up uq
        hi hj hgt

set_option maxRecDepth 100000 in
/-- C6, witness: scenario A of the specification, for the club and for the user-club
computation. -/
theorem ranks_follow_positions_witness :
    ((clubPointsOf quietEnv "week_start" jan1 scenarioA).Pairwise
        (fun a b => a.TotalPoints ≥ b.TotalPoints) ∧
      ((clubPointsOf quietEnv "week_start" jan1 scenarioA).map (fun cp => cp.ClubID)).Nodup ∧
      (∀ (i : Nat) (cp : ClubPoints),
        (clubPointsOf quietEnv "week_start" jan1 scenarioA)[i]? = some cp →
        (∃ r ∈ (computeClubLeaderboard quietEnv "weekly" jan1 jan7End "week_start"
            scenarioA).1.clubSnapshots,
          r.ClubID = cp.ClubID ∧ r.PeriodType = "weekly" ∧ r.PeriodStart = jan1.unixNano ∧
          r.GlobalRank = some ((i : Int) + 1)) ∧
        (∀ r ∈ (computeClubLeaderboard quietEnv "weekly" jan1 jan7End "week_start"
            scenarioA).1.clubSnapshots,
          r.ClubID = cp.ClubID → r.PeriodType = "weekly" → r.PeriodStart = jan1.unixNano →
          r.GlobalRank = some ((i : Int) + 1))) ∧
      (∀ (i j : Nat) (cp cq : ClubPoints),
        (clubPointsOf quietEnv "week_start" jan1 scenarioA)[i]? = some cp →
        (clubPointsOf quietEnv "week_start" jan1 scenarioA)[j]? = some cq →
        cp.TotalPoints > cq.TotalPoints → i < j)) ∧
    (∀ c ∈ scenarioA.clubs, c.DeletedAt = none →
      (userPointsOf quietEnv "week_start" c.ID jan1 scenarioA.userPointsWindowed).Pairwise
        (fun a b => a.Points ≥ b.Points) ∧
      ((userPointsOf quietEnv "week_start" c.ID jan1 scenarioA.userPointsWindowed).map
        (fun up => up.UserID)).Nodup ∧
      (∀ (i : Nat) (up : UserPoints),
        (userPointsOf quietEnv "week_start" c.ID jan1 scenarioA.userPointsWindowed)[i]?
          = some up →
        (∃ r ∈ (computeUserClubLeaderboard quietEnv "weekly" jan1 jan7End "week_start"
            scenarioA).1.userClubSnapshots,
          r.UserID = up.UserID ∧ r.ClubID = c.ID ∧ r.PeriodType = "weekly" ∧
          r.PeriodStart = jan1.unixNano ∧ r.ClubRank = some ((i : Int) + 1)) ∧
        (∀ r ∈ (computeUserClubLeaderboard quietEnv "weekly" jan1 jan7End "week_start"
            scenarioA).1.userClubSnapshots,
          r.UserID = up.UserID → r.ClubID = c.ID → r.PeriodType = "weekly" →
          r.PeriodStart = jan1.unixNano → r.ClubRank = some ((i : Int) + 1))) ∧
      (∀ (i j : Nat) (up uq : UserPoints),
        (userPointsOf quietEnv "week_start" c.ID jan1 scenarioA.userPointsWindowed)[i]?
          = some up →
        (userPointsOf quietEnv "week_start" c.ID jan1 scenarioA.userPointsWindowed)[j]?
          = some uq →
        up.Points > uq.Points → i < j)) :=
  ranks_follow_positions quietEnv "weekly" jan1 jan7End "week_start" scenarioA scenarioA
    (by decide) (by decide) (by decide) (by decide)

/-! ## The orchestrator -/

/-- C10: `ComputeAllLeaderboards` runs, in this order, the club and then the user-club
computation for "weekly", for "monthly" and for "annual" (and for no other period type),
each on the database as the step before left it.  Its result is that of the first step that
returns an error: that error, and the database as that step left it, so that no later step
has run and what earlier steps wrote is in place.  It returns no error if and only if all
six steps return none, and then the database is the one the last step left. -/
theorem compute_all_stops_at_first_failure (env : Env) (now : Time) (db : DB) :
    (periods now).map (fun p => p.periodType) = ["weekly", "monthly", "annual"] ∧
    (ComputeAllLeaderboards env now db =
      (let s1 := computeClubLeaderboard env "weekly" (getWeekStart now) (getWeekEnd now)
          "week_start" db
       let s2 := computeUserClubLeaderboard env "weekly" (getWeekStart now) (getWeekEnd now)
          "week_start" s1.1
       let s3 := computeClubLeaderboard env "monthly" (getMonthStart now) (getMonthEnd now)
          "month_start" s2.1
       let s4 := computeUserClubLeaderboard env "monthly" (getMonthStart now)
          (getMonthEnd now) "month_start" s3.1
       let s5 := computeClubLeaderboard env "annual" (getYearStart now) (getYearEnd now)
          "year_start" s4.1
       let s6 := computeUserClubLeaderboard env "annual" (getYearStart now) (getYearEnd now)
          "year_start" s5.1
       if s1.2.isSome then s1 else if s2.2.isSome then s2 else if s3.2.isSome then s3
       else if s4.2.isSome then s4 else if s5.2.isSome then s5 else s6)) ∧
    ((ComputeAllLeaderboards env now db).2 = none ↔
      (let s1 := computeClubLeaderboard env "weekly" (getWeekStart now) (getWeekEnd now)
          "week_start" db
       let s2 := computeUserClubLeaderboard env "weekly" (getWeekStart now) (getWeekEnd now)
          "week_start" s1.1
       let s3 := computeClubLeaderboard env "monthly" (getMonthStart now) (getMonthEnd now)
          "month_start" s2.1
       let s4 := computeUserClubLeaderboard env "monthly" (getMonthStart now)
          (getMonthEnd now) "month_start" s3.1
       let s5 := computeClubLeaderboard env "annual" (getYearStart now) (getYearEnd now)
          "year_start" s4.1
       let s6 := computeUserClubLeaderboard env "annual" (getYearStart now) (getYearEnd now)
          "year_start" s5.1
       s1.2 = none ∧ s2.2 = none ∧ s3.2 = none ∧ s4.2 = none ∧ s5.2 = none ∧
         s6.2 = none)) := by
  have hstep : ∀ (p : Period) (rest : List Period) (d : DB),
      computePeriods env (p :: rest) d =
        if (computeClubLeaderboard env p.periodType p.periodStart p.periodEnd p.windowField
            d).2.isSome then
          computeClubLeaderboard env p.periodType p.periodStart p.periodEnd p.windowField d
        else if (computeUserClubLeaderboard env p.periodType p.periodStart p.periodEnd
            p.windowField (computeClubLeaderboard env p.periodType p.periodStart p.periodEnd
              p.windowField d).1).2.isSome then
          computeUserClubLeaderboard env p.periodType p.periodStart p.periodEnd p.windowField
            (computeClubLeaderboard env p.periodType p.periodStart p.periodEnd
              p.windowField d).1
        else computePeriods env rest
          (computeUserClubLeaderboard env p.periodType p.periodStart p.periodEnd p.windowField
            (computeClubLeaderboard env p.periodType p.periodStart p.periodEnd
              p.windowField d).1).1 := by
    intro p rest d
    rw [computePeriods]
    generalize computeClubLeaderboard env p.periodType p.periodStart p.periodEnd
      p.windowField d = a
    obtain ⟨a1, a2⟩ := a
    cases a2 with
    | some e => simp
    | none =>
      simp only [Option.isSome_none, Bool.false_eq_true, if_false]
      generalize computeUserClubLeaderboard env p.periodType p.periodStart p.periodEnd
        p.windowField a1 = b
      obtain ⟨b1, b2⟩ := b
      cases b2 with
      | some e => simp
      | none => simp
  have hmain : ComputeAllLeaderboards env now db =
      (let s1 := computeClubLeaderboard env "weekly" (getWeekStart now) (getWeekEnd now)
          "week_start" db
       let s2 := computeUserClubLeaderboard env "weekly" (getWeekStart now) (getWeekEnd now)
          "week_start" s1.1
       let s3 := computeClubLeaderboard env "monthly" (getMonthStart now) (getMonthEnd now)
          "month_start" s2.1
       let s4 := computeUserClubLeaderboard env "monthly" (getMonthStart now)
          (getMonthEnd now) "month_start" s3.1
       let s5 := computeClubLeaderboard env "annual" (getYearStart now) (getYearEnd now)
          "year_start" s4.1
       let s6 := computeUserClubLeaderboard env "annual" (getYearStart now) (getYearEnd now)
          "year_start" s5.1
       if s1.2.isSome then s1 else if s2.2.isSome then s2 else if s3.2.isSome then s3
       else if s4.2.isSome then s4 else if s5.2.isSome then s5 else s6) := by
    have hnil : ∀ d : DB, computePeriods env [] d = (d, none) := fun d => rfl
    unfold ComputeAllLeaderboards periods
    rw [hstep, hstep, hstep, hnil]
    simp only
    split
    · rfl
    · split
      · rfl
      · split
        · rfl
        · split
          · rfl
          · split
            · rfl
            · split
              · rfl
              · rename_i h6
                have hx : ∀ x : DB × Option Error, ¬ x.2.isSome = true →
                    ((x.1, none) : DB × Option Error) = x := by
                  rintro ⟨d, _ | e⟩ hn
                  · rfl
                  · simp at hn
                exact hx _ h6
  refine ⟨rfl, hmain, ?_⟩
  rw [hmain]
  simp only
  generalize computeClubLeaderboard env "weekly" (getWeekStart now) (getWeekEnd now)
    "week_start" db = s1
  generalize computeUserClubLeaderboard env "weekly" (getWeekStart now) (getWeekEnd now)
    "week_start" s1.1 = s2
  generalize computeClubLeaderboard env "monthly" (getMonthStart now) (getMonthEnd now)
    "month_start" s2.1 = s3
  generalize computeUserClubLeaderboard env "monthly" (getMonthStart now) (getMonthEnd now)
    "month_start" s3.1 = s4
  generalize computeClubLeaderboard env "annual" (getYearStart now) (getYearEnd now)
    "year_start" s4.1 = s5
  generalize computeUserClubLeaderboard env "annual" (getYearStart now) (getYearEnd now)
    "year_start" s5.1 = s6
  obtain ⟨d1, e1⟩ := s1
  obtain ⟨d2, e2⟩ := s2
  obtain ⟨d3, e3⟩ := s3
  obtain ⟨d4, e4⟩ := s4
  obtain ⟨d5, e5⟩ := s5
  obtain ⟨d6, e6⟩ := s6
  cases e1 <;> cases e2 <;> cases e3 <;> cases e4 <;> cases e5 <;> cases e6 <;> simp

/-! ## Idempotence -/

theorem insertDesc_map {α β : Type} (f : α → Int) (g : β → Int) (h : α → β) (x : α)
    (ys : List α) (hx : g (h x) = f x) (hys : ∀ a ∈ ys, g (h a) = f a) :
    insertDesc g (h x) (ys.map h) = (insertDesc f x ys).map h := by
  induction ys with
  | nil => rfl
  | cons y rest ih =>
    have hy := hys y (List.mem_cons_self _ _)
    have ih' := ih (fun a ha => hys a (List.mem_cons_of_mem _ ha))
    simp only [List.map_cons, insertDesc, hx, hy]
    split
    · rw [List.map_cons, ih']
    · rfl

theorem stableSorter_keyDetermined : stableSorter.keyDetermined := by
  intro α β f g h l hl
  show sortDesc g (l.map h) = (sortDesc f l).map h
  induction l with
  | nil => rfl
  | cons x xs ih =>
    have ih' := ih (fun a ha => hl a (List.mem_cons_of_mem _ ha))
    simp only [List.map_cons, sortDesc, ih']
    apply insertDesc_map f g h x _ (hl x (List.mem_cons_self _ _))
    intro a ha
    have hp : (sortDesc f xs).Perm xs := stableSorter.perm f xs
    exact hl a (List.mem_cons_of_mem _ (hp.mem_iff.1 ha))

theorem clubPointsOf_congr (env1 env2 : Env) (wf : String) (pS : Time) (d1 d2 : DB)
    (hs : env2.sorter = env1.sorter) (hc : d2.clubs = d1.clubs)
    (hl : d2.userPointsWindowed = d1.userPointsWindowed) :
    clubPointsOf env2 wf pS d2 = clubPointsOf env1 wf pS d1 := by
  unfold clubPointsOf
  rw [hs, hc, hl]

theorem userPointsOf_congr (env1 env2 : Env) (wf : String) (clubID : Nat) (pS : Time)
    (ledger : List UserPointsWindowed) (hs : env2.sorter = env1.sorter) :
    userPointsOf env2 wf clubID pS ledger = userPointsOf env1 wf clubID pS ledger := by
  unfold userPointsOf
  rw [hs]

theorem stores_of_eraseLocalRank (x r s : ClubLeaderboardSnapshot)
    (h : x.eraseLocalRank = r.eraseLocalRank) (hs : r.stores s) : x.stores s := by
  obtain ⟨hk, ha⟩ := hs
  obtain ⟨e1, _, _, _, _, _, _, _, _, _, e11⟩ := eraseLocalRank_fields x r h
  refine ⟨e1.trans hk, ?_⟩
  rw [e11]
  show { r.assign s with LocalRank := x.LocalRank } = _
  rw [ha]

theorem withLocalRankIn_idem (ids : List Nat) (j : Nat) (r : ClubLeaderboardSnapshot) :
    withLocalRankIn ids j (withLocalRankIn ids j r) = withLocalRankIn ids j r := by
  unfold withLocalRankIn
  by_cases h : r.ID ∈ ids
  · simp only [h, if_true]
  · simp only [h, if_false]

theorem cityPasses_same (sorter : Sorter) (pt : String) (pS : Time) (cities : List String)
    (rows : List ClubLeaderboardSnapshot)
    (h : ∀ c ∈ cities, cityPass sorter pt pS c rows = rows) :
    cityPasses sorter pt pS cities rows = rows := by
  induction cities with
  | nil => rfl
  | cons c rest ih =>
    unfold cityPasses
    rw [h c (List.mem_cons_self _ _)]
    exact ih (fun c' hc' => h c' (List.mem_cons_of_mem _ hc'))

/-- A club computation on a table that already holds what it writes changes no row. -/
theorem clubFix_run (env : Env) (pt : String) (pS pE : Time) (wf : String) (db : DB)
    (hwf : db.WF)
    (hfix : ClubFix env.sorter ⟨pt, pS, pE, wf⟩ (clubPointsOf env wf pS db) db.clubSnapshots)
    (h : (computeClubLeaderboard env pt pS pE wf db).2 = none) :
    (computeClubLeaderboard env pt pS pE wf db).1.clubSnapshots = db.clubSnapshots := by
  obtain ⟨_, h1, _⟩ := computeClubLeaderboard_ok env pt pS pE wf db h
  obtain ⟨f1, f2⟩ := hfix
  have hG : upsertClubRows pt pS pE (clubPointsOf env wf pS db) 0 db.clubSnapshots
      db.clubSnapshotSeq = db.clubSnapshots := by
    apply upsertClubRows_same
    · intro i cp hi
      obtain ⟨r, hr, hs⟩ := f1 i cp hi
      rw [Nat.zero_add]
      exact ⟨r, hr, hs.1⟩
    · intro i cp hi r hr hk
      obtain ⟨r1, hr1, hs⟩ := f1 i cp hi
      rw [Nat.zero_add] at hk ⊢
      have : r = r1 := hwf.2.1.eq_of_key _ _ r r1 hr hr1 (hk.trans hs.1.symm)
      rw [this]; exact hs.2
  rw [h1, hG]
  apply cityPasses_same
  intro c hc
  have hc' := (env.anyOrder_perm _).mem_iff.1 hc
  rw [cityPass_eq env.sorter pt pS c db.clubSnapshots _ hwf.2.1]
  conv_rhs => rw [← List.map_id db.clubSnapshots]
  apply List.map_congr_left
  intro r hr
  by_cases hm : r.ID ∈ cityOrder env.sorter pt pS c db.clubSnapshots
  · exact f2 c hc' r hr ((mem_cityOrder env.sorter pt pS c _ _ hwf.2.1 r hr).1 hm)
  · unfold withLocalRankIn
    rw [if_neg hm]; rfl

/-- A successful club computation leaves a table that holds what it writes, when the store
orders equal scores by a rule that depends only on scores and reading order. -/
theorem clubFix_after (env : Env) (pt : String) (pS pE : Time) (wf : String) (db : DB)
    (hwf : db.WF) (hkd : env.sorter.keyDetermined)
    (h : (computeClubLeaderboard env pt pS pE wf db).2 = none) :
    ClubFix env.sorter ⟨pt, pS, pE, wf⟩ (clubPointsOf env wf pS db)
      (computeClubLeaderboard env pt pS pE wf db).1.clubSnapshots := by
  obtain ⟨G, f, _, hF, hFm, hf, hGwf, hFwf, hst, _⟩ := clubPass_facts env pt pS pE wf db hwf h
  constructor
  · intro i cp hi
    obtain ⟨r, hr, hs, _, _⟩ := hst i cp hi
    exact ⟨f r, by rw [hFm]; exact List.mem_map.2 ⟨r, hr, rfl⟩,
      stores_of_eraseLocalRank (f r) r _ (hf r) hs⟩
  · intro city hcity r hr hin
    have hkey : city ∈ env.anyOrder (cityKeys (clubPointsOf env wf pS db)) :=
      (env.anyOrder_perm _).mem_iff.2 hcity
    have hnd : (env.anyOrder (cityKeys (clubPointsOf env wf pS db))).Nodup :=
      (List.Perm.nodup_iff (env.anyOrder_perm _)).2 (List.nodup_dedup _)
    have hrows := cityPasses_filter_city env.sorter pt pS _ city G _ hGwf hnd hkey
    rw [← hF] at hrows
    have hord : cityOrder env.sorter pt pS city
        (computeClubLeaderboard env pt pS pE wf db).1.clubSnapshots
        = cityOrder env.sorter pt pS city G := by
      unfold cityOrder
      rw [hrows]
      rw [hkd (fun r => r.TotalPoints) (fun r => r.TotalPoints)
        (withLocalRankIn (cityOrder env.sorter pt pS city G) 0) _
        (fun a _ => (withLocalRankIn_fields _ _ a).2.2.1), List.map_map]
      apply List.map_congr_left
      intro a _
      exact (withLocalRankIn_fields _ _ a).2.1
    have hr' : r ∈ (computeClubLeaderboard env pt pS pE wf db).1.clubSnapshots.filter
        (ClubLeaderboardSnapshot.inCity city pt pS.unixNano) := List.mem_filter.2 ⟨hr, hin⟩
    rw [hrows] at hr'
    obtain ⟨r0, _, hr0⟩ := List.mem_map.1 hr'
    show withLocalRankIn (cityOrder env.sorter pt pS city
      (computeClubLeaderboard env pt pS pE wf db).1.clubSnapshots) 0 r = r
    rw [hord, ← hr0]
    exact withLocalRankIn_idem _ _ _

/-- A successful club computation for another period type changes no row seen through a
condition that selects no row of its period type and does not look at the local rank. -/
theorem clubStep_filter (env : Env) (pt : String) (pS pE : Time) (wf : String) (db : DB)
    (hwf : db.WF) (h : (computeClubLeaderboard env pt pS pE wf db).2 = none)
    (q : ClubLeaderboardSnapshot → Bool) (hq : ∀ r, r.PeriodType = pt → q r = false)
    (hinv : ∀ r lr, q { r with LocalRank := lr } = q r) :
    (computeClubLeaderboard env pt pS pE wf db).1.clubSnapshots.filter q
      = db.clubSnapshots.filter q := by
  obtain ⟨G, f, hG, hF, _, _, hGwf, _, _, _⟩ := clubPass_facts env pt pS pE wf db hwf h
  rw [hF, cityPasses_filter_other env.sorter pt pS _ q ?_ hinv G _ hGwf, hG,
    upsertClubRows_filter pt pS pE _ q hq]
  intro c _ r hr
  simp only [ClubLeaderboardSnapshot.inCity, decide_eq_false_iff_not]
  intro hc
  have := hq r hc.2.1
  rw [hr] at this
  exact Bool.noConfusion this

theorem clubFix_frame (env : Env) (pt : String) (pS pE : Time) (wf : String) (db : DB)
    (hwf : db.WF) (h : (computeClubLeaderboard env pt pS pE wf db).2 = none)
    (sorter : Sorter) (p : Period) (agg : List ClubPoints) (hne : p.periodType ≠ pt)
    (hfix : ClubFix sorter p agg db.clubSnapshots) :
    ClubFix sorter p agg (computeClubLeaderboard env pt pS pE wf db).1.clubSnapshots := by
  obtain ⟨f1, f2⟩ := hfix
  constructor
  · intro i cp hi
    obtain ⟨r, hr, hs⟩ := f1 i cp hi
    refine ⟨r, ?_, hs⟩
    have hpt : r.PeriodType = p.periodType := (stores_fields r _ hs).2.1
    have hmem : r ∈ db.clubSnapshots.filter (fun x => decide (x.PeriodType = p.periodType)) :=
      List.mem_filter.2 ⟨hr, by simpa using hpt⟩
    rw [← clubStep_filter env pt pS pE wf db hwf h
      (fun x => decide (x.PeriodType = p.periodType))
      (fun x hx => by simp only [decide_eq_false_iff_not]; rw [hx]; exact fun e => hne e.symm)
      (fun x lr => rfl)] at hmem
    exact (List.mem_filter.1 hmem).1
  · intro city hcity r hr hin
    have hfilt := clubStep_filter env pt pS pE wf db hwf h
      (ClubLeaderboardSnapshot.inCity city p.periodType p.periodStart.unixNano)
      (fun x hx => by
        simp only [ClubLeaderboardSnapshot.inCity, decide_eq_false_iff_not]
        intro hc
        exact hne (hc.2.1.symm.trans hx))
      (fun x lr => rfl)
    have hr' : r ∈ db.clubSnapshots := by
      have : r ∈ (computeClubLeaderboard env pt pS pE wf db).1.clubSnapshots.filter
          (ClubLeaderboardSnapshot.inCity city p.periodType p.periodStart.unixNano) :=
        List.mem_filter.2 ⟨hr, hin⟩
      rw [hfilt] at this
      exact (List.mem_filter.1 this).1
    have := f2 city hcity r hr' hin
    unfold cityOrder at this ⊢
    rw [hfilt]
    exact this

theorem upsertUserClubRows_keeps (pt : String) (pS pE : Time) (clubID : Nat)
    (ups : List UserPoints) (x : UserClubLeaderboardSnapshot) (hx : x.PeriodType ≠ pt) :
    ∀ (g : Nat) (rows : List UserClubLeaderboardSnapshot) (seq : Nat), x ∈ rows →
      x ∈ upsertUserClubRows pt pS pE clubID ups g rows seq := by
  induction ups with
  | nil => intro g rows seq h; exact h
  | cons up0 rest ih =>
    intro g rows seq h
    unfold upsertUserClubRows
    apply ih
    apply (mem_upsertUserClubRow rows seq _ x).2
    refine Or.inr (Or.inl ⟨h, ?_⟩)
    intro hk
    simp only [UserClubLeaderboardSnapshot.key, newUserClubSnapshot, Prod.mk.injEq] at hk
    exact hx hk.2.2.1

theorem contributorRows_keeps (env : Env) (pt : String) (pS pE : Time) (wf : String)
    (ledger : List UserPointsWindowed) (clubs : List Club) (x : UserClubLeaderboardSnapshot)
    (hx : x.PeriodType ≠ pt) :
    ∀ (rows : List UserClubLeaderboardSnapshot) (seq : Nat), x ∈ rows →
      x ∈ contributorRows env pt pS pE wf ledger clubs rows seq := by
  induction clubs with
  | nil => intro rows seq h; exact h
  | cons c0 rest ih =>
    intro rows seq h
    unfold contributorRows
    apply ih
    exact upsertUserClubRows_keeps pt pS pE c0.ID _ x hx 0 rows seq h

/-- A user-club computation on a table that already holds what it writes changes no row. -/
theorem userFix_run (env : Env) (pt : String) (pS pE : Time) (wf : String) (db : DB)
    (hwf : db.WF)
    (hfix : UserFix ⟨pt, pS, pE, wf⟩ db.clubs
      (fun id => userPointsOf env wf id pS db.userPointsWindowed) db.userClubSnapshots)
    (h : (computeUserClubLeaderboard env pt pS pE wf db).2 = none) :
    (computeUserClubLeaderboard env pt pS pE wf db).1.userClubSnapshots
      = db.userClubSnapshots := by
  obtain ⟨h1, _⟩ := computeUserClubLeaderboard_ok env pt pS pE wf db h
  rw [h1]
  have hmem : ∀ c ∈ env.anyOrder (db.clubs.filter (fun c => c.DeletedAt.isNone)),
      c ∈ db.clubs ∧ c.DeletedAt = none := by
    intro c hc
    obtain ⟨a, b⟩ := List.mem_filter.1 ((env.anyOrder_perm _).mem_iff.1 hc)
    exact ⟨a, by simpa using b⟩
  apply contributorRows_same
  · intro c hc i up hi
    obtain ⟨r, hr, hs⟩ := hfix c (hmem c hc).1 (hmem c hc).2 i up hi
    exact ⟨r, hr, hs.1⟩
  · intro c hc i up hi r hr hk
    obtain ⟨r1, hr1, hs⟩ := hfix c (hmem c hc).1 (hmem c hc).2 i up hi
    have : r = r1 := List.inj_on_of_nodup_map hwf.2.2 hr hr1 (hk.trans hs.1.symm)
    rw [this]; exact hs.2

theorem userFix_frame (env : Env) (pt : String) (pS pE : Time) (wf : String) (db : DB)
    (h : (computeUserClubLeaderboard env pt pS pE wf db).2 = none)
    (p : Period) (clubs : List Club) (ups : Nat → List UserPoints) (hne : p.periodType ≠ pt)
    (hfix : UserFix p clubs ups db.userClubSnapshots) :
    UserFix p clubs ups (computeUserClubLeaderboard env pt pS pE wf db).1.userClubSnapshots := by
  obtain ⟨h1, _⟩ := computeUserClubLeaderboard_ok env pt pS pE wf db h
  intro c hc hdel i up hi
  obtain ⟨r, hr, hs⟩ := hfix c hc hdel i up hi
  refine ⟨r, ?_, hs⟩
  rw [h1]
  apply contributorRows_keeps
  · rw [(user_stores_fields r _ hs).2.2.1]
    exact hne
  · exact hr

/-- The constraints of the schema hold after a successful club computation, which changes
neither the roster nor the ledger nor the user-club snapshots. -/
theorem computeClubLeaderboard_wf (env : Env) (pt : String) (pS pE : Time) (wf : String)
    (db : DB) (hwf : db.WF) (h : (computeClubLeaderboard env pt pS pE wf db).2 = none) :
    (computeClubLeaderboard env pt pS pE wf db).1.WF ∧
      (computeClubLeaderboard env pt pS pE wf db).1.clubs = db.clubs ∧
      (computeClubLeaderboard env pt pS pE wf db).1.userPointsWindowed
        = db.userPointsWindowed ∧
      (computeClubLeaderboard env pt pS pE wf db).1.userClubSnapshots
        = db.userClubSnapshots := by
  obtain ⟨_, _, h2, h3, h4, h5, _⟩ := computeClubLeaderboard_ok env pt pS pE wf db h
  obtain ⟨_, _, _, _, _, _, _, hFwf, _, _⟩ := clubPass_facts env pt pS pE wf db hwf h
  refine ⟨⟨by rw [h3]; exact hwf.1, by rw [h2]; exact hFwf, by rw [h5]; exact hwf.2.2⟩,
    h3, h4, h5⟩

/-- The constraints of the schema hold after a successful user-club computation, which
changes neither the roster nor the ledger nor the club snapshots. -/
theorem computeUserClubLeaderboard_wf (env : Env) (pt : String) (pS pE : Time) (wf : String)
    (db : DB) (hwf : db.WF) (h : (computeUserClubLeaderboard env pt pS pE wf db).2 = none) :
    (computeUserClubLeaderboard env pt pS pE wf db).1.WF ∧
      (computeUserClubLeaderboard env pt pS pE wf db).1.clubs = db.clubs ∧
      (computeUserClubLeaderboard env pt pS pE wf db).1.userPointsWindowed
        = db.userPointsWindowed ∧
      (computeUserClubLeaderboard env pt pS pE wf db).1.clubSnapshots = db.clubSnapshots := by
  obtain ⟨_, h3, h4, h5, h6⟩ := computeUserClubLeaderboard_ok env pt pS pE wf db h
  obtain ⟨hnd, _⟩ := userPass_facts env pt pS pE wf db hwf h
  refine ⟨⟨by rw [h3]; exact hwf.1, by rw [h5, h6]; exact hwf.2.1, hnd⟩, h3, h4, h5⟩

/-- One turn of the loop over the periods. -/
theorem computePeriods_cons (env : Env) (p : Period) (rest : List Period) (d : DB) :
    computePeriods env (p :: rest) d =
      if (computeClubLeaderboard env p.periodType p.periodStart p.periodEnd p.windowField
          d).2.isSome then
        computeClubLeaderboard env p.periodType p.periodStart p.periodEnd p.windowField d
      else if (computeUserClubLeaderboard env p.periodType p.periodStart p.periodEnd
          p.windowField (computeClubLeaderboard env p.periodType p.periodStart p.periodEnd
            p.windowField d).1).2.isSome then
        computeUserClubLeaderboard env p.periodType p.periodStart p.periodEnd p.windowField
          (computeClubLeaderboard env p.periodType p.periodStart p.periodEnd
            p.windowField d).1
      else computePeriods env rest
        (computeUserClubLeaderboard env p.periodType p.periodStart p.periodEnd p.windowField
          (computeClubLeaderboard env p.periodType p.periodStart p.periodEnd
            p.windowField d).1).1 := by
  rw [computePeriods]
  generalize computeClubLeaderboard env p.periodType p.periodStart p.periodEnd
    p.windowField d = a
  obtain ⟨a1, a2⟩ := a
  cases a2 with
  | some e => simp
  | none =>
    simp only [Option.isSome_none, Bool.false_eq_true, if_false]
    generalize computeUserClubLeaderboard env p.periodType p.periodStart p.periodEnd
      p.windowField a1 = b
    obtain ⟨b1, b2⟩ := b
    cases b2 with
    | some e => simp
    | none => simp

/-- When the loop over the periods returns no error, both computations of its first turn
returned none and the loop went on with the rest. -/
theorem computePeriods_cons_ok (env : Env) (p : Period) (rest : List Period) (d : DB)
    (h : (computePeriods env (p :: rest) d).2 = none) :
    (computeClubLeaderboard env p.periodType p.periodStart p.periodEnd p.windowField d).2
        = none ∧
      (computeUserClubLeaderboard env p.periodType p.periodStart p.periodEnd p.windowField
        (computeClubLeaderboard env p.periodType p.periodStart p.periodEnd p.windowField
          d).1).2 = none ∧
      computePeriods env (p :: rest) d = computePeriods env rest
        (computeUserClubLeaderboard env p.periodType p.periodStart p.periodEnd p.windowField
          (computeClubLeaderboard env p.periodType p.periodStart p.periodEnd
            p.windowField d).1).1 := by
  rw [computePeriods_cons] at h ⊢
  cases h1 : (computeClubLeaderboard env p.periodType p.periodStart p.periodEnd
      p.windowField d).2 with
  | some e => rw [h1] at h; simp [h1] at h
  | none =>
    rw [h1] at h
    simp only [Option.isSome_none, Bool.false_eq_true, if_false] at h ⊢
    cases h2 : (computeUserClubLeaderboard env p.periodType p.periodStart p.periodEnd
        p.windowField (computeClubLeaderboard env p.periodType p.periodStart p.periodEnd
          p.windowField d).1).2 with
    | some e => rw [h2] at h; simp [h2] at h
    | none => simp

theorem holds_congr (env : Env) (ref : DB) (p : Period) (d d2 : DB)
    (hc : d2.clubSnapshots = d.clubSnapshots) (hu : d2.userClubSnapshots = d.userClubSnapshots)
    (h : DB.holds env ref p d) : DB.holds env ref p d2 := by
  unfold DB.holds at h ⊢
  rw [hc, hu]
  exact h

/-- After a successful loop over periods of distinct types, the tables hold what the
computations of each of these periods write. -/
theorem computePeriods_holds (env : Env) (hkd : env.sorter.keyDetermined) (ref : DB) :
    ∀ (ps : List Period) (d : DB), d.WF → d.clubs = ref.clubs →
      d.userPointsWindowed = ref.userPointsWindowed →
      (ps.map (fun p => p.periodType)).Nodup → (computePeriods env ps d).2 = none →
      (computePeriods env ps d).1.WF ∧ (computePeriods env ps d).1.clubs = ref.clubs ∧
      (computePeriods env ps d).1.userPointsWindowed = ref.userPointsWindowed ∧
      (∀ p ∈ ps, DB.holds env ref p (computePeriods env ps d).1) ∧
      (∀ q : Period, q.periodType ∉ ps.map (fun p => p.periodType) → DB.holds env ref q d →
        DB.holds env ref q (computePeriods env ps d).1) := by
  intro ps
  induction ps with
  | nil =>
    intro d hwf hc hl _ _
    exact ⟨hwf, hc, hl, fun p hp => by simp at hp, fun q _ hq => hq⟩
  | cons p rest ih =>
    intro d hwf hc hl hnd h
    rw [List.map_cons, List.nodup_cons] at hnd
    obtain ⟨hnot, hnd'⟩ := hnd
    obtain ⟨h1, h2, heq⟩ := computePeriods_cons_ok env p rest d h
    obtain ⟨w1, c1, l1, u1⟩ := computeClubLeaderboard_wf env p.periodType p.periodStart
      p.periodEnd p.windowField d hwf h1
    obtain ⟨w2, c2, l2, s2⟩ := computeUserClubLeaderboard_wf env p.periodType p.periodStart
      p.periodEnd p.windowField _ w1 h2
    rw [heq] at h ⊢
    obtain ⟨i1, i2, i3, i4, i5⟩ := ih _ w2 (by rw [c2, c1, hc]) (by rw [l2, l1, hl]) hnd' h
    -- the tables hold the first period after its two computations
    have hp2 : DB.holds env ref p
        (computeUserClubLeaderboard env p.periodType p.periodStart p.periodEnd p.windowField
          (computeClubLeaderboard env p.periodType p.periodStart p.periodEnd p.windowField
            d).1).1 := by
      constructor
      · rw [s2, clubPointsOf_congr env env p.windowField p.periodStart d ref rfl hc.symm
          hl.symm]
        exact clubFix_after env p.periodType p.periodStart p.periodEnd p.windowField d hwf hkd
          h1
      · intro c hcm hdel i up hi
        obtain ⟨_, hst⟩ := userPass_facts env p.periodType p.periodStart p.periodEnd
          p.windowField _ w1 h2
        apply hst c (by rw [c1, hc]; exact hcm) hdel i up
        rw [l1, hl]
        exact hi
    refine ⟨i1, i2, i3, ?_, ?_⟩
    · intro p' hp'
      rcases List.mem_cons.1 hp' with e | e
      · subst e
        exact i5 p' hnot hp2
      · exact i4 p' e
    · intro q hq hqd
      have hq1 : q.periodType ≠ p.periodType := by
        intro e
        exact hq (by rw [List.map_cons, e]; exact List.mem_cons_self _ _)
      have hq2 : q.periodType ∉ rest.map (fun p => p.periodType) := by
        intro e
        exact hq (by rw [List.map_cons]; exact List.mem_cons_of_mem _ e)
      apply i5 q hq2
      constructor
      · rw [s2]
        exact clubFix_frame env p.periodType p.periodStart p.periodEnd p.windowField d hwf h1
          env.sorter q _ hq1 hqd.1
      · apply userFix_frame env p.periodType p.periodStart p.periodEnd p.windowField _ h2 q _ _
          hq1
        rw [u1]
        exact hqd.2

/-- A successful loop over periods on tables that hold what the computations of each of
these periods write changes no row. -/
theorem computePeriods_same (env1 env2 : Env) (hs : env2.sorter = env1.sorter) (ref : DB) :
    ∀ (ps : List Period) (d : DB), d.WF → d.clubs = ref.clubs →
      d.userPointsWindowed = ref.userPointsWindowed →
      (∀ p ∈ ps, DB.holds env1 ref p d) → (computePeriods env2 ps d).2 = none →
      (computePeriods env2 ps d).1.clubSnapshots = d.clubSnapshots ∧
      (computePeriods env2 ps d).1.userClubSnapshots = d.userClubSnapshots := by
  intro ps
  induction ps with
  | nil => intro d _ _ _ _ _; exact ⟨rfl, rfl⟩
  | cons p rest ih =>
    intro d hwf hc hl hall h
    obtain ⟨h1, h2, heq⟩ := computePeriods_cons_ok env2 p rest d h
    obtain ⟨w1, c1, l1, u1⟩ := computeClubLeaderboard_wf env2 p.periodType p.periodStart
      p.periodEnd p.windowField d hwf h1
    obtain ⟨w2, c2, l2, s2⟩ := computeUserClubLeaderboard_wf env2 p.periodType p.periodStart
      p.periodEnd p.windowField _ w1 h2
    obtain ⟨hcf, huf⟩ := hall p (List.mem_cons_self _ _)
    have e1 := clubFix_run env2 p.periodType p.periodStart p.periodEnd p.windowField d hwf
      (by
        rw [hs, clubPointsOf_congr env1 env2 p.windowField p.periodStart ref d hs hc hl]
        exact hcf) h1
    have e2 := userFix_run env2 p.periodType p.periodStart p.periodEnd p.windowField _ w1
      (by
        rw [u1, c1, hc, l1, hl]
        have : (fun id => userPointsOf env2 p.windowField id p.periodStart
            ref.userPointsWindowed)
            = (fun id => userPointsOf env1 p.windowField id p.periodStart
              ref.userPointsWindowed) := by
          funext id
          exact userPointsOf_congr env1 env2 _ _ _ _ hs
        rw [this]
        exact huf) h2
    rw [heq] at h ⊢
    obtain ⟨r1, r2⟩ := ih _ w2 (by rw [c2, c1, hc]) (by rw [l2, l1, hl])
      (fun p' hp' => holds_congr env1 ref p' d _ (by rw [s2, e1]) (by rw [e2, u1])
        (hall p' (List.mem_cons_of_mem _ hp'))) h
    exact ⟨by rw [r1, s2, e1], by rw [r2, e2, u1]⟩

end Leaderboard
